import Mathlib

/-!
# MetaKube cluster resource: identity codec, validation gate, lifecycle operations, waiters

A shallow embedding of `metakube/resource_cluster.go`.

* Go strings are Lean `String`s; the separators split on are ASCII characters (`:` in
  identities, `.` and `+` in versions), which never occur inside a multi-byte UTF-8
  sequence, so splitting on the character and on the byte agree.
* Go `map[string]string` values are association lists (`GoMap`).
* Go `error` values are the inductive `GoError`, one constructor per dynamic type the code
  asserts on, each carrying the text its `Error()` method returns.
* The remote API is a script (`metakubeProviderMeta`): for each operation, the answer to its
  i-th call. Every function that talks to the API threads the log of the calls it issued.
* `resource.RetryContext` is a loop with fuel: the number of ticks that fit in the timeout.
* `*schema.ResourceData` is a key-path store typed by the schema (`ResourceData`); the
  operations return the store they leave behind.
* Functions of the repository that live in other files (`validateClusterFields`,
  `expandClusterSpec`, `flattenClusterSpec`, `getErrorResponse`, `errorMessage`) are
  parameters, bundled in `Helpers`.
* `version.NewVersion` and `Version.LessThan` of the library `hashicorp/go-version`, which
  the version gate calls, are embedded as `goNewVersion` and `Version.LessThan`; the
  library's regular expression is embedded as the recogniser it denotes.
-/

namespace Metakube

/-! ## Go values: errors, diagnostics, maps -/

/-- A Go `error` value. One constructor per dynamic type `resource_cluster.go` asserts on;
`Other` is every other error (transport errors, other generated response types, and the
errors built by `fmt.Errorf`). `text` is what the `Error()` method returns, `code` what
`Code()` returns. -/
inductive GoError where
  | ListDatacentersDefault (code : Int) (text : String)
  | GetClusterDefault (code : Int) (text : String)
  | GetClusterForbidden (text : String)
  | PatchClusterDefault (code : Int) (text : String)
  | DetachSSHKeyFromClusterDefault (code : Int) (text : String)
  | DeleteClusterDefault (code : Int) (text : String)
  | DeleteClusterForbidden (text : String)
  | Other (text : String)
  deriving DecidableEq, Repr

/-- Go `err.Error()`. -/
def GoError.Error : GoError → String
  | .ListDatacentersDefault _ t => t
  | .GetClusterDefault _ t => t
  | .GetClusterForbidden t => t
  | .PatchClusterDefault _ t => t
  | .DetachSSHKeyFromClusterDefault _ t => t
  | .DeleteClusterDefault _ t => t
  | .DeleteClusterForbidden t => t
  | .Other t => t

/-- Go `fmt.Errorf` with the format already applied. -/
def Errorf (text : String) : GoError := GoError.Other text

/-- Go `http.StatusNotFound`. -/
def StatusNotFound : Int := 404

/-- Go `http.StatusConflict`. -/
def StatusConflict : Int := 409

/-- Go `diag.Severity`. -/
inductive Severity where
  | Error
  | Warning
  deriving DecidableEq, Repr

/-- Go `diag.Diagnostic`. -/
structure Diagnostic where
  severity : Severity
  Summary : String
  Detail : String := ""
  AttributePath : List String := []
  deriving DecidableEq, Repr

/-- Go `diag.Diagnostics`; `nil` is the empty list. -/
abbrev Diagnostics := List Diagnostic

/-- Go `diag.FromErr`. -/
def diagFromErr (err : GoError) : Diagnostics :=
  [{ severity := Severity.Error, Summary := err.Error }]

/-- Go `diag.Errorf` with the format already applied. -/
def diagErrorf (text : String) : Diagnostics :=
  [{ severity := Severity.Error, Summary := text }]

/-- Go `map[string]string` as an association list; a key is looked up at its first entry. -/
abbrev GoMap := List (String × String)

/-- Go `m[k]` with the presence flag. -/
def mapLookup (m : GoMap) (k : String) : Option String := List.lookup k m

/-- Keys of a map, in the order a `range` loop visits them (Go leaves the order open). -/
def mapKeys (m : GoMap) : List String := m.map Prod.fst

/-- Go builtin `delete(m, k)`. -/
def mapDelete (m : GoMap) (k : String) : GoMap := m.filter (fun e => e.1 ≠ k)

/-! ## Strings: `strings.SplitN` for a one-character separator -/

/-- Split `s` at the first occurrence of `sep` (Go: `m := Index(s, sep)`, then `s[:m]` and
`s[m+len(sep):]`); `none` when `sep` does not occur (`m < 0`). -/
def cut (sep : Char) : List Char → Option (List Char × List Char)
  | [] => none
  | c :: cs =>
    if c = sep then some ([], cs)
    else match cut sep cs with
      | none => none
      | some (a, rest) => some (c :: a, rest)

/-- The loop of Go `genSplit`: at most `k` cuts, then the unsplit remainder. -/
def splitLoop (sep : Char) : Nat → List Char → List (List Char)
  | 0, s => [s]
  | k + 1, s =>
    match cut sep s with
    | none => [s]
    | some (a, rest) => a :: splitLoop sep k rest

/-- Go `strings.SplitN(s, sep, n)` for a one-character `sep`: `n = 0` gives no parts,
`n < 0` all parts, `n > 0` at most `n` parts, the last being the unsplit remainder. The
count is capped at `len(s) + 1` as in `genSplit`. -/
def SplitN (s : String) (sep : Char) (n : Int) : List String :=
  if n = 0 then []
  else
    let n1 : Nat := if n < 0 then s.data.count sep + 1 else n.toNat
    let n2 : Nat := if n1 > s.data.length + 1 then s.data.length + 1 else n1
    (splitLoop sep (n2 - 1) s.data).map String.mk

/-! ## Identity codec (`resource_cluster.go` 217-229) -/

/-- Go `metakubeClusterMakeID`: `fmt.Sprintf("%s:%s:%s", project, seedDC, id)`. -/
def metakubeClusterMakeID (project seedDC id : String) : String :=
  project ++ ":" ++ seedDC ++ ":" ++ id

/-- The error `metakubeClusterParseID` returns. -/
def parseIDError (id : String) : GoError :=
  Errorf ("unexpected format of ID (" ++ id ++ "), expected project_id:seed_dc:id")

/-- Go `metakubeClusterParseID`: the four results are the three parts and the error
(`none` is Go `nil`). -/
def metakubeClusterParseID (id : String) : String × String × String × Option GoError :=
  match SplitN id ':' 3 with
  | [p0, p1, p2] =>
    if p0 = "" ∨ p1 = "" ∨ p2 = "" then ("", "", "", some (parseIDError id))
    else (p0, p1, p2, none)
  | _ => ("", "", "", some (parseIDError id))

/-! ## Remote API and declarative tree -/

/-- Go `models.HealthStatus` (an `int64`). -/
abbrev HealthStatus := Int

/-- Go constant `healthStatusUp` (`resource_cluster.go` 21-23). -/
def healthStatusUp : HealthStatus := 1

/-- Go `models.ClusterHealth`: the seven indicators `waitClusterReady` reads. -/
structure ClusterHealth where
  Apiserver : HealthStatus
  CloudProviderInfrastructure : HealthStatus
  Controller : HealthStatus
  Etcd : HealthStatus
  MachineController : HealthStatus
  Scheduler : HealthStatus
  UserClusterControllerManager : HealthStatus
  deriving DecidableEq, Repr

/-- Go `models.Project`: the part `excludeProjectLabels` reads. -/
structure Project where
  Labels : GoMap
  deriving DecidableEq, Repr

/-- Go `models.NetworkRanges`. -/
structure NetworkRanges where
  CIDRBlocks : List String := []
  deriving DecidableEq, Repr

/-- Go `models.ClusterNetworkingConfig`; `none` is a nil pointer. -/
structure ClusterNetworkingConfig where
  DNSDomain : String := ""
  Pods : Option NetworkRanges := none
  Services : Option NetworkRanges := none
  deriving DecidableEq, Repr

/-- Go `models.CloudSpec`: the part the code reads. -/
structure CloudSpec where
  DatacenterName : String := ""
  deriving DecidableEq, Repr

/-- Go `models.ClusterSpec`: the part the code reads. -/
structure ClusterSpec where
  Version : String := ""
  Cloud : CloudSpec := {}
  ClusterNetwork : Option ClusterNetworkingConfig := none
  deriving DecidableEq, Repr

/-- Go `models.Cluster`: the part the code reads. The two timestamps stand for the result
of their `String()` method; `Type_` is the Go field `Type`. -/
structure Cluster where
  ID : String := ""
  Name : String := ""
  Labels : GoMap := []
  DeletionTimestamp : String := ""
  CreationTimestamp : String := ""
  Type_ : String := ""
  Credential : String := ""
  Spec : ClusterSpec := {}
  deriving DecidableEq, Repr

/-- Go `models.CreateClusterSpec`: the body of the create request. -/
structure CreateClusterSpec where
  Cluster : Cluster := {}
  DNSDomain : String := ""
  PodsCIDR : String := ""
  ServicesCIDR : String := ""
  deriving DecidableEq, Repr

/-- Go `models.DatacenterSpec`: the seed, and for each cloud variant whether its spec is
non-nil. -/
structure DatacenterSpec where
  Seed : String := ""
  Openstack : Bool := false
  Aws : Bool := false
  Azure : Bool := false
  deriving DecidableEq, Repr

/-- Go `models.DatacenterMeta`. -/
structure DatacenterMeta where
  Name : String := ""
  deriving DecidableEq, Repr

/-- Go `models.Datacenter`. -/
structure Datacenter where
  Metadata : DatacenterMeta := {}
  Spec : DatacenterSpec := {}
  deriving DecidableEq, Repr

/-- Go `models.SSHKey`: the part the code reads. -/
structure SSHKey where
  ID : String := ""
  deriving DecidableEq, Repr

/-- One remote call, with the addressing parameters set on its parameter object. -/
inductive Call where
  | ListDatacenters
  | GetProject (projectID : String)
  | CreateCluster (projectID seedDC : String) (body : CreateClusterSpec)
  | GetCluster (projectID seedDC clusterID : String)
  | PatchCluster (projectID seedDC clusterID : String)
  | DeleteCluster (projectID seedDC clusterID : String)
  | GetClusterHealth (projectID seedDC clusterID : String)
  | ListSSHKeysAssignedToCluster (projectID seedDC clusterID : String)
  | AssignSSHKeyToCluster (projectID seedDC clusterID keyID : String)
  | DetachSSHKeyFromCluster (projectID seedDC clusterID keyID : String)
  deriving DecidableEq, Repr

/-- Is the call a `GetProject`? -/
def Call.isGetProject : Call → Bool
  | .GetProject _ => true
  | _ => false

/-- Is the call a `GetCluster`? -/
def Call.isGetCluster : Call → Bool
  | .GetCluster _ _ _ => true
  | _ => false

/-- Is the call a `DeleteCluster`? -/
def Call.isDeleteCluster : Call → Bool
  | .DeleteCluster _ _ _ => true
  | _ => false

/-- Is the call a `GetClusterHealth`? -/
def Call.isGetClusterHealth : Call → Bool
  | .GetClusterHealth _ _ _ => true
  | _ => false

/-- Is the call a `ListDatacenters`? -/
def Call.isListDatacenters : Call → Bool
  | .ListDatacenters => true
  | _ => false

/-- Is the call a `CreateCluster`? -/
def Call.isCreateCluster : Call → Bool
  | .CreateCluster _ _ _ => true
  | _ => false

/-- Is the call a `PatchCluster`? -/
def Call.isPatchCluster : Call → Bool
  | .PatchCluster _ _ _ => true
  | _ => false

/-- Is the call a `ListSSHKeysAssignedToCluster`? -/
def Call.isListSSHKeysAssignedToCluster : Call → Bool
  | .ListSSHKeysAssignedToCluster _ _ _ => true
  | _ => false

/-- Is the call an `AssignSSHKeyToCluster`? -/
def Call.isAssignSSHKeyToCluster : Call → Bool
  | .AssignSSHKeyToCluster _ _ _ _ => true
  | _ => false

/-- Is the call a `DetachSSHKeyFromCluster`? -/
def Call.isDetachSSHKeyFromCluster : Call → Bool
  | .DetachSSHKeyFromCluster _ _ _ _ => true
  | _ => false

/-- Go `*metakubeProviderMeta`, seen from the code: `k.client.Project.X(p, k.auth)` returns
the scripted answer to the i-th call of operation `X` (counting from 0). Quantifying over
all scripts covers every behaviour of the remote system. -/
structure metakubeProviderMeta where
  GetProject : Nat → Except GoError Project
  GetClusterHealth : Nat → Except GoError ClusterHealth
  DeleteCluster : Nat → Option GoError
  GetCluster : Nat → Except GoError Cluster
  ListDatacenters : Nat → Except GoError (List Datacenter) := fun _ => .ok []
  CreateCluster : Nat → Except GoError Cluster := fun _ => .ok {}
  PatchCluster : Nat → Option GoError := fun _ => none
  ListSSHKeysAssignedToCluster : Nat → Except GoError (List SSHKey) := fun _ => .ok []
  AssignSSHKeyToCluster : Nat → Option GoError := fun _ => none
  DetachSSHKeyFromCluster : Nat → Option GoError := fun _ => none

/-- The value `d.Get("spec")` returns and `d.Set("spec", v)` takes: the nested blocks as
leaves by path. It only passes through `expandClusterSpec` and `flattenClusterSpec`. -/
abbrev SpecTree := List (String × String)

/-- Go `*schema.ResourceData`, a key-path store typed by the schema.
* `Id` is `d.Id()`.
* `strings` holds the attributes of type string by path: `d.Get(path).(string)`, the empty
  string for a path that is not set.
* `counts` holds the block counts: `d.Get(path + ".#").(int)`.
* `present` lists the paths for which `d.GetOk(path)` reports `ok`.
* `labels` is `d.Get("labels")`, `spec` is `d.Get("spec")`.
* `sshkeys` is `d.Get("sshkeys").(*schema.Set).List()`; `sshkeysOld` the previous value
  that `d.GetChange("sshkeys")` returns.
* `changed` lists the keys for which `d.HasChange(key)` holds.
The store is flat: `d.Set` binds the path it is given. The code never reads a path below
one it has set. -/
structure ResourceData where
  Id : String
  strings : List (String × String) := []
  counts : List (String × Int) := []
  present : List String := []
  labels : Option GoMap := none
  spec : SpecTree := []
  sshkeys : List String := []
  sshkeysOld : List String := []
  changed : List String := []
  deriving DecidableEq, Repr

/-! ## Retry loop (`helper/resource`) -/

/-- Go `resource.RetryError`. -/
structure RetryError where
  Err : GoError
  Retryable : Bool
  deriving DecidableEq, Repr

/-- Go `resource.RetryableError`. -/
def RetryableError (err : GoError) : RetryError := { Err := err, Retryable := true }

/-- Go `resource.NonRetryableError`. -/
def NonRetryableError (err : GoError) : RetryError := { Err := err, Retryable := false }

/-- The error `RetryContext` returns when the timeout passes before any tick ended. -/
def timeoutError : GoError := GoError.Other "timeout while waiting for state to become success"

/-- Go `resource.RetryContext(ctx, timeout, f)`: call `f` until it returns `nil` (success)
or a non-retryable error, or until the timeout passes. The timeout is the number of ticks
that fit in it; `resultErr` is the error of the last tick, which takes precedence over the
timeout error. The state `σ` holds what the closure `f` captures and mutates. -/
def RetryContext {σ : Type} (f : σ → Option RetryError × σ) :
    Nat → σ → Option GoError → Option GoError × σ
  | 0, s, resultErr => (some (resultErr.getD timeoutError), s)
  | n + 1, s, _ =>
    match f s with
    | (none, s1) => (none, s1)
    | (some rerr, s1) =>
      if rerr.Retryable then RetryContext f n s1 (some rerr.Err) else (some rerr.Err, s1)

/-! ## Version gate (`resource_cluster.go` 113-132) -/

/-- The predicate passed to `customdiff.ForceNewIfChange("spec.0.version", ...)`.
`NewVersion` and `LessThan` are those of `hashicorp/go-version`, taken as parameters
(`goNewVersion` and `Version.LessThan` below): `NewVersion` returns `none` where the
library returns an error. -/
def versionForceNewIfChange {V : Type} (NewVersion : String → Option V)
    (LessThan : V → V → Bool) (old new : String) : Bool :=
  match NewVersion new with
  | none => false
  | some newVer =>
    match NewVersion old with
    | none => false
    | some oldVer => if LessThan newVer oldVer then true else false

/-- Decimal value of a segment: a non-empty run of digits that fits an `int64`
(`strconv.ParseInt(str, 10, 64)`). -/
def parseSegment (s : List Char) : Option Nat :=
  if s = [] ∨ ¬ s.all Char.isDigit then none
  else
    let v := s.foldl (fun acc c => 10 * acc + (c.toNat - 48)) 0
    if v ≤ 9223372036854775807 then some v else none

/-- All the values of a list of optional values, if none is missing. -/
def allSome : List (Option Nat) → Option (List Nat)
  | [] => some []
  | none :: _ => none
  | some v :: rest => (allSome rest).map (fun vs => v :: vs)

/-- A parser of plain versions only: an optional `v`, then dot-separated decimal segments;
the result is the segments, padded with zeros to three. A version with a pre-release or
build suffix gives `none` here; `goNewVersion` below is the parser of the library. It is
used where a version parser is a parameter (node-deployment validation). -/
def plainNewVersion (v : String) : Option (List Nat) :=
  let body := match v.data with
    | 'v' :: rest => rest
    | rest => rest
  match allSome ((splitLoop '.' body.length body).map parseSegment) with
  | none => none
  | some segs => some (segs ++ List.replicate (3 - segs.length) 0)

/-- Segment-wise numeric comparison as in `Version.Compare`: the first differing segment
decides; when one list runs out, the other is greater only if a segment left in it is
not zero. -/
def segmentsLess : List Nat → List Nat → Bool
  | [], ys => ys.any (fun y => y ≠ 0)
  | _ :: _, [] => false
  | x :: xs, y :: ys => if x < y then true else if x = y then segmentsLess xs ys else false

/-- The segment-wise numeric ordering on plain versions, for use with `plainNewVersion`. -/
def plainLessThan (a b : List Nat) : Bool := segmentsLess a b

/-! ## The library `hashicorp/go-version` (outside the repository): `NewVersion`, `LessThan` -/

/-- The struct `Version` of `hashicorp/go-version`. -/
structure Version where
  metadata : String
  pre : String
  segments : List Nat
  si : Nat
  original : String
  deriving DecidableEq, Repr

/-- The character class `[0-9A-Za-z\-~]` of the library's regular expression. -/
def isIdentChar (c : Char) : Bool :=
  c.isDigit || c.isAlpha || c == '-' || c == '~'

/-- A match of `[0-9A-Za-z\-~]+(\.[0-9A-Za-z\-~]+)*`: dot-separated parts, none empty, of
characters of the class. -/
def identParts (s : List Char) : Bool :=
  (splitLoop '.' s.length s).all (fun p => !p.isEmpty && p.all isIdentChar)

/-- The pre-release that the library's regular expression captures from what stands between
the numeric segments and the build metadata. Group 4 is a dash followed by parts of which
the first starts with a digit; group 7 is an optional dash followed by parts of which the
first starts with a letter, a dash or a tilde; the dash is part of the capture only where
no character of the class follows it. `none` when the text matches neither group. -/
def capturePre (rest : List Char) : Option (List Char) :=
  match rest with
  | [] => some []
  | '-' :: r =>
    match r with
    | c :: _ =>
      if isIdentChar c then (if identParts r then some r else none)
      else (if identParts rest then some rest else none)
    | [] => some rest
  | c :: _ =>
    if (c.isAlpha || c == '~') && identParts rest then some rest else none

/-- Go `version.NewVersion` of `hashicorp/go-version`. The string must match, from start to
end, the regular expression
`v?([0-9]+(\.[0-9]+)*?)`
`(-([0-9]+[0-9A-Za-z\-~]*(\.[0-9A-Za-z\-~]+)*)|(-?([A-Za-z\-~]+[0-9A-Za-z\-~]*(\.[0-9A-Za-z\-~]+)*)))?`
`(\+([0-9A-Za-z\-~]+(\.[0-9A-Za-z\-~]+)*))?`:
an optional `v`, dot-separated runs of digits, an optional pre-release and an optional `+`
with build metadata. No `+` can stand before the metadata, so the metadata is what follows
the first `+`; a pre-release starts with neither a digit nor a dot, so the numeric part is
the longest beginning made of digits and dots. Each run of digits is parsed as an `int64`
(`strconv.ParseInt`), and the segments are padded with zeros to three; the pre-release is
group 7, or group 4 if that is empty. `none` where the library returns an error. -/
def goNewVersion (v : String) : Option Version :=
  let s := match v.data with
    | 'v' :: rest => rest
    | rest => rest
  let body := match cut '+' s with
    | some (b, _) => b
    | none => s
  let metadata : Option (List Char) := match cut '+' s with
    | some (_, m) => if identParts m then some m else none
    | none => some []
  let numeric := body.takeWhile (fun c => c.isDigit || c == '.')
  let rest := body.dropWhile (fun c => c.isDigit || c == '.')
  match metadata, allSome ((splitLoop '.' numeric.length numeric).map parseSegment),
      capturePre rest with
  | some m, some segs, some pre =>
    some { metadata := String.mk m, pre := String.mk pre,
           segments := segs ++ List.replicate (3 - segs.length) 0,
           si := segs.length, original := v }
  | _, _, _ => none

/-- The decimal digit of a value below ten. -/
def digitChar (d : Nat) : Char := Char.ofNat (48 + d)

/-- The decimal digits of `n`, most significant first; `fuel` bounds their number. -/
def formatDigits : Nat → Nat → List Char
  | 0, n => [digitChar (n % 10)]
  | fuel + 1, n =>
    if n < 10 then [digitChar n] else formatDigits fuel (n / 10) ++ [digitChar (n % 10)]

/-- Go `strconv.FormatInt(s, 10)` on a segment (segments are never negative). -/
def FormatInt (n : Nat) : List Char := formatDigits n n

/-- Go `strings.Join(fmtParts, ".")` on the decimal renderings of the segments. -/
def renderSegments : List Nat → List Char
  | [] => []
  | [x] => FormatInt x
  | x :: y :: rest => FormatInt x ++ '.' :: renderSegments (y :: rest)

/-- Go `Version.String` of the library: the segments joined by dots, then `-` and the
pre-release if there is one, then `+` and the metadata if there is any. -/
def Version.String (v : Version) : String :=
  String.mk (renderSegments v.segments
    ++ (if v.pre ≠ "" then '-' :: v.pre.data else [])
    ++ (if v.metadata ≠ "" then '+' :: v.metadata.data else []))

/-- Go `allZero` of the library. -/
def allZero (segs : List Nat) : Bool := segs.all (fun s => s == 0)

/-- The segment loop of Go `Version.Compare`: the first differing segment decides; when one
list runs out, the other is greater only if a segment left in it is not zero. -/
def compareSegments : List Nat → List Nat → Int
  | [], other => if !allZero other then -1 else 0
  | x :: xs, [] => if !allZero (x :: xs) then 1 else 0
  | x :: xs, y :: ys => if x = y then compareSegments xs ys else if x < y then -1 else 1

/-- Go `strconv.ParseInt(s, 10, 64)` on a part of a pre-release: the value and whether the
error is nil. The syntax is an optional sign and at least one digit; a syntax error gives
the value 0, a value out of range gives the nearest bound of `int64`. -/
def parsePartInt (s : String) : Int × Bool :=
  let digits := match s.data with
    | '-' :: r => r
    | '+' :: r => r
    | r => r
  if digits = [] ∨ ¬ digits.all Char.isDigit then (0, false)
  else
    let n : Int := Int.ofNat (digits.foldl (fun acc c => 10 * acc + (c.toNat - 48)) 0)
    let v : Int := match s.data with
      | '-' :: _ => -n
      | _ => n
    if v < -9223372036854775808 then (-9223372036854775808, false)
    else if 9223372036854775807 < v then (9223372036854775807, false)
    else (v, true)

/-- Go string comparison `a > b`: lexicographic by bytes (the order of the code points). -/
def stringGreater (a b : String) : Bool :=
  decide (b.data.map Char.toNat < a.data.map Char.toNat)

/-- Go `comparePart` of the library. -/
def comparePart (preSelf preOther : String) : Int :=
  if preSelf = preOther then 0
  else
    let selfInt := (parsePartInt preSelf).1
    let selfNumeric := (parsePartInt preSelf).2
    let otherInt := (parsePartInt preOther).1
    let otherNumeric := (parsePartInt preOther).2
    if preSelf = "" then (if otherNumeric then -1 else 1)
    else if preOther = "" then (if selfNumeric then 1 else -1)
    else if selfNumeric && !otherNumeric then -1
    else if !selfNumeric && otherNumeric then 1
    else if !selfNumeric && !otherNumeric && stringGreater preSelf preOther then 1
    else if selfInt > otherInt then 1
    else -1

/-- The loop of Go `comparePrereleases`: `fuel` is the number of indices still to visit,
`i` the next index. -/
def comparePrereleasesLoop (self other : List String) : Nat → Nat → Int
  | 0, _ => 0
  | fuel + 1, i =>
    let partSelfPre := if i < self.length then self.getD i "" else ""
    let partOtherPre := if i < other.length then other.getD i "" else ""
    let compare := comparePart partSelfPre partOtherPre
    if compare ≠ 0 then compare else comparePrereleasesLoop self other fuel (i + 1)

/-- Go `comparePrereleases` of the library. -/
def comparePrereleases (v other : String) : Int :=
  if v = other then 0
  else
    let selfPreReleaseMeta := SplitN v '.' (-1)
    let otherPreReleaseMeta := SplitN other '.' (-1)
    let biggestLen :=
      if selfPreReleaseMeta.length > otherPreReleaseMeta.length then selfPreReleaseMeta.length
      else otherPreReleaseMeta.length
    comparePrereleasesLoop selfPreReleaseMeta otherPreReleaseMeta biggestLen 0

/-- Go `Version.Compare` of the library. -/
def Version.Compare (v other : Version) : Int :=
  if v.String = other.String then 0
  else if v.segments = other.segments then
    if v.pre = "" ∧ other.pre = "" then 0
    else if v.pre = "" then 1
    else if other.pre = "" then -1
    else comparePrereleases v.pre other.pre
  else compareSegments v.segments other.segments

/-- Go `Version.LessThan` of the library. -/
def Version.LessThan (v other : Version) : Bool := decide (v.Compare other < 0)

/-- The new segments are below the old ones in the segment-wise numeric ordering: at the
first position where the two lists differ the new segment is the smaller number, or the new
list is a proper beginning of the old one and a segment the old one has in addition is not
zero. -/
def segmentsBelow (new old : List Nat) : Prop :=
  (∃ common x y restNew restOld,
    new = common ++ x :: restNew ∧ old = common ++ y :: restOld ∧ x < y) ∨
  (∃ extra, old = new ++ extra ∧ ∃ y ∈ extra, y ≠ 0)

/-! ## Label reconciler (`resource_cluster.go` 392-409) -/

section
variable (getErrorResponse : GoError → String)

/-- Go `excludeProjectLabels`. `getErrorResponse` is a helper of the repository that renders
an error; it is a parameter. Results: the labels, the diagnostics, the call log. -/
def excludeProjectLabels (k : metakubeProviderMeta) (projectID : String) (allLabels : GoMap)
    (log : List Call) : GoMap × Diagnostics × List Call :=
  let log1 := log ++ [Call.GetProject projectID]
  match k.GetProject (log.countP Call.isGetProject) with
  | .error err => ([], diagErrorf ("get project details " ++ getErrorResponse err), log1)
  | .ok r => ((mapKeys r.Labels).foldl mapDelete allLabels, [], log1)

/-! ## Readiness waiter (`resource_cluster.go` 637-664) -/

/-- The closure `waitClusterReady` passes to `resource.RetryContext`: one tick. -/
def waitClusterReady_retryFunc (k : metakubeProviderMeta) (d : ResourceData)
    (projectID seedDC clusterID : String) (log : List Call) : Option RetryError × List Call :=
  let log1 := log ++ [Call.GetClusterHealth projectID seedDC clusterID]
  match k.GetClusterHealth (log.countP Call.isGetClusterHealth) with
  | .error err =>
    (some (RetryableError (Errorf
      ("unable to get cluster '" ++ d.Id ++ "' health: " ++ getErrorResponse err))), log1)
  | .ok r =>
    if r.Apiserver = healthStatusUp ∧
        r.CloudProviderInfrastructure = healthStatusUp ∧
        r.Controller = healthStatusUp ∧
        r.Etcd = healthStatusUp ∧
        r.MachineController = healthStatusUp ∧
        r.Scheduler = healthStatusUp ∧
        r.UserClusterControllerManager = healthStatusUp then
      (none, log1)
    else
      (some (RetryableError (Errorf ("waiting for cluster '" ++ d.Id ++ "' to be ready"))),
        log1)

/-- Go `waitClusterReady`; `ticks` is the number of ticks `d.Timeout(schema.TimeoutCreate)`
allows. Results: the error (`none` is `nil`) and the call log. -/
def waitClusterReady (k : metakubeProviderMeta) (d : ResourceData)
    (projectID seedDC clusterID : String) (ticks : Nat) (log : List Call) :
    Option GoError × List Call :=
  RetryContext (waitClusterReady_retryFunc getErrorResponse k d projectID seedDC clusterID)
    ticks log none

/-! ## Delete waiter (`resource_cluster.go` 666-725) -/

/-- What the delete closure captures and mutates: the flag `deleteSent` and the call log. -/
structure DeleteState where
  deleteSent : Bool
  log : List Call
  deriving DecidableEq, Repr

/-- Lines 699-719 of the delete closure: the existence poll. -/
def resourceClusterDelete_poll (k : metakubeProviderMeta) (d : ResourceData)
    (projectID seedDC clusterID : String) (st : DeleteState) :
    Option RetryError × DeleteState :=
  let st1 : DeleteState :=
    { st with log := st.log ++ [Call.GetCluster projectID seedDC clusterID] }
  match k.GetCluster (st.log.countP Call.isGetCluster) with
  | .error err =>
    match err with
    | .GetClusterDefault code _ =>
      if code = StatusNotFound then (none, st1)
      else (some (NonRetryableError (Errorf
        ("unable to get cluster '" ++ d.Id ++ "': " ++ getErrorResponse err))), st1)
    | .GetClusterForbidden _ => (none, st1)
    | _ => (some (NonRetryableError (Errorf
        ("unable to get cluster '" ++ d.Id ++ "': " ++ getErrorResponse err))), st1)
  | .ok _ =>
    (some (RetryableError (Errorf ("cluster '" ++ d.Id ++ "' deletion in progress"))), st1)

/-- The closure `resourceClusterDelete` passes to `resource.RetryContext`: one tick. -/
def resourceClusterDelete_retryFunc (k : metakubeProviderMeta) (d : ResourceData)
    (projectID seedDC clusterID : String) (st : DeleteState) :
    Option RetryError × DeleteState :=
  if !st.deleteSent then
    let st1 : DeleteState :=
      { st with log := st.log ++ [Call.DeleteCluster projectID seedDC clusterID] }
    match k.DeleteCluster (st.log.countP Call.isDeleteCluster) with
    | some err =>
      match err with
      | .DeleteClusterDefault code _ =>
        if code = StatusConflict then (some (RetryableError err), st1)
        else if code = StatusNotFound then (none, st1)
        else (some (NonRetryableError (Errorf
          ("unable to delete cluster '" ++ d.Id ++ "': " ++ getErrorResponse err))), st1)
      | .DeleteClusterForbidden _ => (none, st1)
      | _ => (some (NonRetryableError (Errorf
          ("unable to delete cluster '" ++ d.Id ++ "': " ++ getErrorResponse err))), st1)
    | none =>
      resourceClusterDelete_poll getErrorResponse k d projectID seedDC clusterID
        { st1 with deleteSent := true }
  else
    resourceClusterDelete_poll getErrorResponse k d projectID seedDC clusterID st

/-- Go `resourceClusterDelete`; `ticks` is the number of ticks
`d.Timeout(schema.TimeoutDelete)` allows. Results: the diagnostics and the call log. -/
def resourceClusterDelete (k : metakubeProviderMeta) (d : ResourceData) (ticks : Nat)
    (log : List Call) : Diagnostics × List Call :=
  match metakubeClusterParseID d.Id with
  | (_, _, _, some err) => (diagFromErr err, log)
  | (projectID, seedDC, clusterID, none) =>
    match RetryContext
        (resourceClusterDelete_retryFunc getErrorResponse k d projectID seedDC clusterID)
        ticks { deleteSent := false, log := log } none with
    | (some err, st) => (diagFromErr err, st.log)
    | (none, st) => ([], st.log)

end

/-! ## Accessors of the declarative tree -/

/-- Go `d.Get(path).(string)`. -/
def ResourceData.GetString (d : ResourceData) (path : String) : String :=
  (List.lookup path d.strings).getD ""

/-- Go `d.Get(path).(int)`, used for the block counts `….#`. -/
def ResourceData.GetInt (d : ResourceData) (path : String) : Int :=
  (List.lookup path d.counts).getD 0

/-- The flag `ok` of Go `d.GetOk(path)`. -/
def ResourceData.GetOk (d : ResourceData) (path : String) : Bool :=
  decide (path ∈ d.present)

/-- Go `d.HasChange(key)`. -/
def ResourceData.HasChange (d : ResourceData) (key : String) : Bool :=
  decide (key ∈ d.changed)

/-- Go `d.SetId(id)`. -/
def ResourceData.SetId (d : ResourceData) (id : String) : ResourceData :=
  { d with Id := id }

/-- Binding a string attribute, the write of `d.Set(path, v)` for a string `v`. -/
def ResourceData.writeString (path v : String) (d : ResourceData) : ResourceData :=
  { d with strings := (path, v) :: d.strings }

/-! ## Preserved values (`resource_cluster.go` 436-500) -/

/-- Go `clusterOpenstackPreservedValues`. The three fields are of type `interface{}` and
hold what `d.Get` returns for paths the schema types as strings. -/
structure clusterOpenstackPreservedValues where
  openstackUsername : String
  openstackPassword : String
  openstackTenant : String
  deriving DecidableEq, Repr

/-- Go `models.AzureCloudSpec`. -/
structure AzureCloudSpec where
  AvailabilitySet : String
  ClientID : String
  ClientSecret : String
  SubscriptionID : String
  TenantID : String
  ResourceGroup : String
  RouteTableName : String
  SecurityGroup : String
  SubnetName : String
  VNetName : String
  deriving DecidableEq, Repr

/-- Go `models.AWSCloudSpec`. -/
structure AWSCloudSpec where
  AccessKeyID : String
  SecretAccessKey : String
  VPCID : String
  SecurityGroupID : String
  RouteTableID : String
  InstanceProfileName : String
  ControlPlaneRoleARN : String
  deriving DecidableEq, Repr

/-- Go `clusterPreserveValues`; `none` is a nil pointer. -/
structure clusterPreserveValues where
  openstack : Option clusterOpenstackPreservedValues
  azure : Option AzureCloudSpec
  aws : Option AWSCloudSpec
  deriving DecidableEq, Repr

/-- The closure `key` of `readClusterPreserveValues`: `fmt.Sprint("spec.0.cloud.0.", s)`. -/
def preserveKey (s : String) : String := "spec.0.cloud.0." ++ s

/-- Go `readClusterPreserveValues`. -/
def readClusterPreserveValues (d : ResourceData) : clusterPreserveValues :=
  let openstack : Option clusterOpenstackPreservedValues :=
    if d.GetOk (preserveKey "openstack.0") then
      some {
        openstackUsername := d.GetString (preserveKey "openstack.0.username")
        openstackPassword := d.GetString (preserveKey "openstack.0.password")
        openstackTenant := d.GetString (preserveKey "openstack.0.tenant") }
    else none
  let azure : Option AzureCloudSpec :=
    if d.GetOk (preserveKey "azure.0") then
      some {
        AvailabilitySet := d.GetString (preserveKey "azure.0.availability_set")
        ClientID := d.GetString (preserveKey "azure.0.client_id")
        ClientSecret := d.GetString (preserveKey "azure.0.client_secret")
        SubscriptionID := d.GetString (preserveKey "azure.0.subscription_id")
        TenantID := d.GetString (preserveKey "azure.0.tenant_id")
        ResourceGroup := d.GetString (preserveKey "azure.0.resource_group")
        RouteTableName := d.GetString (preserveKey "azure.0.route_table")
        SecurityGroup := d.GetString (preserveKey "azure.0.security_group")
        SubnetName := d.GetString (preserveKey "azure.0.subnet")
        VNetName := d.GetString (preserveKey "azure.0.vnet") }
    else none
  let aws : Option AWSCloudSpec :=
    if d.GetOk (preserveKey "aws.0") then
      some {
        AccessKeyID := d.GetString (preserveKey "aws.0.access_key_id")
        SecretAccessKey := d.GetString (preserveKey "aws.0.secret_access_key")
        VPCID := d.GetString (preserveKey "aws.0.vpc_id")
        SecurityGroupID := d.GetString (preserveKey "aws.0.security_group_id")
        RouteTableID := d.GetString (preserveKey "aws.0.route_table_id")
        InstanceProfileName := d.GetString (preserveKey "aws.0.instance_profile_name")
        ControlPlaneRoleARN := d.GetString (preserveKey "aws.0.role_arn") }
    else none
  { openstack := openstack, azure := azure, aws := aws }

/-! ## What the file uses from outside it -/

/-- Functions of the repository that live in other files, and the schema check of `d.Set`;
all are parameters of the model.
* `getErrorResponse`, `errorMessage` render an error or its payload.
* `validateClusterFields` returns the diagnostics of field validation; the remote calls it
  may issue itself are not in the call log.
* `expandClusterSpec`, `flattenClusterSpec` are the spec mapper.
* `setFails key` tells whether `d.Set(key, v)` returns an error for the value the code
  passes; a failed `Set` leaves the store as it was. -/
structure Helpers where
  getErrorResponse : GoError → String
  errorMessage : GoError → String
  validateClusterFields : metakubeProviderMeta → ResourceData → Diagnostics
  expandClusterSpec : SpecTree → String → ClusterSpec
  flattenClusterSpec : clusterPreserveValues → ClusterSpec → SpecTree
  setFails : String → Bool

/-- Go `d.Set(key, v)`: the error (`none` is `nil`) and the store afterwards; `write` is
the binding of `v`. -/
def ResourceData.Set (hp : Helpers) (d : ResourceData) (key : String)
    (write : ResourceData → ResourceData) : Option GoError × ResourceData :=
  if hp.setFails key then (some (Errorf ("cannot set " ++ key)), d) else (none, write d)

/-- The diagnostic the read function returns when `d.Set(key, v)` fails. -/
def invalidValue (key : String) : Diagnostics :=
  [{ severity := Severity.Error, Summary := "Invalid value", AttributePath := [key] }]

/-! ## Datacenter lookup (`resource_cluster.go` 243-290) -/

/-- Go `getLabels`. -/
def getLabels (d : ResourceData) : Option GoMap :=
  match d.labels with
  | some m => some m
  | none => none

/-- Go `isOpenstack`. -/
def isOpenstack (d : ResourceData) : Bool := d.GetInt "spec.0.cloud.0.openstack.#" == 1

/-- Go `isAzure`. -/
def isAzure (d : ResourceData) : Bool := d.GetInt "spec.0.cloud.0.azure.#" == 1

/-- Go `isAWS`. -/
def isAWS (d : ResourceData) : Bool := d.GetInt "spec.0.cloud.0.aws.#" == 1

/-- The condition of line 264: the datacenter supports the declared cloud variant. -/
def supportsVariant (d : ResourceData) (v : Datacenter) : Bool :=
  (isOpenstack d && v.Spec.Openstack) || (isAWS d && v.Spec.Aws) || (isAzure d && v.Spec.Azure)

/-- The loop of `getDatacenterByName` (lines 263-270): the datacenter returned from inside
the loop, if any, and the slice `available`. -/
def getDatacenterByName_loop (d : ResourceData) (name : String) :
    List Datacenter → List String → Option Datacenter × List String
  | [], available => (none, available)
  | v :: rest, available =>
    let available1 := if supportsVariant d v then available ++ [v.Metadata.Name] else available
    if v.Spec.Seed ≠ "" ∧ v.Metadata.Name = name then (some v, available1)
    else getDatacenterByName_loop d name rest available1

/-- Go `fmt.Sprintf("%v", xs)` for a slice of strings. -/
def formatStrings (xs : List String) : String := "[" ++ " ".intercalate xs ++ "]"

/-- The diagnostic of lines 272-277. -/
def unknownDatacenter (available : List String) : Diagnostics :=
  [{ severity := Severity.Error, Summary := "Unknown datacenter",
     AttributePath := ["dc_name"],
     Detail := "Please select one of available datacenters for the provider - "
       ++ formatStrings available }]

/-- Go `getDatacenterByName`. Results: the datacenter (`none` is `nil`), the diagnostics,
the call log. -/
def getDatacenterByName (hp : Helpers) (k : metakubeProviderMeta) (d : ResourceData)
    (log : List Call) : Option Datacenter × Diagnostics × List Call :=
  let name := d.GetString "dc_name"
  let log1 := log ++ [Call.ListDatacenters]
  match k.ListDatacenters (log.countP Call.isListDatacenters) with
  | .error err =>
    match err with
    | .ListDatacentersDefault _ _ =>
      if hp.errorMessage err ≠ "" then
        (none, [{ severity := Severity.Error,
                  Summary := "Can't list datacenters: " ++ hp.errorMessage err,
                  AttributePath := ["dc_name"] }], log1)
      else
        (none, [{ severity := Severity.Error,
                  Summary := "Can't list datacenters: " ++ err.Error,
                  AttributePath := ["dc_name"] }], log1)
    | _ =>
      (none, [{ severity := Severity.Error,
                Summary := "Can't list datacenters: " ++ err.Error,
                AttributePath := ["dc_name"] }], log1)
  | .ok payload =>
    match getDatacenterByName_loop d name payload [] with
    | (some v, _) => (some v, [], log1)
    | (none, available) => (none, unknownDatacenter available, log1)

/-! ## Read (`resource_cluster.go` 292-434) -/

/-- Go `getClusterErrResourceIsDeleted`; `none` is a nil error. -/
def getClusterErrResourceIsDeleted (err : Option GoError) : Bool :=
  match err with
  | none => false
  | some (.GetClusterDefault code _) => decide (code = StatusNotFound)
  | some _ => false

/-- Go `metakubeClusterGetAssignedSSHKeys`. Results: the key ids, the diagnostics, the
call log. -/
def metakubeClusterGetAssignedSSHKeys (hp : Helpers) (k : metakubeProviderMeta)
    (d : ResourceData) (log : List Call) : List String × Diagnostics × List Call :=
  match metakubeClusterParseID d.Id with
  | (_, _, _, some err) => ([], diagFromErr err, log)
  | (projectID, seedDC, clusterID, none) =>
    let log1 := log ++ [Call.ListSSHKeysAssignedToCluster projectID seedDC clusterID]
    match k.ListSSHKeysAssignedToCluster (log.countP Call.isListSSHKeysAssignedToCluster) with
    | .error err =>
      ([], [{ severity := Severity.Error,
              Summary := "List project keys error " ++ hp.getErrorResponse err,
              AttributePath := ["sshkeys"] }], log1)
    | .ok payload => (payload.map (fun v => v.ID), [], log1)

/-- Lines 324-375 of `resourceClusterRead`: the writes after a successful `GetCluster`. -/
def resourceClusterRead_flatten (hp : Helpers) (k : metakubeProviderMeta) (d : ResourceData)
    (projectID : String) (payload : Cluster) (log : List Call) :
    Diagnostics × ResourceData × List Call :=
  let d1 := (d.Set hp "project_id" (ResourceData.writeString "project_id" projectID)).2
  let d2 := (d1.Set hp "dc_name"
    (ResourceData.writeString "dc_name" payload.Spec.Cloud.DatacenterName)).2
  match excludeProjectLabels hp.getErrorResponse k projectID payload.Labels log with
  | (labels, diagnostics, log1) =>
    if diagnostics ≠ [] then (diagnostics, d2, log1)
    else
      match d2.Set hp "labels" (fun x => { x with labels := some labels }) with
      | (some _, d3) => (invalidValue "labels", d3, log1)
      | (none, d3) =>
        let d4 := (d3.Set hp "name" (ResourceData.writeString "name" payload.Name)).2
        let d5 := (d4.Set hp "type" (ResourceData.writeString "type" payload.Type_)).2
        let values := readClusterPreserveValues d5
        let specFlattened := hp.flattenClusterSpec values payload.Spec
        match d5.Set hp "spec" (fun x => { x with spec := specFlattened }) with
        | (some _, d6) => (invalidValue "spec", d6, log1)
        | (none, d6) =>
          let d7 := (d6.Set hp "creation_timestamp"
            (ResourceData.writeString "creation_timestamp" payload.CreationTimestamp)).2
          let d8 := (d7.Set hp "deletion_timestamp"
            (ResourceData.writeString "deletion_timestamp" payload.DeletionTimestamp)).2
          match metakubeClusterGetAssignedSSHKeys hp k d8 log1 with
          | (keys, diagnostics2, log2) =>
            if diagnostics2 ≠ [] then (diagnostics2, d8, log2)
            else
              match d8.Set hp "sshkeys" (fun x => { x with sshkeys := keys }) with
              | (some _, d9) => (invalidValue "sshkeys", d9, log2)
              | (none, d9) => ([], d9, log2)

/-- Go `resourceClusterRead`. Results: the diagnostics, the resource data afterwards, the
call log. -/
def resourceClusterRead (hp : Helpers) (k : metakubeProviderMeta) (d : ResourceData)
    (log : List Call) : Diagnostics × ResourceData × List Call :=
  match metakubeClusterParseID d.Id with
  | (_, _, _, some err) => (diagFromErr err, d, log)
  | (projectID, seedDC, clusterID, none) =>
    let log1 := log ++ [Call.GetCluster projectID seedDC clusterID]
    match k.GetCluster (log.countP Call.isGetCluster) with
    | .error err =>
      if getClusterErrResourceIsDeleted (some err) then ([], d.SetId "", log1)
      else
        match err with
        | .GetClusterDefault code _ =>
          if code = StatusNotFound then ([], d.SetId "", log1)
          else (diagErrorf ("unable to get cluster '" ++ d.Id ++ "': "
            ++ hp.getErrorResponse err), d, log1)
        | _ => (diagErrorf ("unable to get cluster '" ++ d.Id ++ "': "
            ++ hp.getErrorResponse err), d, log1)
    | .ok payload => resourceClusterRead_flatten hp k d projectID payload log1

/-! ## SSH keys (`resource_cluster.go` 574-635) -/

/-- Go `assignSSHKeysToCluster`. Results: the diagnostics and the call log. -/
def assignSSHKeysToCluster (k : metakubeProviderMeta) (projectID seedDC clusterID : String) :
    List String → List Call → Diagnostics × List Call
  | [], log => ([], log)
  | id :: rest, log =>
    let log1 := log ++ [Call.AssignSSHKeyToCluster projectID seedDC clusterID id]
    match k.AssignSSHKeyToCluster (log.countP Call.isAssignSSHKeyToCluster) with
    | some err =>
      ([{ severity := Severity.Error,
          Summary := "Can't assign sshkeys to cluster '" ++ clusterID ++ "': " ++ err.Error,
          AttributePath := ["sshkeys"] }], log1)
    | none => assignSSHKeysToCluster k projectID seedDC clusterID rest log1

/-- Lines 595-608 of `updateClusterSSHKeys`: the loop over the keys to detach. -/
def updateClusterSSHKeys_detach (k : metakubeProviderMeta)
    (projectID seedDC clusterID : String) :
    List String → List Call → Diagnostics × List Call
  | [], log => ([], log)
  | id :: rest, log =>
    let log1 := log ++ [Call.DetachSSHKeyFromCluster projectID seedDC clusterID id]
    match k.DetachSSHKeyFromCluster (log.countP Call.isDetachSSHKeyFromCluster) with
    | some err =>
      match err with
      | .DetachSSHKeyFromClusterDefault code _ =>
        if code = StatusNotFound then
          updateClusterSSHKeys_detach k projectID seedDC clusterID rest log1
        else (diagFromErr err, log1)
      | _ => (diagFromErr err, log1)
    | none => updateClusterSSHKeys_detach k projectID seedDC clusterID rest log1

/-- Go `updateClusterSSHKeys`. Results: the diagnostics and the call log. -/
def updateClusterSSHKeys (k : metakubeProviderMeta) (d : ResourceData) (log : List Call) :
    Diagnostics × List Call :=
  let prev := d.sshkeysOld
  let cur := d.sshkeys
  let unassigned := prev.filter (fun id => !cur.contains id)
  let assign := cur.filter (fun id => !prev.contains id)
  match metakubeClusterParseID d.Id with
  | (_, _, _, some err) => (diagFromErr err, log)
  | (projectID, seedDC, clusterID, none) =>
    match updateClusterSSHKeys_detach k projectID seedDC clusterID unassigned log with
    | (diags, log1) =>
      if diags ≠ [] then (diags, log1)
      else assignSSHKeysToCluster k projectID seedDC clusterID assign log1

/-! ## Patch (`resource_cluster.go` 535-572) -/

/-- The closure `patchClusterFields` passes to `resource.RetryContext`: one tick. -/
def patchClusterFields_retryFunc (hp : Helpers) (k : metakubeProviderMeta) (d : ResourceData)
    (projectID seedDC clusterID : String) (log : List Call) : Option RetryError × List Call :=
  let log1 := log ++ [Call.PatchCluster projectID seedDC clusterID]
  match k.PatchCluster (log.countP Call.isPatchCluster) with
  | some err =>
    match err with
    | .PatchClusterDefault code _ =>
      if code = StatusConflict then
        (some (RetryableError (Errorf ("cluster patch conflict: " ++ err.Error))), log1)
      else if hp.errorMessage err ≠ "" then
        (some (NonRetryableError (Errorf
          ("patch cluster '" ++ d.Id ++ "': " ++ hp.errorMessage err))), log1)
      else
        (some (NonRetryableError (Errorf
          ("patch cluster '" ++ d.Id ++ "': " ++ err.Error))), log1)
    | _ =>
      (some (NonRetryableError (Errorf
        ("patch cluster '" ++ d.Id ++ "': " ++ err.Error))), log1)
  | none => (none, log1)

/-- Go `patchClusterFields`; `ticks` is the number of ticks `d.Timeout(schema.TimeoutUpdate)`
allows. Results: the error and the call log. -/
def patchClusterFields (hp : Helpers) (k : metakubeProviderMeta) (d : ResourceData)
    (ticks : Nat) (log : List Call) : Option GoError × List Call :=
  match metakubeClusterParseID d.Id with
  | (_, _, _, some err) => (some err, log)
  | (projectID, seedDC, clusterID, none) =>
    RetryContext (patchClusterFields_retryFunc hp k d projectID seedDC clusterID) ticks log none

/-! ## Update (`resource_cluster.go` 502-533) -/

/-- Lines 513-532 of `resourceClusterUpdate`: what follows the validation gate. -/
def resourceClusterUpdate_apply (hp : Helpers) (k : metakubeProviderMeta) (d : ResourceData)
    (patchTicks readyTicks : Nat) (log : List Call) : Diagnostics × ResourceData × List Call :=
  let patched : Option GoError × List Call :=
    if d.HasChange "name" || d.HasChange "labels" || d.HasChange "spec" then
      patchClusterFields hp k d patchTicks log
    else (none, log)
  match patched with
  | (some err, log1) => (diagFromErr err, d, log1)
  | (none, log1) =>
    let keyed : Diagnostics × List Call :=
      if d.HasChange "sshkeys" then updateClusterSSHKeys k d log1 else ([], log1)
    match keyed with
    | (dErr, log2) =>
      if dErr ≠ [] then (dErr, d, log2)
      else
        match metakubeClusterParseID d.Id with
        | (_, _, _, some err) => (diagFromErr err, d, log2)
        | (projectID, seedDC, clusterID, none) =>
          match waitClusterReady hp.getErrorResponse k d projectID seedDC clusterID
              readyTicks log2 with
          | (some err, log3) =>
            (diagErrorf ("cluster '" ++ d.Id ++ "' is not ready: " ++ err.Error), d, log3)
          | (none, log3) => resourceClusterRead hp k d log3

/-- Go `resourceClusterUpdate`; `patchTicks` and `readyTicks` are the numbers of ticks the
update and the create timeout allow. Results: the diagnostics, the resource data
afterwards, the call log. -/
def resourceClusterUpdate (hp : Helpers) (k : metakubeProviderMeta) (d : ResourceData)
    (patchTicks readyTicks : Nat) (log : List Call) : Diagnostics × ResourceData × List Call :=
  let allDiagnostics := hp.validateClusterFields k d
  match getDatacenterByName hp k d log with
  | (_, diagnostics, log1) =>
    let allDiagnostics1 := allDiagnostics ++ diagnostics
    if allDiagnostics1.length ≠ 0 then (allDiagnostics1, d, log1)
    else resourceClusterUpdate_apply hp k d patchTicks readyTicks log1

/-! ## Create (`resource_cluster.go` 136-215) -/

/-- The warning of lines 168-171 and 179-182. -/
def multipleCIDRs (what : String) : Diagnostic :=
  { severity := Severity.Warning, Summary := "API returned multiple " ++ what ++ " CIDRs" }

/-- Lines 163-173 and 174-184: one block list onto one scalar. Results: the scalar (the
empty string when it is not assigned) and the diagnostics appended to `allDiagnostics`. -/
def cidrScalar (what : String) (v : Option NetworkRanges) : String × Diagnostics :=
  match v with
  | none => ("", [])
  | some r =>
    (if r.CIDRBlocks.length = 1 then r.CIDRBlocks.headD "" else "",
     if r.CIDRBlocks.length > 1 then [multipleCIDRs what] else [])

/-- Lines 150-185 of `resourceClusterCreate`: the body of the create request and the
diagnostics appended to `allDiagnostics` on the way. -/
def createClusterSpecOf (d : ResourceData) (clusterSpec : ClusterSpec) :
    CreateClusterSpec × Diagnostics :=
  let cluster : Cluster :=
    { Name := d.GetString "name", Spec := clusterSpec, Type_ := d.GetString "type",
      Labels := (getLabels d).getD [], Credential := d.GetString "credential" }
  match clusterSpec.ClusterNetwork with
  | none => ({ Cluster := cluster }, [])
  | some n =>
    ({ Cluster := cluster, DNSDomain := if n.DNSDomain ≠ "" then n.DNSDomain else "",
       PodsCIDR := (cidrScalar "pods" n.Pods).1,
       ServicesCIDR := (cidrScalar "services" n.Services).1 },
     (cidrScalar "pods" n.Pods).2 ++ (cidrScalar "services" n.Services).2)

/-- Lines 187-214 of `resourceClusterCreate`: the create call and what follows it. The
batch `allDiagnostics` is not among the arguments: no return statement below line 145
mentions it. -/
def resourceClusterCreate_apply (hp : Helpers) (k : metakubeProviderMeta) (d : ResourceData)
    (dc : Datacenter) (readyTicks : Nat) (log : List Call) :
    Diagnostics × ResourceData × List Call :=
  let pID := d.GetString "project_id"
  let clusterSpec := hp.expandClusterSpec d.spec (d.GetString "dc_name")
  let createClusterSpec := (createClusterSpecOf d clusterSpec).1
  let log1 := log ++ [Call.CreateCluster pID dc.Spec.Seed createClusterSpec]
  match k.CreateCluster (log.countP Call.isCreateCluster) with
  | .error err =>
    (diagErrorf ("unable to create cluster for project '" ++ pID ++ "': "
      ++ hp.getErrorResponse err), d, log1)
  | .ok payload =>
    let d1 := d.SetId (metakubeClusterMakeID (d.GetString "project_id") dc.Spec.Seed payload.ID)
    match assignSSHKeysToCluster k pID dc.Spec.Seed payload.ID d1.sshkeys log1 with
    | (diags, log2) =>
      if diags ≠ [] then (diags, d1, log2)
      else
        match metakubeClusterParseID d1.Id with
        | (_, _, _, some err) => (diagFromErr err, d1, log2)
        | (projectID, seedDC, clusterID, none) =>
          match waitClusterReady hp.getErrorResponse k d1 projectID seedDC clusterID
              readyTicks log2 with
          | (some err, log3) =>
            (diagErrorf ("cluster '" ++ payload.ID ++ "' is not ready: " ++ err.Error),
              d1, log3)
          | (none, log3) => resourceClusterRead hp k d1 log3

/-- Go `resourceClusterCreate`; `readyTicks` is the number of ticks the create timeout
allows. Results: the diagnostics, the resource data afterwards, the call log. The branch
for a nil datacenter is where Go would dereference a nil pointer; it is never reached,
because `getDatacenterByName` returns a datacenter whenever it returns no diagnostics. -/
def resourceClusterCreate (hp : Helpers) (k : metakubeProviderMeta) (d : ResourceData)
    (readyTicks : Nat) (log : List Call) : Diagnostics × ResourceData × List Call :=
  let allDiagnostics := hp.validateClusterFields k d
  match getDatacenterByName hp k d log with
  | (dc, diagnostics, log1) =>
    let allDiagnostics1 := allDiagnostics ++ diagnostics
    if allDiagnostics1.length ≠ 0 then (allDiagnostics1, d, log1)
    else
      match dc with
      | none => (diagErrorf "nil pointer dereference", d, log1)
      | some dc1 => resourceClusterCreate_apply hp k d dc1 readyTicks log1

/-! ## Predicates and remote scripts used to state the properties -/

/-- All seven indicators report up. -/
def ClusterHealth.allUp (h : ClusterHealth) : Prop :=
  h.Apiserver = healthStatusUp ∧ h.CloudProviderInfrastructure = healthStatusUp ∧
  h.Controller = healthStatusUp ∧ h.Etcd = healthStatusUp ∧
  h.MachineController = healthStatusUp ∧ h.Scheduler = healthStatusUp ∧
  h.UserClusterControllerManager = healthStatusUp

instance (h : ClusterHealth) : Decidable h.allUp := by
  unfold ClusterHealth.allUp; infer_instance

/-- A health-query result that ends the wait: no error, all seven indicators up. -/
def healthReady (a : Except GoError ClusterHealth) : Prop :=
  ∃ h, a = .ok h ∧ h.allUp

/-- A health snapshot with every indicator up. -/
def allUpHealth : ClusterHealth := ⟨1, 1, 1, 1, 1, 1, 1⟩

/-- A health snapshot with etcd down. -/
def etcdDownHealth : ClusterHealth := ⟨1, 1, 1, 0, 1, 1, 1⟩

/-- A project with the label `team: x`. -/
def labelsRemote : metakubeProviderMeta :=
  { GetProject := fun _ => .ok { Labels := [("team", "x")] }
    GetClusterHealth := fun _ => .error (GoError.Other "unused")
    DeleteCluster := fun _ => none
    GetCluster := fun _ => .error (GoError.Other "unused") }

/-- The health query fails, then reports etcd down, then reports all indicators up. -/
def thirdPollRemote : metakubeProviderMeta :=
  { GetProject := fun _ => .error (GoError.Other "unused")
    GetClusterHealth := fun i =>
      if i = 0 then .error (GoError.Other "connection refused")
      else if i = 1 then .ok etcdDownHealth
      else .ok allUpHealth
    DeleteCluster := fun _ => none
    GetCluster := fun _ => .error (GoError.Other "unused") }

/-- The cluster is already gone: every delete call is answered with 404. -/
def notFoundOnDeleteRemote : metakubeProviderMeta :=
  { GetProject := fun _ => .error (GoError.Other "unused")
    GetClusterHealth := fun _ => .error (GoError.Other "unused")
    DeleteCluster := fun _ => some (GoError.DeleteClusterDefault 404 "not found")
    GetCluster := fun _ => .ok {} }

/-- The first delete call meets a conflict, the second is accepted; the cluster is still
there at the first existence poll and gone at the second. -/
def conflictThenDeletedRemote : metakubeProviderMeta :=
  { GetProject := fun _ => .error (GoError.Other "unused")
    GetClusterHealth := fun _ => .error (GoError.Other "unused")
    DeleteCluster := fun i =>
      if i = 0 then some (GoError.DeleteClusterDefault 409 "conflict") else none
    GetCluster := fun i =>
      if i = 0 then .ok {} else .error (GoError.GetClusterDefault 404 "not found") }

/-! ## Helpers, remote scripts and trees used to state the properties of the operations -/

/-- Helpers that render an error by its text, validate nothing, map every spec to the empty
one and let every `d.Set` succeed. -/
def plainHelpers : Helpers :=
  { getErrorResponse := GoError.Error
    errorMessage := fun _ => ""
    validateClusterFields := fun _ _ => []
    expandClusterSpec := fun _ _ => {}
    flattenClusterSpec := fun _ _ => []
    setFails := fun _ => false }

/-- Helpers whose field validation always reports one error. -/
def strictHelpers : Helpers :=
  { plainHelpers with
    validateClusterFields := fun _ _ => [{ severity := Severity.Error, Summary := "bad field" }] }

/-- The spec mapper returns one pods block and one services block. -/
def oneBlockHelpers : Helpers :=
  { plainHelpers with
    expandClusterSpec := fun _ _ =>
      { ClusterNetwork := some
          { Pods := some { CIDRBlocks := ["10.0.0.0/16"] }
            Services := some { CIDRBlocks := ["10.2.0.0/16"] } } } }

/-- Three datacenters: `dc-a` (openstack, no seed), `dc-b` (aws), `dc-c` (openstack); the
cluster is not found by `GetCluster`. -/
def datacentersRemote : metakubeProviderMeta :=
  { GetProject := fun _ => .ok { Labels := [] }
    GetClusterHealth := fun _ => .ok allUpHealth
    DeleteCluster := fun _ => none
    GetCluster := fun _ => .error (GoError.GetClusterDefault 404 "not found")
    ListDatacenters := fun _ => .ok
      [ { Metadata := { Name := "dc-a" }, Spec := { Seed := "", Openstack := true } },
        { Metadata := { Name := "dc-b" }, Spec := { Seed := "seed-b", Aws := true } },
        { Metadata := { Name := "dc-c" }, Spec := { Seed := "seed-c", Openstack := true } } ] }

/-- The first health query is forbidden, every later one reports all indicators up. -/
def forbiddenThenUpRemote : metakubeProviderMeta :=
  { GetProject := fun _ => .error (GoError.Other "unused")
    GetClusterHealth := fun i =>
      if i = 0 then .error (GoError.Other "getClusterHealthForbidden") else .ok allUpHealth
    DeleteCluster := fun _ => none
    GetCluster := fun _ => .error (GoError.Other "unused") }

/-- The first detach call is answered with 404, every other call succeeds. -/
def detachNotFoundRemote : metakubeProviderMeta :=
  { GetProject := fun _ => .error (GoError.Other "unused")
    GetClusterHealth := fun _ => .ok allUpHealth
    DeleteCluster := fun _ => none
    GetCluster := fun _ => .error (GoError.Other "unused")
    DetachSSHKeyFromCluster := fun i =>
      if i = 0 then some (GoError.DetachSSHKeyFromClusterDefault 404 "not found") else none }

/-- The second detach call fails with a 500. -/
def detachFailsRemote : metakubeProviderMeta :=
  { GetProject := fun _ => .error (GoError.Other "unused")
    GetClusterHealth := fun _ => .ok allUpHealth
    DeleteCluster := fun _ => none
    GetCluster := fun _ => .error (GoError.Other "unused")
    DetachSSHKeyFromCluster := fun i =>
      if i = 1 then some (GoError.DetachSSHKeyFromClusterDefault 500 "boom") else none }

/-- A tree that declares the openstack variant, with the given ID and datacenter name. -/
def openstackData (id name : String) : ResourceData :=
  { Id := id, strings := [("dc_name", name), ("project_id", "p")],
    counts := [("spec.0.cloud.0.openstack.#", 1)] }

/-- A tree whose only cloud block is `openstack`; a leftover aws value is in the store. -/
def openstackOnlyData : ResourceData :=
  { Id := "p:seed-c:c"
    present := ["spec.0.cloud.0.openstack.0"]
    strings := [("spec.0.cloud.0.openstack.0.username", "u"),
                ("spec.0.cloud.0.openstack.0.password", "pw"),
                ("spec.0.cloud.0.openstack.0.tenant", "t"),
                ("spec.0.cloud.0.aws.0.access_key_id", "stale")] }

/-- Keys `k1`, `k2`, `k3` are to be detached, `k4` to be attached. -/
def keysData : ResourceData :=
  { Id := "p:dc:c", sshkeysOld := ["k1", "k2", "k3"], sshkeys := ["k4"],
    changed := ["sshkeys"] }

/-- The bodies of the `CreateCluster` calls of a log. -/
def createBodies : List Call → List CreateClusterSpec
  | [] => []
  | Call.CreateCluster _ _ body :: rest => body :: createBodies rest
  | _ :: rest => createBodies rest

/-- The match condition of line 267: a non-empty seed and the requested name. -/
def namedWithSeed (name : String) (v : Datacenter) : Prop :=
  v.Spec.Seed ≠ "" ∧ v.Metadata.Name = name

instance (name : String) (v : Datacenter) : Decidable (namedWithSeed name v) := by
  unfold namedWithSeed; infer_instance

/-- A detach call that does not stop the loop: no error, or a 404. -/
def detachPassed (a : Option GoError) : Prop :=
  a = none ∨ ∃ t, a = some (GoError.DetachSSHKeyFromClusterDefault StatusNotFound t)

/-! ## Node-deployment validation (sections 3 and 4.4 of the specification) -/

/-- Modelled from the spec: the cloud variants of the data model (section 3: a tagged union
OpenStack | AWS | Azure | BringYourOwn). The node-deployment resource and its validator are
in files of the repository that are not among the sources; only their acceptance test
`resource_node_deployment_test.go` is. -/
inductive CloudVariant where
  | OpenStack
  | AWS
  | Azure
  | BringYourOwn
  deriving DecidableEq, Repr

/-- Modelled from the spec: the name by which a message names a variant; the names are those
of the blocks of the declarative tree. -/
def CloudVariant.name : CloudVariant → String
  | .OpenStack => "openstack"
  | .AWS => "aws"
  | .Azure => "azure"
  | .BringYourOwn => "bringyourown"

/-- Modelled from the spec: the NodeDeploymentSpec of section 3, reduced to what the
validator reads: the replica count, the populated cloud variant, the kubelet version. -/
structure NodeDeploymentSpec where
  replicas : Int
  cloud : CloudVariant
  kubelet : String
  deriving DecidableEq, Repr

/-- Modelled from the spec: the current remote state of the owning cluster that the
validator runs against (section 4.4): its cloud variant, its version and the versions the
remote API advertises as available for it. -/
structure OwningCluster where
  cloud : CloudVariant
  version : String
  availableVersions : List String
  deriving DecidableEq, Repr

/-- Modelled from the spec: "the kubelet version exceeds the cluster version". Both strings
must parse as versions; `NewVersion` and `LessThan` are the version library, as in the
version gate. -/
def kubeletExceeds {V : Type} (NewVersion : String → Option V) (LessThan : V → V → Bool)
    (kubelet clusterVersion : String) : Bool :=
  match NewVersion kubelet, NewVersion clusterVersion with
  | some kv, some cv => LessThan cv kv
  | _, _ => false

/-- Modelled from the spec: the check "node-deployment/cluster variant match" of section
4.4; on a mismatch one error whose message names both variants, in the wording the
acceptance test expects. -/
def validateProviderMatch (cluster : OwningCluster) (nd : NodeDeploymentSpec) : Diagnostics :=
  if nd.cloud ≠ cluster.cloud then
    diagErrorf ("provider for node deployment must (" ++ nd.cloud.name
      ++ ") match cluster provider (" ++ cluster.cloud.name ++ ")")
  else []

/-- Modelled from the spec: the first half of the check "kubelet version bound" of section
4.4: the kubelet version must not exceed the cluster version. -/
def validateKubeletNotGreater {V : Type} (NewVersion : String → Option V)
    (LessThan : V → V → Bool) (cluster : OwningCluster) (nd : NodeDeploymentSpec) :
    Diagnostics :=
  if kubeletExceeds NewVersion LessThan nd.kubelet cluster.version then
    diagErrorf ("node deployment version (" ++ nd.kubelet
      ++ ") cannot be greater than cluster version (" ++ cluster.version ++ ")")
  else []

/-- Modelled from the spec: the second half of the check "kubelet version bound" of section
4.4: the kubelet version must be one of the advertised versions; the message names the
offending version and the available set. -/
def validateKubeletAvailable (cluster : OwningCluster) (nd : NodeDeploymentSpec) :
    Diagnostics :=
  if nd.kubelet ∈ cluster.availableVersions then []
  else
    diagErrorf ("unknown version for node deployment " ++ nd.kubelet
      ++ ", available versions " ++ formatStrings cluster.availableVersions)

/-- Modelled from the spec: the node-deployment validator of section 4.4. All checks
accumulate into one batch, none stops the others. -/
def validateNodeDeployment {V : Type} (NewVersion : String → Option V)
    (LessThan : V → V → Bool) (cluster : OwningCluster) (nd : NodeDeploymentSpec) :
    Diagnostics :=
  validateProviderMatch cluster nd
    ++ validateKubeletNotGreater NewVersion LessThan cluster nd
    ++ validateKubeletAvailable cluster nd

/-- Modelled from the spec: the mutating calls of the node-deployment lifecycle. -/
inductive NodeDeploymentCall where
  | CreateNodeDeployment (spec : NodeDeploymentSpec)
  | PatchNodeDeployment (spec : NodeDeploymentSpec)
  deriving DecidableEq, Repr

/-- Modelled from the spec: create or update of a node deployment up to its mutating call
(section 2: lifecycle operation, then Validator, then the remote mutate call; section 7:
a validation failure is fatal before any mutating call and all failures are reported
together). `update` tells the two operations apart. Results: the diagnostics and the log of
mutating calls. -/
def nodeDeploymentApply {V : Type} (NewVersion : String → Option V)
    (LessThan : V → V → Bool) (update : Bool) (cluster : OwningCluster)
    (nd : NodeDeploymentSpec) (log : List NodeDeploymentCall) :
    Diagnostics × List NodeDeploymentCall :=
  let batch := validateNodeDeployment NewVersion LessThan cluster nd
  if batch ≠ [] then (batch, log)
  else if update then ([], log ++ [NodeDeploymentCall.PatchNodeDeployment nd])
  else ([], log ++ [NodeDeploymentCall.CreateNodeDeployment nd])

/-- The cluster of the acceptance test: aws, version 1.18.0. -/
def awsCluster : OwningCluster :=
  { cloud := CloudVariant.AWS, version := "1.18.0",
    availableVersions := ["1.17.9", "1.18.0"] }

/-! ## Remote scripts with server errors -/

/-- The first patch call fails with a 500, every later one succeeds. -/
def patchServerErrorRemote : metakubeProviderMeta :=
  { GetProject := fun _ => .error (GoError.Other "unused")
    GetClusterHealth := fun _ => .ok allUpHealth
    DeleteCluster := fun _ => none
    GetCluster := fun _ => .error (GoError.Other "unused")
    PatchCluster := fun i =>
      if i = 0 then some (GoError.PatchClusterDefault 500 "internal error") else none }

/-- The first delete call fails with a 503, every later one succeeds. -/
def deleteServerErrorRemote : metakubeProviderMeta :=
  { GetProject := fun _ => .error (GoError.Other "unused")
    GetClusterHealth := fun _ => .ok allUpHealth
    DeleteCluster := fun i =>
      if i = 0 then some (GoError.DeleteClusterDefault 503 "unavailable") else none
    GetCluster := fun _ => .error (GoError.GetClusterDefault 404 "not found") }

/-! ## Lemmas on splitting -/

theorem cut_eq_none_iff (sep : Char) (s : List Char) : cut sep s = none ↔ sep ∉ s := by
  induction s with
  | nil => simp [cut]
  | cons c cs ih =>
    by_cases h : c = sep
    · simp [cut, h]
    · have h2 : ¬ sep = c := fun e => h e.symm
      cases hc : cut sep cs with
      | none => simp [cut, h, hc, h2, ih.mp hc]
      | some p =>
        have : sep ∈ cs := by
          by_contra hn
          rw [ih.mpr hn] at hc
          cases hc
        simp [cut, h, hc, this]

theorem cut_eq_some_iff (sep : Char) (s a r : List Char) :
    cut sep s = some (a, r) ↔ sep ∉ a ∧ s = a ++ sep :: r := by
  induction s generalizing a with
  | nil => simp [cut]
  | cons c cs ih =>
    by_cases h : c = sep
    · subst h
      constructor
      · intro hc
        simp [cut] at hc
        obtain ⟨rfl, rfl⟩ := hc
        simp
      · rintro ⟨hn, he⟩
        cases a with
        | nil => simp at he; simp [cut, he]
        | cons x xs =>
          simp at he hn
          exact absurd he.1 hn.1
    · constructor
      · intro hc
        cases hq : cut sep cs with
        | none => simp [cut, h, hq] at hc
        | some p =>
          obtain ⟨a2, r2⟩ := p
          simp [cut, h, hq] at hc
          obtain ⟨rfl, rfl⟩ := hc
          obtain ⟨h1, h2⟩ := (ih a2).mp hq
          have h3 : ¬ sep = c := fun e => h e.symm
          simp [h1, h2, h3]
      · rintro ⟨hn, he⟩
        cases a with
        | nil => simp at he; exact absurd he.1 h
        | cons x xs =>
          simp at he hn
          obtain ⟨rfl, he2⟩ := he
          have := (ih xs).mpr ⟨hn.2, he2⟩
          simp [cut, h, this]

/-- The cap `n > len(s) + 1` of `genSplit` never changes the result. -/
theorem splitLoop_cap (sep : Char) (k : Nat) : ∀ (m : Nat) (s : List Char), s.length ≤ m →
    splitLoop sep (min k m) s = splitLoop sep k s := by
  induction k with
  | zero => intro m s _; simp [splitLoop]
  | succ k ih =>
    intro m s hm
    cases m with
    | zero =>
      have : s = [] := by simpa using hm
      subst this
      simp [splitLoop, cut]
    | succ m =>
      rw [Nat.succ_min_succ]
      cases hc : cut sep s with
      | none => simp [splitLoop, hc]
      | some p =>
        obtain ⟨a, r⟩ := p
        have h2 := ((cut_eq_some_iff sep s a r).mp hc).2
        have hl : r.length ≤ m := by
          have := congrArg List.length h2
          simp at this
          omega
        simp [splitLoop, hc, ih m r hl]

theorem SplitN_three (id : String) :
    SplitN id ':' 3 = (splitLoop ':' 2 id.data).map String.mk := by
  have h := splitLoop_cap ':' 2 id.data.length id.data (le_refl _)
  unfold SplitN
  simp only [show ¬ ((3 : Int) = 0) by decide, if_false, show ¬ ((3 : Int) < 0) by decide]
  by_cases hl : (3 : Int).toNat > id.data.length + 1
  · simp only [hl, if_true]
    rw [← h]
    have : (3 : Int).toNat = 3 := rfl
    rw [this] at hl
    congr 2
    omega
  · simp only [hl, if_false]
    rfl

/-! ## Identity codec -/

theorem mk_eq_empty (l : List Char) : (String.mk l = "") ↔ l = [] := by
  constructor
  · intro h
    have := congrArg String.data h
    simpa using this
  · rintro rfl; rfl

theorem parseID_eq (id : String) : metakubeClusterParseID id =
    match cut ':' id.data with
    | none => ("", "", "", some (parseIDError id))
    | some (a, r1) =>
      match cut ':' r1 with
      | none => ("", "", "", some (parseIDError id))
      | some (b, c) =>
        if a = [] ∨ b = [] ∨ c = [] then ("", "", "", some (parseIDError id))
        else (String.mk a, String.mk b, String.mk c, none) := by
  unfold metakubeClusterParseID
  rw [SplitN_three]
  cases h1 : cut ':' id.data with
  | none => simp [splitLoop, h1]
  | some p =>
    obtain ⟨a, r1⟩ := p
    cases h2 : cut ':' r1 with
    | none => simp [splitLoop, h1, h2]
    | some q =>
      obtain ⟨b, c⟩ := q
      simp [splitLoop, h1, h2, mk_eq_empty]

theorem makeID_data (a b c : String) :
    (metakubeClusterMakeID a b c).data = a.data ++ ':' :: (b.data ++ ':' :: c.data) := by
  simp [metakubeClusterMakeID, String.data_append]

theorem data_eq_nil_iff (s : String) : s.data = [] ↔ s = "" := by
  constructor
  · intro h2
    cases s
    simp at h2
    subst h2
    rfl
  · rintro rfl; rfl

/-- Well-formed parts: what the decoder gives back on success. -/
theorem parseID_makeID_of_wf (a b c : String) (ha : a ≠ "") (hb : b ≠ "") (hc : c ≠ "")
    (hac : ':' ∉ a.data) (hbc : ':' ∉ b.data) :
    metakubeClusterParseID (metakubeClusterMakeID a b c) = (a, b, c, none) := by
  rw [parseID_eq, makeID_data]
  have h1 : cut ':' (a.data ++ ':' :: (b.data ++ ':' :: c.data))
      = some (a.data, b.data ++ ':' :: c.data) :=
    (cut_eq_some_iff _ _ _ _).mpr ⟨hac, rfl⟩
  have h2 : cut ':' (b.data ++ ':' :: c.data) = some (b.data, c.data) :=
    (cut_eq_some_iff _ _ _ _).mpr ⟨hbc, rfl⟩
  simp only [h1, h2]
  have ha2 : ¬ a.data = [] := fun h => ha ((data_eq_nil_iff a).mp h)
  have hb2 : ¬ b.data = [] := fun h => hb ((data_eq_nil_iff b).mp h)
  have hc2 : ¬ c.data = [] := fun h => hc ((data_eq_nil_iff c).mp h)
  simp [ha2, hb2, hc2]

/-- Every outcome of the decoder: either the error with three empty strings, or three
well-formed parts that encode back to the input. -/
theorem parseID_cases (id : String) :
    metakubeClusterParseID id = ("", "", "", some (parseIDError id)) ∨
    ∃ a b c : String, a ≠ "" ∧ b ≠ "" ∧ c ≠ "" ∧ ':' ∉ a.data ∧ ':' ∉ b.data ∧
      id = metakubeClusterMakeID a b c ∧ metakubeClusterParseID id = (a, b, c, none) := by
  rw [parseID_eq]
  cases h1 : cut ':' id.data with
  | none => left; rfl
  | some p =>
    obtain ⟨a, r1⟩ := p
    cases h2 : cut ':' r1 with
    | none => left; simp [h2]
    | some q =>
      obtain ⟨b, c⟩ := q
      by_cases hz : a = [] ∨ b = [] ∨ c = []
      · left; simp [h2, hz]
      · right
        obtain ⟨ha, he1⟩ := (cut_eq_some_iff _ _ _ _).mp h1
        obtain ⟨hb, he2⟩ := (cut_eq_some_iff _ _ _ _).mp h2
        push_neg at hz
        refine ⟨String.mk a, String.mk b, String.mk c, ?_, ?_, ?_, ha, hb, ?_, ?_⟩
        · simpa [mk_eq_empty] using hz.1
        · simpa [mk_eq_empty] using hz.2.1
        · simpa [mk_eq_empty] using hz.2.2
        · apply String.ext
          rw [makeID_data, he1, he2]
        · simp [h2, hz.1, hz.2.1, hz.2.2]

/-- C1. Identity round trip: for non-empty `a`, `b`, `c` without `:`, decoding the encoded
identity succeeds and returns exactly `(a, b, c)`. -/
theorem parseID_makeID_roundtrip (a b c : String) (ha : a ≠ "") (hb : b ≠ "") (hc : c ≠ "")
    (hac : ':' ∉ a.data) (hbc : ':' ∉ b.data) (_hcc : ':' ∉ c.data) :
    metakubeClusterParseID (metakubeClusterMakeID a b c) = (a, b, c, none) :=
  parseID_makeID_of_wf a b c ha hb hc hac hbc

/-- C1, witness: the parts `proj`, `dc-1`, `cl9`. -/
theorem parseID_makeID_roundtrip_witness :
    metakubeClusterParseID (metakubeClusterMakeID "proj" "dc-1" "cl9")
      = ("proj", "dc-1", "cl9", none) :=
  parseID_makeID_roundtrip "proj" "dc-1" "cl9" (by decide) (by decide) (by decide)
    (by decide) (by decide) (by decide)

/-- C2, counterexample: a string with four `:`-separated parts decodes successfully, its
third part keeping the rest of the string. -/
theorem parseID_accepts_four_parts :
    metakubeClusterParseID "a:b:c:d" = ("a", "b", "c:d", none) := by decide

/-- C2, amended: the decoder fails, with the error and three empty strings, exactly on the
strings that are not of the form `a:b:c` with `a`, `b`, `c` non-empty and `a`, `b` free of
`:` (`c` may contain `:`); every failure returns three empty strings; `a:b` and `a::c`
fail. -/
theorem parseID_fails_iff_not_wellformed (id : String) :
    (metakubeClusterParseID id = ("", "", "", some (parseIDError id)) ↔
      ¬ ∃ a b c : String, a ≠ "" ∧ b ≠ "" ∧ c ≠ "" ∧ ':' ∉ a.data ∧ ':' ∉ b.data ∧
        id = metakubeClusterMakeID a b c) ∧
    ((metakubeClusterParseID id).2.2.2 ≠ none →
      metakubeClusterParseID id = ("", "", "", some (parseIDError id))) ∧
    metakubeClusterParseID "a:b" = ("", "", "", some (parseIDError "a:b")) ∧
    metakubeClusterParseID "a::c" = ("", "", "", some (parseIDError "a::c")) := by
  refine ⟨⟨?_, ?_⟩, ?_, by decide, by decide⟩
  · rintro h ⟨a, b, c, ha, hb, hc, hac, hbc, rfl⟩
    rw [parseID_makeID_of_wf a b c ha hb hc hac hbc] at h
    simp at h
  · intro h
    rcases parseID_cases id with h1 | ⟨a, b, c, ha, hb, hc, hac, hbc, he, _⟩
    · exact h1
    · exact absurd ⟨a, b, c, ha, hb, hc, hac, hbc, he⟩ h
  · intro h
    rcases parseID_cases id with h1 | ⟨a, b, c, _, _, _, _, _, _, he⟩
    · exact h1
    · rw [he] at h; simp at h

/-- C3, counterexample: the encoder emits an identity for a part containing `:`, which the
decoder splits into other parts, and emits an identity for an empty part. -/
theorem makeID_emits_ambiguous_identity : metakubeClusterMakeID "a:b" "c" "d" = "a:b:c:d" ∧
    metakubeClusterParseID (metakubeClusterMakeID "a:b" "c" "d") = ("a", "b", "c:d", none) ∧
    metakubeClusterMakeID "" "b" "c" = ":b:c" := by decide

/-- C3, amended: the encoder never fails, it joins the three parts with `:` whatever they
are; the decoder gives the encoded parts back exactly when all three are non-empty and
`project` and `seedDC` contain no `:`. -/
theorem makeID_total_roundtrip_iff (project seedDC id : String) :
    metakubeClusterMakeID project seedDC id = project ++ ":" ++ seedDC ++ ":" ++ id ∧
    (metakubeClusterParseID (metakubeClusterMakeID project seedDC id)
        = (project, seedDC, id, none) ↔
      project ≠ "" ∧ seedDC ≠ "" ∧ id ≠ "" ∧ ':' ∉ project.data ∧ ':' ∉ seedDC.data) := by
  refine ⟨rfl, ⟨?_, ?_⟩⟩
  · intro h
    rcases parseID_cases (metakubeClusterMakeID project seedDC id) with
      h1 | ⟨a, b, c, ha, hb, hc, hac, hbc, _, he⟩
    · rw [h1] at h; simp at h
    · rw [he] at h
      simp only [Prod.mk.injEq, and_true] at h
      obtain ⟨rfl, rfl, rfl⟩ := h
      exact ⟨ha, hb, hc, hac, hbc⟩
  · rintro ⟨ha, hb, hc, hac, hbc⟩
    exact parseID_makeID_of_wf _ _ _ ha hb hc hac hbc

/-! ## Label reconciler and version gate -/

theorem foldl_mapDelete (ks : List String) : ∀ m : GoMap,
    ks.foldl mapDelete m = m.filter (fun e => e.1 ∉ ks) := by
  induction ks with
  | nil => intro m; simp
  | cons k ks ih =>
    intro m
    rw [List.foldl_cons, ih, mapDelete, List.filter_filter]
    congr 1
    funext e
    by_cases h1 : e.1 = k <;> by_cases h2 : e.1 ∈ ks <;> simp [h1, h2]

theorem lookup_filter_not_mem (ks : List String) (key : String) : ∀ m : GoMap,
    List.lookup key (m.filter (fun e => e.1 ∉ ks)) =
      if key ∈ ks then none else List.lookup key m := by
  intro m
  induction m with
  | nil => simp
  | cons e m ih =>
    obtain ⟨a, b⟩ := e
    rw [List.filter_cons]
    by_cases ha : a ∈ ks
    · have hd : decide ((a, b).1 ∉ ks) = false := by simpa using ha
      rw [hd]
      simp only [Bool.false_eq_true, if_false]
      rw [ih]
      by_cases hk : key ∈ ks
      · simp [hk]
      · have hka : (key == a) = false := by
          simp only [beq_eq_false_iff_ne]
          rintro rfl
          exact hk ha
        simp [hk, List.lookup_cons, hka]
    · have hd : decide ((a, b).1 ∉ ks) = true := by simpa using ha
      rw [hd]
      simp only [if_true]
      rw [List.lookup_cons, List.lookup_cons, ih]
      cases hka : key == a
      · simp
      · have hkk : key = a := by simpa using hka
        subst hkk
        simp [ha]

/-- C4. Label reconciliation is set difference by key: when `GetProject` succeeds with
project `P`, the result holds exactly the entries of the cluster labels `C` whose key is
not a key of `P.Labels`, whatever the values, and whatever the order in which the keys of
`P.Labels` are visited. -/
theorem excludeProjectLabels_set_difference (getErrorResponse : GoError → String)
    (k : metakubeProviderMeta) (projectID : String) (C : GoMap) (log : List Call)
    (P : Project) (hP : k.GetProject (log.countP Call.isGetProject) = .ok P) :
    excludeProjectLabels getErrorResponse k projectID C log =
      (C.filter (fun e => e.1 ∉ mapKeys P.Labels), [], log ++ [Call.GetProject projectID]) ∧
    (∀ key : String,
      mapLookup (excludeProjectLabels getErrorResponse k projectID C log).1 key =
        if key ∈ mapKeys P.Labels then none else mapLookup C key) ∧
    (∀ ks : List String, ks.Perm (mapKeys P.Labels) →
      ks.foldl mapDelete C = (excludeProjectLabels getErrorResponse k projectID C log).1) := by
  have h1 : excludeProjectLabels getErrorResponse k projectID C log =
      (C.filter (fun e => e.1 ∉ mapKeys P.Labels), [], log ++ [Call.GetProject projectID]) := by
    simp only [excludeProjectLabels, hP, foldl_mapDelete]
  refine ⟨h1, ?_, ?_⟩
  · intro key
    rw [h1]
    exact lookup_filter_not_mem _ _ _
  · intro ks hks
    rw [h1, foldl_mapDelete]
    apply List.filter_congr
    intro e _
    simp [hks.mem_iff]

/-- C4, witness: project labels `team: x`, cluster labels `team: x, env: prod` give
`env: prod`. -/
theorem excludeProjectLabels_set_difference_witness :
    labelsRemote.GetProject (([] : List Call).countP Call.isGetProject)
      = .ok { Labels := [("team", "x")] } ∧
    excludeProjectLabels GoError.Error labelsRemote "p" [("team", "x"), ("env", "prod")] []
      = ([("env", "prod")], [], [Call.GetProject "p"]) :=
  ⟨rfl, (excludeProjectLabels_set_difference GoError.Error labelsRemote "p"
    [("team", "x"), ("env", "prod")] [] { Labels := [("team", "x")] } rfl).1⟩

/-! ## The ordering of `hashicorp/go-version` -/

theorem digitChar_isDigit (d : Nat) (h : d < 10) : (digitChar d).isDigit = true := by
  interval_cases d <;> rfl

theorem digitChar_value (d : Nat) (h : d < 10) : (digitChar d).toNat - 48 = d := by
  interval_cases d <;> rfl

theorem formatDigits_isDigit : ∀ (fuel n : Nat), ∀ c ∈ formatDigits fuel n, c.isDigit = true := by
  intro fuel
  induction fuel with
  | zero =>
    intro n c hc
    simp only [formatDigits, List.mem_singleton] at hc
    subst hc
    exact digitChar_isDigit _ (Nat.mod_lt _ (by decide))
  | succ fuel ih =>
    intro n c hc
    unfold formatDigits at hc
    split at hc
    · rename_i h
      simp only [List.mem_singleton] at hc
      subst hc
      exact digitChar_isDigit _ h
    · rcases List.mem_append.mp hc with h | h
      · exact ih _ c h
      · simp only [List.mem_singleton] at h
        subst h
        exact digitChar_isDigit _ (Nat.mod_lt _ (by decide))

theorem formatDigits_ne_nil (fuel n : Nat) : formatDigits fuel n ≠ [] := by
  cases fuel with
  | zero => simp [formatDigits]
  | succ fuel =>
    unfold formatDigits
    split <;> simp

theorem formatDigits_value : ∀ (fuel n : Nat), n ≤ fuel →
    (formatDigits fuel n).foldl (fun acc c => 10 * acc + (c.toNat - 48)) 0 = n := by
  intro fuel
  induction fuel with
  | zero =>
    intro n hn
    have h0 : n = 0 := by omega
    subst h0
    rfl
  | succ fuel ih =>
    intro n hn
    unfold formatDigits
    split
    · rename_i h
      simp only [List.foldl_cons, List.foldl_nil, Nat.mul_zero, Nat.zero_add]
      exact digitChar_value n h
    · rename_i h
      rw [List.foldl_append, ih (n / 10) (by omega)]
      simp only [List.foldl_cons, List.foldl_nil]
      rw [digitChar_value _ (Nat.mod_lt _ (by decide))]
      omega

theorem FormatInt_injective (a b : Nat) (h : FormatInt a = FormatInt b) : a = b := by
  have ha := formatDigits_value a a (Nat.le_refl a)
  have hb := formatDigits_value b b (Nat.le_refl b)
  unfold FormatInt at h
  rw [h, hb] at ha
  exact ha.symm

/-- Two texts that start with a run of characters with a property, each run followed by
the end or by a character without the property: equal texts have equal runs. -/
theorem span_append_cancel (P : Char → Prop) : ∀ (a b r1 r2 : List Char),
    (∀ c ∈ a, P c) → (∀ c ∈ b, P c) → (∀ c, r1.head? = some c → ¬ P c) →
    (∀ c, r2.head? = some c → ¬ P c) → a ++ r1 = b ++ r2 → a = b ∧ r1 = r2 := by
  intro a
  induction a with
  | nil =>
    intro b r1 r2 _ hb h1 _ h
    cases b with
    | nil => exact ⟨rfl, h⟩
    | cons y b =>
      simp only [List.nil_append, List.cons_append] at h
      subst h
      exact absurd (hb y (List.mem_cons_self y b)) (h1 y rfl)
  | cons x a ih =>
    intro b r1 r2 ha hb h1 h2 h
    cases b with
    | nil =>
      simp only [List.nil_append, List.cons_append] at h
      subst h
      exact absurd (ha x (List.mem_cons_self x a)) (h2 x rfl)
    | cons y b =>
      simp only [List.cons_append, List.cons.injEq] at h
      obtain ⟨hxy, hrest⟩ := h
      obtain ⟨hab, hr⟩ := ih b r1 r2 (fun c hc => ha c (List.mem_cons_of_mem x hc))
        (fun c hc => hb c (List.mem_cons_of_mem y hc)) h1 h2 hrest
      exact ⟨by rw [hxy, hab], hr⟩

theorem renderSegments_cons (x : Nat) (rest : List Nat) :
    renderSegments (x :: rest)
      = FormatInt x ++ (if rest = [] then [] else '.' :: renderSegments rest) := by
  cases rest with
  | nil => simp [renderSegments]
  | cons y rest => simp [renderSegments]

/-- The rendering of the segments can be read back: two renderings, each followed by the
end or by a character that is neither a digit nor a dot, are equal only for equal
segments. -/
theorem renderSegments_injective : ∀ (s1 s2 : List Nat) (t1 t2 : List Char),
    (∀ c, t1.head? = some c → c.isDigit = false ∧ c ≠ '.') →
    (∀ c, t2.head? = some c → c.isDigit = false ∧ c ≠ '.') →
    renderSegments s1 ++ t1 = renderSegments s2 ++ t2 → s1 = s2 ∧ t1 = t2 := by
  intro s1
  induction s1 with
  | nil =>
    intro s2 t1 t2 h1 _ h
    cases s2 with
    | nil => exact ⟨rfl, h⟩
    | cons y r2 =>
      exfalso
      rw [renderSegments_cons] at h
      simp only [renderSegments, List.nil_append, List.append_assoc] at h
      cases hf : FormatInt y with
      | nil => exact formatDigits_ne_nil y y hf
      | cons c cs =>
        rw [hf] at h
        have hd : c.isDigit = true := formatDigits_isDigit y y c (by
          show c ∈ FormatInt y
          rw [hf]
          exact List.mem_cons_self c cs)
        have := (h1 c (by rw [h]; rfl)).1
        rw [hd] at this
        cases this
  | cons x r1 ih =>
    intro s2 t1 t2 h1 h2 h
    cases s2 with
    | nil =>
      exfalso
      rw [renderSegments_cons] at h
      simp only [renderSegments, List.nil_append, List.append_assoc] at h
      cases hf : FormatInt x with
      | nil => exact formatDigits_ne_nil x x hf
      | cons c cs =>
        rw [hf] at h
        have hd : c.isDigit = true := formatDigits_isDigit x x c (by
          show c ∈ FormatInt x
          rw [hf]
          exact List.mem_cons_self c cs)
        have := (h2 c (by rw [← h]; rfl)).1
        rw [hd] at this
        cases this
    | cons y r2 =>
      rw [renderSegments_cons, renderSegments_cons, List.append_assoc, List.append_assoc] at h
      have hsep : ∀ (r : List Nat) (t : List Char),
          (∀ c, t.head? = some c → c.isDigit = false ∧ c ≠ '.') →
          ∀ c, ((if r = [] then [] else '.' :: renderSegments r) ++ t).head? = some c →
            ¬ (c.isDigit = true) := by
        intro r t ht c hc
        by_cases hr : r = []
        · rw [if_pos hr, List.nil_append] at hc
          rw [(ht c hc).1]
          simp
        · rw [if_neg hr] at hc
          simp only [List.cons_append, List.head?_cons, Option.some.injEq] at hc
          subst hc
          decide
      obtain ⟨hxy, hrest⟩ := span_append_cancel (fun c => c.isDigit = true) _ _ _ _
        (formatDigits_isDigit x x) (formatDigits_isDigit y y) (hsep r1 t1 h1) (hsep r2 t2 h2) h
      have hx : x = y := FormatInt_injective x y hxy
      subst hx
      by_cases hr1 : r1 = []
      · by_cases hr2 : r2 = []
        · rw [if_pos hr1, if_pos hr2] at hrest
          exact ⟨by rw [hr1, hr2], hrest⟩
        · exfalso
          rw [if_pos hr1, if_neg hr2] at hrest
          simp only [List.nil_append, List.cons_append] at hrest
          exact (h1 '.' (by rw [hrest]; rfl)).2 rfl
      · by_cases hr2 : r2 = []
        · exfalso
          rw [if_neg hr1, if_pos hr2] at hrest
          simp only [List.nil_append, List.cons_append] at hrest
          exact (h2 '.' (by rw [← hrest]; rfl)).2 rfl
        · rw [if_neg hr1, if_neg hr2] at hrest
          simp only [List.cons_append, List.cons.injEq, true_and] at hrest
          obtain ⟨hr, ht⟩ := ih r2 t1 t2 h1 h2 hrest
          exact ⟨by rw [hr], ht⟩

theorem allZero_iff (segs : List Nat) : allZero segs = true ↔ ∀ y ∈ segs, y = 0 := by
  simp [allZero]

theorem compareSegments_self (a : List Nat) : compareSegments a a = 0 := by
  induction a with
  | nil => simp [compareSegments, allZero]
  | cons x xs ih => simp [compareSegments, ih]

/-- The segment loop reports less exactly for segments below in the segment-wise numeric
ordering. -/
theorem compareSegments_neg_iff : ∀ (a b : List Nat),
    compareSegments a b < 0 ↔ segmentsBelow a b := by
  intro a
  induction a with
  | nil =>
    intro b
    unfold compareSegments segmentsBelow
    constructor
    · intro h
      right
      refine ⟨b, rfl, ?_⟩
      by_cases hz : allZero b = true
      · simp [hz] at h
      · by_contra hne
        apply hz
        rw [allZero_iff]
        intro y hy
        by_contra hy0
        exact hne ⟨y, hy, hy0⟩
    · rintro (⟨common, x, y, rn, ro, h1, _, _⟩ | ⟨extra, h1, y, hy, hy0⟩)
      · cases common <;> cases h1
      · simp only [List.nil_append] at h1
        subst h1
        have hz : ¬ allZero b = true := by
          rw [allZero_iff]
          intro hall
          exact hy0 (hall y hy)
        simp [hz]
  | cons x xs ih =>
    intro b
    cases b with
    | nil =>
      unfold compareSegments segmentsBelow
      constructor
      · intro h
        split at h <;> simp at h
      · rintro (⟨common, x1, y1, rn, ro, _, h2, _⟩ | ⟨extra, h1, _⟩)
        · cases common <;> cases h2
        · cases h1
    | cons y ys =>
      unfold compareSegments
      by_cases hxy : x = y
      · subst hxy
        rw [if_pos rfl, ih ys]
        unfold segmentsBelow
        constructor
        · rintro (⟨common, x1, y1, rn, ro, h1, h2, h3⟩ | ⟨extra, h1, hex⟩)
          · left
            exact ⟨x :: common, x1, y1, rn, ro, by rw [h1]; rfl, by rw [h2]; rfl, h3⟩
          · right
            exact ⟨extra, by rw [h1]; rfl, hex⟩
        · rintro (⟨common, x1, y1, rn, ro, h1, h2, h3⟩ | ⟨extra, h1, hex⟩)
          · cases common with
            | nil =>
              simp only [List.nil_append, List.cons.injEq] at h1 h2
              omega
            | cons c cs =>
              simp only [List.cons_append, List.cons.injEq] at h1 h2
              left
              exact ⟨cs, x1, y1, rn, ro, h1.2, h2.2, h3⟩
          · simp only [List.cons_append, List.cons.injEq, true_and] at h1
            right
            exact ⟨extra, h1, hex⟩
      · rw [if_neg hxy]
        unfold segmentsBelow
        by_cases hlt : x < y
        · rw [if_pos hlt]
          constructor
          · intro _
            left
            exact ⟨[], x, y, xs, ys, rfl, rfl, hlt⟩
          · intro _
            decide
        · rw [if_neg hlt]
          constructor
          · intro h
            simp at h
          · rintro (⟨common, x1, y1, rn, ro, h1, h2, h3⟩ | ⟨extra, h1, _⟩)
            · cases common with
              | nil =>
                simp only [List.nil_append, List.cons.injEq] at h1 h2
                omega
              | cons c cs =>
                simp only [List.cons_append, List.cons.injEq] at h1 h2
                exact absurd (h1.1.trans h2.1.symm) hxy
            · simp only [List.cons_append, List.cons.injEq] at h1
              exact absurd h1.1.symm hxy

theorem segmentsBelow_irrefl (a : List Nat) : ¬ segmentsBelow a a := by
  rw [← compareSegments_neg_iff, compareSegments_self]
  decide

theorem comparePrereleases_self (p : String) : comparePrereleases p p = 0 := by
  simp [comparePrereleases]

theorem capturePre_subset (rest p : List Char) (h : capturePre rest = some p) :
    ∀ c ∈ p, c ∈ rest := by
  unfold capturePre at h
  split at h
  · cases h
    simp
  · rename_i r
    split at h
    · split at h
      · split at h
        · cases h
          intro c hc
          exact List.mem_cons_of_mem _ hc
        · cases h
      · split at h
        · cases h
          intro c hc
          exact hc
        · cases h
    · cases h
      intro c hc
      exact hc
  · split at h
    · cases h
      intro c hc
      exact hc
    · cases h

/-- The pre-release of a parsed version holds no `+`. -/
theorem goNewVersion_pre (s : String) (v : Version) (h : goNewVersion s = some v) :
    '+' ∉ v.pre.data := by
  unfold goNewVersion at h
  simp only [] at h
  split at h
  · rename_i m segs pre hm hs hp
    cases h
    intro hmem
    replace hmem : '+' ∈ pre := hmem
    have h1 := capturePre_subset _ _ hp '+' hmem
    have h2 := (List.dropWhile_suffix _).subset h1
    revert h2
    generalize hs0 : (match s.data with
      | 'v' :: rest => rest
      | rest => rest) = s0
    cases hc : cut '+' s0 with
    | none =>
      exact (cut_eq_none_iff '+' s0).mp hc
    | some q =>
      obtain ⟨b, r⟩ := q
      exact ((cut_eq_some_iff '+' s0 b r).mp hc).1
  · cases h

theorem data_ne_nil (s : String) (h : s ≠ "") : s.data ≠ [] := by
  intro hd
  apply h
  exact String.ext hd

/-- Two versions whose pre-releases hold no `+` have the same rendering exactly when they
have the same segments, pre-release and metadata. -/
theorem Version.String_eq_iff (v o : Version) (hv : '+' ∉ v.pre.data) (ho : '+' ∉ o.pre.data) :
    v.String = o.String ↔ v.segments = o.segments ∧ v.pre = o.pre ∧ v.metadata = o.metadata := by
  constructor
  · intro h
    unfold Version.String at h
    replace h := congrArg String.data h
    dsimp only at h
    rw [List.append_assoc, List.append_assoc] at h
    have htail : ∀ (w : Version) (c : Char),
        ((if w.pre ≠ "" then '-' :: w.pre.data else [])
          ++ (if w.metadata ≠ "" then '+' :: w.metadata.data else [])).head? = some c →
        c.isDigit = false ∧ c ≠ '.' := by
      intro w c hc
      by_cases hp : w.pre ≠ ""
      · rw [if_pos hp] at hc
        simp only [List.cons_append, List.head?_cons, Option.some.injEq] at hc
        subst hc
        decide
      · rw [if_neg hp, List.nil_append] at hc
        by_cases hm : w.metadata ≠ ""
        · rw [if_pos hm] at hc
          simp only [List.head?_cons, Option.some.injEq] at hc
          subst hc
          decide
        · rw [if_neg hm] at hc
          cases hc
    obtain ⟨hseg, ht⟩ := renderSegments_injective _ _ _ _ (htail v) (htail o) h
    refine ⟨hseg, ?_⟩
    have hmeta : ∀ (w1 w2 : Version),
        (if w1.metadata ≠ "" then '+' :: w1.metadata.data else [])
          = (if w2.metadata ≠ "" then '+' :: w2.metadata.data else []) →
        w1.metadata = w2.metadata := by
      intro w1 w2 hm
      by_cases h1 : w1.metadata ≠ ""
      · by_cases h2 : w2.metadata ≠ ""
        · rw [if_pos h1, if_pos h2] at hm
          exact String.ext (List.cons.inj hm).2
        · rw [if_pos h1, if_neg h2] at hm
          cases hm
      · by_cases h2 : w2.metadata ≠ ""
        · rw [if_neg h1, if_pos h2] at hm
          cases hm
        · rw [not_not] at h1 h2
          rw [h1, h2]
    have hplus : ∀ (w : Version) (c : Char),
        (if w.metadata ≠ "" then '+' :: w.metadata.data else []).head? = some c →
        ¬ (c ≠ '+') := by
      intro w c hc
      by_cases hm : w.metadata ≠ ""
      · rw [if_pos hm] at hc
        simp only [List.head?_cons, Option.some.injEq] at hc
        subst hc
        simp
      · rw [if_neg hm] at hc
        cases hc
    by_cases hp1 : v.pre ≠ ""
    · by_cases hp2 : o.pre ≠ ""
      · rw [if_pos hp1, if_pos hp2] at ht
        simp only [List.cons_append, List.cons.injEq, true_and] at ht
        obtain ⟨hpre, hm⟩ := span_append_cancel (fun c => c ≠ '+') _ _ _ _
          (fun c hc hcp => hv (hcp ▸ hc)) (fun c hc hcp => ho (hcp ▸ hc))
          (hplus v) (hplus o) ht
        exact ⟨String.ext hpre, hmeta v o hm⟩
      · exfalso
        rw [if_pos hp1, if_neg hp2, List.nil_append] at ht
        by_cases hm : o.metadata ≠ ""
        · rw [if_pos hm] at ht
          simp only [List.cons_append, List.cons.injEq] at ht
          exact absurd ht.1 (by decide)
        · rw [if_neg hm] at ht
          cases ht
    · by_cases hp2 : o.pre ≠ ""
      · exfalso
        rw [if_neg hp1, if_pos hp2, List.nil_append] at ht
        by_cases hm : v.metadata ≠ ""
        · rw [if_pos hm] at ht
          simp only [List.cons_append, List.cons.injEq] at ht
          exact absurd ht.1 (by decide)
        · rw [if_neg hm] at ht
          cases ht
      · rw [if_neg hp1, if_neg hp2, List.nil_append, List.nil_append] at ht
        rw [not_not] at hp1 hp2
        exact ⟨by rw [hp1, hp2], hmeta v o ht⟩
  · rintro ⟨h1, h2, h3⟩
    unfold Version.String
    rw [h1, h2, h3]

/-- The ordering of the library on parsed versions: a version is less than another exactly
when its segments are below the other's, or the segments are equal and it is a pre-release
while the other is a release or a pre-release that `comparePrereleases` ranks higher. -/
theorem Version.LessThan_iff (v o : Version) (hv : '+' ∉ v.pre.data) (ho : '+' ∉ o.pre.data) :
    v.LessThan o = true ↔
      segmentsBelow v.segments o.segments ∨
      (v.segments = o.segments ∧ v.pre ≠ "" ∧
        (o.pre = "" ∨ comparePrereleases v.pre o.pre < 0)) := by
  unfold Version.LessThan Version.Compare
  rw [decide_eq_true_iff]
  by_cases hS : v.String = o.String
  · rw [if_pos hS]
    obtain ⟨h1, h2, h3⟩ := (Version.String_eq_iff v o hv ho).mp hS
    constructor
    · intro h
      exact absurd h (by decide)
    · rintro (h | ⟨_, hne, h | h⟩)
      · rw [h1] at h
        exact absurd h (segmentsBelow_irrefl _)
      · rw [h2] at hne
        exact absurd h hne
      · rw [h2, comparePrereleases_self] at h
        exact absurd h (by decide)
  · rw [if_neg hS]
    by_cases hseg : v.segments = o.segments
    · rw [if_pos hseg]
      have hnb : ¬ segmentsBelow v.segments o.segments := by
        rw [hseg]
        exact segmentsBelow_irrefl _
      by_cases hp1 : v.pre = ""
      · by_cases hp2 : o.pre = ""
        · rw [if_pos ⟨hp1, hp2⟩]
          constructor
          · intro h
            exact absurd h (by decide)
          · rintro (h | ⟨_, hne, _⟩)
            · exact absurd h hnb
            · exact absurd hp1 hne
        · rw [if_neg (fun h => hp2 h.2), if_pos hp1]
          constructor
          · intro h
            exact absurd h (by decide)
          · rintro (h | ⟨_, hne, _⟩)
            · exact absurd h hnb
            · exact absurd hp1 hne
      · rw [if_neg (fun h => hp1 h.1), if_neg hp1]
        by_cases hp2 : o.pre = ""
        · rw [if_pos hp2]
          constructor
          · intro _
            exact Or.inr ⟨hseg, hp1, Or.inl hp2⟩
          · intro _
            decide
        · rw [if_neg hp2]
          constructor
          · intro h
            exact Or.inr ⟨hseg, hp1, Or.inr h⟩
          · rintro (h | ⟨_, _, h | h⟩)
            · exact absurd h hnb
            · exact absurd h hp2
            · exact h
    · rw [if_neg hseg, compareSegments_neg_iff]
      constructor
      · intro h
        exact Or.inl h
      · rintro (h | ⟨h, _⟩)
        · exact h
        · exact absurd h hseg

/-- C5, counterexample: old `1.18.0`, new `1.18.0-rc1`. Both parse, to the same segments
`1, 18, 0`, so the new version is not below the old one in the segment-wise numeric
ordering; the predicate forces recreation all the same, because the new version is a
pre-release of the old one. -/
theorem versionForceNewIfChange_prerelease_forces :
    (goNewVersion "1.18.0").map (fun v => (v.segments, v.pre)) = some ([1, 18, 0], "") ∧
    (goNewVersion "1.18.0-rc1").map (fun v => (v.segments, v.pre)) = some ([1, 18, 0], "rc1") ∧
    ¬ segmentsBelow [1, 18, 0] [1, 18, 0] ∧
    versionForceNewIfChange goNewVersion Version.LessThan "1.18.0" "1.18.0-rc1" = true :=
  ⟨by decide, by decide, segmentsBelow_irrefl [1, 18, 0], by decide⟩

/-- C5, amended: the predicate returns true exactly when both version strings parse and the
new version is less than the old one in the ordering of `hashicorp/go-version`: the new
segments are below the old ones in the segment-wise numeric ordering, or the segments are
equal and the new version is a pre-release while the old one is a release or a pre-release
that `comparePrereleases` ranks higher. It returns false when either string does not parse.
Old `1.10.0`, new `1.9.0` forces recreation and so does old `1.18.0`, new `1.18.0-rc1`; the
reverse directions, an unchanged version and an unparseable one do not. -/
theorem versionForceNewIfChange_iff_lower_version :
    (∀ old new : String,
      versionForceNewIfChange goNewVersion Version.LessThan old new = true ↔
        ∃ oldVer newVer, goNewVersion old = some oldVer ∧ goNewVersion new = some newVer ∧
          (segmentsBelow newVer.segments oldVer.segments ∨
            (newVer.segments = oldVer.segments ∧ newVer.pre ≠ "" ∧
              (oldVer.pre = "" ∨ comparePrereleases newVer.pre oldVer.pre < 0)))) ∧
    (∀ old new : String, goNewVersion old = none ∨ goNewVersion new = none →
      versionForceNewIfChange goNewVersion Version.LessThan old new = false) ∧
    versionForceNewIfChange goNewVersion Version.LessThan "1.10.0" "1.9.0" = true ∧
    versionForceNewIfChange goNewVersion Version.LessThan "1.9.0" "1.10.0" = false ∧
    versionForceNewIfChange goNewVersion Version.LessThan "1.10.0" "1.10.0" = false ∧
    versionForceNewIfChange goNewVersion Version.LessThan "1.10.0" "latest" = false ∧
    versionForceNewIfChange goNewVersion Version.LessThan "1.18.0" "1.18.0-rc1" = true ∧
    versionForceNewIfChange goNewVersion Version.LessThan "1.18.0-rc1" "1.18.0" = false ∧
    versionForceNewIfChange goNewVersion Version.LessThan "1.18.0-rc2" "1.18.0-rc1" = true := by
  refine ⟨?_, ?_, by decide, by decide, by decide, by decide, by decide, by decide, by decide⟩
  · intro old new
    unfold versionForceNewIfChange
    cases hn : goNewVersion new with
    | none => simp
    | some nv =>
      cases ho : goNewVersion old with
      | none => simp
      | some ov =>
        have hiff := Version.LessThan_iff nv ov (goNewVersion_pre new nv hn)
          (goNewVersion_pre old ov ho)
        constructor
        · intro h
          refine ⟨ov, nv, rfl, rfl, hiff.mp ?_⟩
          by_cases hl : nv.LessThan ov = true
          · exact hl
          · simp [hl] at h
        · rintro ⟨ov2, nv2, h1, h2, h3⟩
          cases h1
          cases h2
          simp [hiff.mpr h3]
  · intro old new h
    unfold versionForceNewIfChange
    rcases h with h | h
    · cases hn : goNewVersion new <;> simp [h]
    · simp [h]

/-! ## Readiness waiter -/

section
variable (getErrorResponse : GoError → String)

theorem tick_ready (k : metakubeProviderMeta) (d : ResourceData) (p s c : String)
    (log : List Call) (h : healthReady (k.GetClusterHealth (log.countP Call.isGetClusterHealth))) :
    waitClusterReady_retryFunc getErrorResponse k d p s c log
      = (none, log ++ [Call.GetClusterHealth p s c]) := by
  obtain ⟨r, hr, hup⟩ := h
  unfold ClusterHealth.allUp at hup
  simp only [waitClusterReady_retryFunc, hr]
  rw [if_pos hup]

theorem tick_not_ready (k : metakubeProviderMeta) (d : ResourceData) (p s c : String)
    (log : List Call)
    (h : ¬ healthReady (k.GetClusterHealth (log.countP Call.isGetClusterHealth))) :
    ∃ e, waitClusterReady_retryFunc getErrorResponse k d p s c log
      = (some (RetryableError e), log ++ [Call.GetClusterHealth p s c]) := by
  cases hr : k.GetClusterHealth (log.countP Call.isGetClusterHealth) with
  | error err =>
    refine ⟨Errorf ("unable to get cluster '" ++ d.Id ++ "' health: " ++ getErrorResponse err),
      ?_⟩
    simp only [waitClusterReady_retryFunc, hr]
  | ok r =>
    have hup : ¬ r.allUp := fun hu => h ⟨r, hr, hu⟩
    unfold ClusterHealth.allUp at hup
    refine ⟨Errorf ("waiting for cluster '" ++ d.Id ++ "' to be ready"), ?_⟩
    simp only [waitClusterReady_retryFunc, hr]
    rw [if_neg hup]

theorem count_health_append (log : List Call) (p s c : String) :
    (log ++ [Call.GetClusterHealth p s c]).countP Call.isGetClusterHealth
      = log.countP Call.isGetClusterHealth + 1 := by
  simp [List.countP_append, Call.isGetClusterHealth]

theorem retry_health_converges (k : metakubeProviderMeta) (d : ResourceData) (p s c : String) :
    ∀ (j ticks : Nat) (log : List Call) (last : Option GoError), j < ticks →
      (∀ i, i < j → ¬ healthReady (k.GetClusterHealth (log.countP Call.isGetClusterHealth + i))) →
      healthReady (k.GetClusterHealth (log.countP Call.isGetClusterHealth + j)) →
      RetryContext (waitClusterReady_retryFunc getErrorResponse k d p s c) ticks log last
        = (none, log ++ List.replicate (j + 1) (Call.GetClusterHealth p s c)) := by
  intro j
  induction j with
  | zero =>
    intro ticks log last ht _ hr
    obtain ⟨t, rfl⟩ : ∃ t, ticks = t + 1 := ⟨ticks - 1, by omega⟩
    simp only [RetryContext, tick_ready getErrorResponse k d p s c log hr]
    simp
  | succ j ih =>
    intro ticks log last ht hnot hr
    obtain ⟨t, rfl⟩ : ∃ t, ticks = t + 1 := ⟨ticks - 1, by omega⟩
    obtain ⟨e, he⟩ := tick_not_ready getErrorResponse k d p s c log (by simpa using hnot 0 (by omega))
    simp only [RetryContext, he, RetryableError, if_true]
    rw [ih t _ _ (by omega)]
    · simp [List.replicate_succ]
    · intro i hi
      rw [count_health_append]
      have := hnot (i + 1) (by omega)
      rwa [show log.countP Call.isGetClusterHealth + 1 + i
        = log.countP Call.isGetClusterHealth + (i + 1) by omega]
    · rw [count_health_append]
      rwa [show log.countP Call.isGetClusterHealth + 1 + j
        = log.countP Call.isGetClusterHealth + (j + 1) by omega]

/-- C6. One tick of `waitClusterReady` returns success if and only if the health query
returns no error and all seven indicators equal 1; if an indicator differs from 1 the tick
returns a retryable error and the loop goes on to the next tick. -/
theorem waitClusterReady_tick_classification (k : metakubeProviderMeta) (d : ResourceData)
    (projectID seedDC clusterID : String) (log : List Call) :
    ((waitClusterReady_retryFunc getErrorResponse k d projectID seedDC clusterID log).1 = none ↔
      ∃ h, k.GetClusterHealth (log.countP Call.isGetClusterHealth) = .ok h ∧
        h.Apiserver = 1 ∧ h.CloudProviderInfrastructure = 1 ∧ h.Controller = 1 ∧ h.Etcd = 1 ∧
        h.MachineController = 1 ∧ h.Scheduler = 1 ∧ h.UserClusterControllerManager = 1) ∧
    ((∃ h, k.GetClusterHealth (log.countP Call.isGetClusterHealth) = .ok h ∧
        (h.Apiserver ≠ 1 ∨ h.CloudProviderInfrastructure ≠ 1 ∨ h.Controller ≠ 1 ∨ h.Etcd ≠ 1 ∨
          h.MachineController ≠ 1 ∨ h.Scheduler ≠ 1 ∨ h.UserClusterControllerManager ≠ 1)) →
      ∃ e, waitClusterReady_retryFunc getErrorResponse k d projectID seedDC clusterID log
          = (some (RetryableError e), log ++ [Call.GetClusterHealth projectID seedDC clusterID]) ∧
        ∀ n last, RetryContext
            (waitClusterReady_retryFunc getErrorResponse k d projectID seedDC clusterID)
            (n + 1) log last
          = RetryContext
            (waitClusterReady_retryFunc getErrorResponse k d projectID seedDC clusterID)
            n (log ++ [Call.GetClusterHealth projectID seedDC clusterID]) (some e)) := by
  constructor
  · constructor
    · intro h
      by_cases hr : healthReady (k.GetClusterHealth (log.countP Call.isGetClusterHealth))
      · exact hr
      · obtain ⟨e, he⟩ := tick_not_ready getErrorResponse k d projectID seedDC clusterID log hr
        rw [he] at h
        simp at h
    · intro h
      rw [tick_ready getErrorResponse k d projectID seedDC clusterID log h]
  · rintro ⟨h, hr, hne⟩
    have hnr : ¬ healthReady (k.GetClusterHealth (log.countP Call.isGetClusterHealth)) := by
      rintro ⟨h2, hr2, hup⟩
      rw [hr] at hr2
      cases hr2
      unfold ClusterHealth.allUp healthStatusUp at hup
      tauto
    obtain ⟨e, he⟩ := tick_not_ready getErrorResponse k d projectID seedDC clusterID log hnr
    refine ⟨e, he, ?_⟩
    intro n last
    simp only [RetryContext, he, RetryableError, if_true]

/-- C7. If the first health-query result with all seven indicators up is the `n`-th
(`n ≥ 1`, within the ticks the timeout allows), `waitClusterReady` returns success and
has issued exactly `n` `GetClusterHealth` calls. -/
theorem waitClusterReady_converges_after_n_polls (k : metakubeProviderMeta) (d : ResourceData)
    (projectID seedDC clusterID : String) (ticks n : Nat) (log : List Call)
    (hn : 1 ≤ n) (hdeadline : n ≤ ticks)
    (hfirst : ∀ i, i + 1 < n →
      ¬ healthReady (k.GetClusterHealth (log.countP Call.isGetClusterHealth + i)))
    (hnth : healthReady (k.GetClusterHealth (log.countP Call.isGetClusterHealth + (n - 1)))) :
    waitClusterReady getErrorResponse k d projectID seedDC clusterID ticks log
      = (none, log ++ List.replicate n (Call.GetClusterHealth projectID seedDC clusterID)) ∧
    (waitClusterReady getErrorResponse k d projectID seedDC clusterID ticks log).2.countP
        Call.isGetClusterHealth = log.countP Call.isGetClusterHealth + n := by
  obtain ⟨j, rfl⟩ : ∃ j, n = j + 1 := ⟨n - 1, by omega⟩
  have h := retry_health_converges getErrorResponse k d projectID seedDC clusterID j ticks log
    none (by omega) (fun i hi => hfirst i (by omega)) (by simpa using hnth)
  unfold waitClusterReady
  rw [h]
  refine ⟨rfl, ?_⟩
  simp [List.countP_append, List.countP_replicate, Call.isGetClusterHealth]

end

/-- C7, witness: all indicators are up at the third poll; success after three polls. -/
theorem waitClusterReady_converges_after_n_polls_witness :
    (1 ≤ 3 ∧ 3 ≤ 5 ∧
      ¬ healthReady (thirdPollRemote.GetClusterHealth 0) ∧
      ¬ healthReady (thirdPollRemote.GetClusterHealth 1) ∧
      healthReady (thirdPollRemote.GetClusterHealth 2)) ∧
    waitClusterReady GoError.Error thirdPollRemote { Id := "p:dc:c" } "p" "dc" "c" 5 []
      = (none, [] ++ List.replicate 3 (Call.GetClusterHealth "p" "dc" "c")) :=
  have h0 : ¬ healthReady (thirdPollRemote.GetClusterHealth 0) := by
    rintro ⟨h, hr, _⟩
    simp [thirdPollRemote] at hr
  have h1 : ¬ healthReady (thirdPollRemote.GetClusterHealth 1) := by
    rintro ⟨h, hr, hup⟩
    simp [thirdPollRemote] at hr
    subst hr
    revert hup
    decide
  have h2 : healthReady (thirdPollRemote.GetClusterHealth 2) := ⟨allUpHealth, rfl, by decide⟩
  ⟨⟨by decide, by decide, h0, h1, h2⟩,
    (waitClusterReady_converges_after_n_polls GoError.Error thirdPollRemote
      { Id := "p:dc:c" } "p" "dc" "c" 5 3 [] (by decide) (by decide)
      (by
        intro i hi
        have hi2 : i = 0 ∨ i = 1 := by omega
        rcases hi2 with rfl | rfl
        · exact h0
        · exact h1)
      h2).1⟩

/-! ## Delete waiter -/

section
variable (getErrorResponse : GoError → String)

theorem poll_state (k : metakubeProviderMeta) (d : ResourceData) (p s c : String)
    (st : DeleteState) :
    (resourceClusterDelete_poll getErrorResponse k d p s c st).2
      = { st with log := st.log ++ [Call.GetCluster p s c] } := by
  unfold resourceClusterDelete_poll
  cases k.GetCluster (st.log.countP Call.isGetCluster) with
  | ok r => rfl
  | error err =>
    cases err with
    | GetClusterDefault code t => simp only []; split <;> rfl
    | _ => rfl

theorem tick_sent (k : metakubeProviderMeta) (d : ResourceData) (p s c : String)
    (st : DeleteState) (h : st.deleteSent = true) :
    resourceClusterDelete_retryFunc getErrorResponse k d p s c st
      = resourceClusterDelete_poll getErrorResponse k d p s c st := by
  simp [resourceClusterDelete_retryFunc, h]

/-- One step of the loop, whatever the tick answers: the loop either stops in the state the
tick left, or goes on from it. -/
theorem retry_step {σ : Type} (f : σ → Option RetryError × σ) (n : Nat) (s : σ)
    (last : Option GoError) :
    (RetryContext f (n + 1) s last).2 = (f s).2 ∨
    ∃ e, RetryContext f (n + 1) s last = RetryContext f n (f s).2 (some e) := by
  rcases hf : f s with ⟨r, s1⟩
  cases r with
  | none => left; simp [RetryContext, hf]
  | some rerr =>
    by_cases hr : rerr.Retryable = true
    · right; exact ⟨rerr.Err, by simp [RetryContext, hf, hr]⟩
    · left; simp [RetryContext, hf, hr]

/-- Once the delete call has been sent, the loop only polls existence. -/
theorem retry_sent_log (k : metakubeProviderMeta) (d : ResourceData) (p s c : String) :
    ∀ (n : Nat) (st : DeleteState) (last : Option GoError), st.deleteSent = true →
      ∃ g, (RetryContext (resourceClusterDelete_retryFunc getErrorResponse k d p s c)
          n st last).2.log = st.log ++ List.replicate g (Call.GetCluster p s c) := by
  intro n
  induction n with
  | zero => intro st last _; exact ⟨0, by simp [RetryContext]⟩
  | succ n ih =>
    intro st last hs
    have hst : (resourceClusterDelete_retryFunc getErrorResponse k d p s c st).2
        = { st with log := st.log ++ [Call.GetCluster p s c] } := by
      rw [tick_sent getErrorResponse k d p s c st hs, poll_state]
    rcases retry_step (resourceClusterDelete_retryFunc getErrorResponse k d p s c) n st last
      with h | ⟨e, h⟩
    · exact ⟨1, by rw [h, hst]; rfl⟩
    · obtain ⟨g, hg⟩ := ih (resourceClusterDelete_retryFunc getErrorResponse k d p s c st).2
        (some e) (by rw [hst]; exact hs)
      refine ⟨g + 1, ?_⟩
      rw [h, hg, hst]
      simp [List.replicate_succ]

theorem count_delete_append (log : List Call) (p s c : String) :
    (log ++ [Call.DeleteCluster p s c]).countP Call.isDeleteCluster
      = log.countP Call.isDeleteCluster + 1 := by
  simp [List.countP_append, Call.isDeleteCluster]

/-- Shape of the call log of the delete loop started with `deleteSent = false`. -/
theorem retry_unsent_log (k : metakubeProviderMeta) (d : ResourceData) (p s c : String) :
    ∀ (n : Nat) (st : DeleteState) (last : Option GoError), st.deleteSent = false →
      ∃ j g, (RetryContext (resourceClusterDelete_retryFunc getErrorResponse k d p s c)
          n st last).2.log
          = st.log ++ List.replicate j (Call.DeleteCluster p s c)
            ++ List.replicate g (Call.GetCluster p s c) ∧
        (∀ i, i + 1 < j → ∃ t, k.DeleteCluster (st.log.countP Call.isDeleteCluster + i)
          = some (GoError.DeleteClusterDefault StatusConflict t)) ∧
        (0 < g → ∃ j1, j = j1 + 1 ∧
          k.DeleteCluster (st.log.countP Call.isDeleteCluster + j1) = none) ∧
        j ≤ n ∧
        (∀ m, m < n →
          (∀ i, i < m → ∃ t, k.DeleteCluster (st.log.countP Call.isDeleteCluster + i)
            = some (GoError.DeleteClusterDefault StatusConflict t)) → m + 1 ≤ j) ∧
        (∀ j1, j = j1 + 1 →
          k.DeleteCluster (st.log.countP Call.isDeleteCluster + j1) = none → 0 < g) := by
  intro n
  induction n with
  | zero =>
    intro st last _
    exact ⟨0, 0, by simp [RetryContext], by simp, by simp, Nat.le_refl 0, by simp, by simp⟩
  | succ n ih =>
    intro st last hs
    cases hd : k.DeleteCluster (st.log.countP Call.isDeleteCluster) with
    | none =>
      -- the delete call succeeded: this tick and all later ones poll
      have htick : resourceClusterDelete_retryFunc getErrorResponse k d p s c st
          = resourceClusterDelete_poll getErrorResponse k d p s c
            { deleteSent := true, log := st.log ++ [Call.DeleteCluster p s c] } := by
        simp [resourceClusterDelete_retryFunc, hs, hd]
      have hst : (resourceClusterDelete_retryFunc getErrorResponse k d p s c st).2
          = { deleteSent := true,
              log := st.log ++ [Call.DeleteCluster p s c] ++ [Call.GetCluster p s c] } := by
        rw [htick, poll_state]
      have hprog : ∀ m, m < n + 1 →
          (∀ i, i < m → ∃ t, k.DeleteCluster (st.log.countP Call.isDeleteCluster + i)
            = some (GoError.DeleteClusterDefault StatusConflict t)) → m + 1 ≤ 1 := by
        intro m _ hm
        cases m with
        | zero => exact Nat.le_refl 1
        | succ m =>
          obtain ⟨t, ht⟩ := hm 0 (Nat.succ_pos m)
          rw [Nat.add_zero, hd] at ht
          cases ht
      rcases retry_step (resourceClusterDelete_retryFunc getErrorResponse k d p s c) n st last
        with h | ⟨e, h⟩
      · exact ⟨1, 1, by rw [h, hst]; rfl, by simp, fun _ => ⟨0, rfl, by simpa using hd⟩,
          by omega, hprog, fun _ _ _ => Nat.one_pos⟩
      · obtain ⟨g, hg⟩ := retry_sent_log getErrorResponse k d p s c n
          (resourceClusterDelete_retryFunc getErrorResponse k d p s c st).2 (some e)
          (by rw [hst])
        refine ⟨1, g + 1, ?_, by simp, fun _ => ⟨0, rfl, by simpa using hd⟩, by omega, hprog,
          fun _ _ _ => Nat.succ_pos g⟩
        rw [h, hg, hst]
        simp [List.replicate_succ]
    | some err =>
      by_cases hc : ∃ t, err = GoError.DeleteClusterDefault StatusConflict t
      · -- conflict: retryable, the flag stays false, the next tick sends the call again
        obtain ⟨t, rfl⟩ := hc
        have htick : resourceClusterDelete_retryFunc getErrorResponse k d p s c st
            = (some (RetryableError (GoError.DeleteClusterDefault StatusConflict t)),
                { st with log := st.log ++ [Call.DeleteCluster p s c] }) := by
          simp [resourceClusterDelete_retryFunc, hs, hd]
        have hrun : RetryContext (resourceClusterDelete_retryFunc getErrorResponse k d p s c)
            (n + 1) st last
            = RetryContext (resourceClusterDelete_retryFunc getErrorResponse k d p s c) n
              { st with log := st.log ++ [Call.DeleteCluster p s c] }
              (some (GoError.DeleteClusterDefault StatusConflict t)) := by
          simp [RetryContext, htick, RetryableError]
        obtain ⟨j, g, hlog, hconf, hok, hle, hprog, hpoll⟩ := ih
          { st with log := st.log ++ [Call.DeleteCluster p s c] }
          (some (GoError.DeleteClusterDefault StatusConflict t)) hs
        refine ⟨j + 1, g, ?_, ?_, ?_, by omega, ?_, ?_⟩
        · rw [hrun, hlog]
          simp [List.replicate_succ]
        · intro i hi
          cases i with
          | zero => exact ⟨t, by simpa using hd⟩
          | succ i =>
            obtain ⟨t2, ht2⟩ := hconf i (by omega)
            refine ⟨t2, ?_⟩
            rw [← ht2, count_delete_append]
            congr 1
            omega
        · intro hg
          obtain ⟨j1, rfl, hj1⟩ := hok hg
          refine ⟨j1 + 1, rfl, ?_⟩
          rw [← hj1, count_delete_append]
          congr 1
          omega
        · intro m hm hlead
          cases m with
          | zero => omega
          | succ m =>
            have := hprog m (by omega) (fun i hi => by
              obtain ⟨t2, ht2⟩ := hlead (i + 1) (by omega)
              refine ⟨t2, ?_⟩
              rw [← ht2, count_delete_append]
              congr 1
              omega)
            omega
        · intro j1 hj hnone
          cases j1 with
          | zero =>
            rw [Nat.add_zero, hd] at hnone
            cases hnone
          | succ j1 =>
            refine hpoll j1 (by omega) ?_
            rw [← hnone, count_delete_append]
            congr 1
            omega
      · -- any other answer ends the loop in this tick, without a poll
        have hst : (resourceClusterDelete_retryFunc getErrorResponse k d p s c st)
            = (none, { st with log := st.log ++ [Call.DeleteCluster p s c] }) ∨
            ∃ e, (resourceClusterDelete_retryFunc getErrorResponse k d p s c st)
            = (some (NonRetryableError e),
                { st with log := st.log ++ [Call.DeleteCluster p s c] }) := by
          cases err with
          | DeleteClusterDefault code t =>
            have hcode : ¬ code = StatusConflict := by
              rintro rfl
              exact hc ⟨t, rfl⟩
            by_cases h404 : code = StatusNotFound
            · subst h404
              left
              simp [resourceClusterDelete_retryFunc, hs, hd,
                show ¬ (StatusNotFound = StatusConflict) by decide]
            · right
              exact ⟨_, by simp [resourceClusterDelete_retryFunc, hs, hd, hcode, h404]; rfl⟩
          | DeleteClusterForbidden t =>
            left; simp [resourceClusterDelete_retryFunc, hs, hd]
          | _ =>
            right
            exact ⟨_, by simp [resourceClusterDelete_retryFunc, hs, hd]; rfl⟩
        refine ⟨1, 0, ?_, by simp, by simp, by omega, ?_, ?_⟩
        · rcases hst with h | ⟨e, h⟩
          · simp [RetryContext, h]
          · simp [RetryContext, h, NonRetryableError]
        · intro m _ hm
          cases m with
          | zero => exact Nat.le_refl 1
          | succ m =>
            obtain ⟨t, ht⟩ := hm 0 (Nat.succ_pos m)
            rw [Nat.add_zero, hd] at ht
            exact absurd ⟨t, Option.some.inj ht⟩ hc
        · intro j1 hj hnone
          have : j1 = 0 := by omega
          subst this
          rw [Nat.add_zero, hd] at hnone
          cases hnone
/-- C8. If the first `DeleteCluster` call is answered with 404, `resourceClusterDelete`
returns no diagnostics, having issued that one `DeleteCluster` call and no `GetCluster`. -/
theorem resourceClusterDelete_notFound_first_tick (k : metakubeProviderMeta)
    (d : ResourceData) (ticks : Nat) (log : List Call) (projectID seedDC clusterID text : String)
    (hid : metakubeClusterParseID d.Id = (projectID, seedDC, clusterID, none))
    (hticks : 0 < ticks)
    (hdel : k.DeleteCluster (log.countP Call.isDeleteCluster)
      = some (GoError.DeleteClusterDefault StatusNotFound text)) :
    resourceClusterDelete getErrorResponse k d ticks log
      = ([], log ++ [Call.DeleteCluster projectID seedDC clusterID]) := by
  obtain ⟨t, rfl⟩ : ∃ t, ticks = t + 1 := ⟨ticks - 1, by omega⟩
  simp only [resourceClusterDelete, hid, RetryContext, resourceClusterDelete_retryFunc, hdel]
  simp [StatusNotFound, StatusConflict]

end

/-- C8, witness: the first delete call is answered with 404. -/
theorem resourceClusterDelete_notFound_first_tick_witness :
    (metakubeClusterParseID ({ Id := "p:dc:c" } : ResourceData).Id = ("p", "dc", "c", none) ∧ 0 < 4 ∧
      notFoundOnDeleteRemote.DeleteCluster (([] : List Call).countP Call.isDeleteCluster)
        = some (GoError.DeleteClusterDefault StatusNotFound "not found")) ∧
    resourceClusterDelete GoError.Error notFoundOnDeleteRemote { Id := "p:dc:c" } 4 []
      = ([], [] ++ [Call.DeleteCluster "p" "dc" "c"]) :=
  ⟨⟨by decide, by decide, rfl⟩,
    resourceClusterDelete_notFound_first_tick GoError.Error notFoundOnDeleteRemote { Id := "p:dc:c" } 4 []
      "p" "dc" "c" "not found" (by decide) (by decide) rfl⟩

/-- C9, counterexample: when the first `DeleteCluster` call meets a conflict, the call is
issued a second time: two `DeleteCluster` calls in total. -/
theorem resourceClusterDelete_conflict_reissues_delete :
    resourceClusterDelete GoError.Error conflictThenDeletedRemote { Id := "p:dc:c" } 4 []
      = ([], [Call.DeleteCluster "p" "dc" "c", Call.DeleteCluster "p" "dc" "c",
          Call.GetCluster "p" "dc" "c", Call.GetCluster "p" "dc" "c"]) ∧
    (resourceClusterDelete GoError.Error conflictThenDeletedRemote { Id := "p:dc:c" } 4 []).2.countP
      Call.isDeleteCluster = 2 := by decide

/-- C9, amended: `DeleteCluster` is issued once per tick until a call is answered with
something other than a conflict. The call log of `resourceClusterDelete` is `j` calls of
`DeleteCluster` followed by `g` polls with `GetCluster`, where `j` is at most the number of
ticks; every `DeleteCluster` call but the last was answered with 409; while ticks remain,
the call is issued, and issued again after each 409 (with `m` leading conflicts and more
than `m` ticks at least `m + 1` calls are issued); polls follow only a `DeleteCluster` call
answered without error, and at least one poll follows such a call. Once the flag
`deleteSent` is set a tick issues `GetCluster` only and keeps the flag. A 409 answer is
classified as retryable and leaves the flag unset, so the next tick issues `DeleteCluster`
again. -/
theorem resourceClusterDelete_calls_shape (getErrorResponse : GoError → String)
    (k : metakubeProviderMeta) (d : ResourceData) (ticks : Nat) (log : List Call)
    (projectID seedDC clusterID : String)
    (hid : metakubeClusterParseID d.Id = (projectID, seedDC, clusterID, none)) :
    (∃ j g, (resourceClusterDelete getErrorResponse k d ticks log).2
        = log ++ List.replicate j (Call.DeleteCluster projectID seedDC clusterID)
          ++ List.replicate g (Call.GetCluster projectID seedDC clusterID) ∧
      (∀ i, i + 1 < j → ∃ t, k.DeleteCluster (log.countP Call.isDeleteCluster + i)
        = some (GoError.DeleteClusterDefault StatusConflict t)) ∧
      (0 < g → ∃ j1, j = j1 + 1 ∧
        k.DeleteCluster (log.countP Call.isDeleteCluster + j1) = none) ∧
      j ≤ ticks ∧
      (∀ m, m < ticks →
        (∀ i, i < m → ∃ t, k.DeleteCluster (log.countP Call.isDeleteCluster + i)
          = some (GoError.DeleteClusterDefault StatusConflict t)) → m + 1 ≤ j) ∧
      (∀ j1, j = j1 + 1 →
        k.DeleteCluster (log.countP Call.isDeleteCluster + j1) = none → 0 < g)) ∧
    (∀ st : DeleteState, st.deleteSent = true →
      (resourceClusterDelete_retryFunc getErrorResponse k d projectID seedDC clusterID st).2
        = { deleteSent := true,
            log := st.log ++ [Call.GetCluster projectID seedDC clusterID] }) ∧
    (∀ (st : DeleteState) (t : String), st.deleteSent = false →
      k.DeleteCluster (st.log.countP Call.isDeleteCluster)
        = some (GoError.DeleteClusterDefault StatusConflict t) →
      resourceClusterDelete_retryFunc getErrorResponse k d projectID seedDC clusterID st
        = (some (RetryableError (GoError.DeleteClusterDefault StatusConflict t)),
            { deleteSent := false,
              log := st.log ++ [Call.DeleteCluster projectID seedDC clusterID] })) := by
  refine ⟨?_, ?_, ?_⟩
  · obtain ⟨j, g, hlog, hconf, hok, hle, hprog, hpoll⟩ := retry_unsent_log getErrorResponse k d
      projectID seedDC clusterID ticks { deleteSent := false, log := log } none rfl
    refine ⟨j, g, ?_, hconf, hok, hle, hprog, hpoll⟩
    simp only [resourceClusterDelete, hid]
    rw [← hlog]
    split <;> rename_i h <;> rw [h]
  · intro st hs
    rw [tick_sent getErrorResponse k d projectID seedDC clusterID st hs, poll_state, hs]
  · intro st t hs hd
    cases st with
    | mk sent l =>
      simp only at hs hd
      subst hs
      simp [resourceClusterDelete_retryFunc, hd]

/-- C9, witness: a conflict, then an accepted delete call, with four ticks: exactly two
`DeleteCluster` calls are issued, and at least one poll follows them. -/
theorem resourceClusterDelete_calls_shape_witness :
    metakubeClusterParseID ({ Id := "p:dc:c" } : ResourceData).Id = ("p", "dc", "c", none) ∧
    ∃ j g, (resourceClusterDelete GoError.Error conflictThenDeletedRemote { Id := "p:dc:c" } 4 []).2
        = [] ++ List.replicate j (Call.DeleteCluster "p" "dc" "c")
          ++ List.replicate g (Call.GetCluster "p" "dc" "c") ∧
      j = 2 ∧ 0 < g := by
  obtain ⟨j, g, hlog, hconf, _, _, hprog, hpoll⟩ :=
    (resourceClusterDelete_calls_shape GoError.Error conflictThenDeletedRemote
      { Id := "p:dc:c" } 4 [] "p" "dc" "c" (by decide)).1
  have h2 : 2 ≤ j := hprog 1 (by decide) (fun i hi => by
    have hi0 : i = 0 := by omega
    subst hi0
    exact ⟨"conflict", by decide⟩)
  have h3 : j ≤ 2 := by
    by_contra hj
    obtain ⟨t, ht⟩ := hconf 1 (by omega)
    have hnone : conflictThenDeletedRemote.DeleteCluster
        (([] : List Call).countP Call.isDeleteCluster + 1) = none := by decide
    rw [hnone] at ht
    cases ht
  have hj : j = 2 := by omega
  subst hj
  exact ⟨by decide, 2, g, hlog, rfl, hpoll 1 rfl (by decide)⟩

/-- C10. Existence poll during delete, for a tick entered with the delete call already sent:
a `GetCluster` answer of not-found (`GetClusterDefault` with code 404) or forbidden
(`GetClusterForbidden`) ends the loop with success; any other `GetCluster` error ends it
with a non-retryable error; a successful `GetCluster` gives the retryable error
"deletion in progress" and the loop goes on. The tick in which the delete call is accepted
runs the same poll. -/
theorem resourceClusterDelete_poll_classification (getErrorResponse : GoError → String)
    (k : metakubeProviderMeta) (d : ResourceData) (projectID seedDC clusterID : String)
    (st : DeleteState) (n : Nat) (last : Option GoError) (hsent : st.deleteSent = true) :
    (∀ err, k.GetCluster (st.log.countP Call.isGetCluster) = .error err →
      ((∃ t, err = GoError.GetClusterDefault StatusNotFound t) ∨
        (∃ t, err = GoError.GetClusterForbidden t)) →
      RetryContext (resourceClusterDelete_retryFunc getErrorResponse k d projectID seedDC
          clusterID) (n + 1) st last
        = (none, { deleteSent := true,
                   log := st.log ++ [Call.GetCluster projectID seedDC clusterID] })) ∧
    (∀ err, k.GetCluster (st.log.countP Call.isGetCluster) = .error err →
      (∀ t, err ≠ GoError.GetClusterDefault StatusNotFound t) →
      (∀ t, err ≠ GoError.GetClusterForbidden t) →
      resourceClusterDelete_retryFunc getErrorResponse k d projectID seedDC clusterID st
        = (some (NonRetryableError (Errorf
            ("unable to get cluster '" ++ d.Id ++ "': " ++ getErrorResponse err))),
            { deleteSent := true,
              log := st.log ++ [Call.GetCluster projectID seedDC clusterID] }) ∧
      RetryContext (resourceClusterDelete_retryFunc getErrorResponse k d projectID seedDC
          clusterID) (n + 1) st last
        = (some (Errorf ("unable to get cluster '" ++ d.Id ++ "': " ++ getErrorResponse err)),
            { deleteSent := true,
              log := st.log ++ [Call.GetCluster projectID seedDC clusterID] })) ∧
    (∀ cl, k.GetCluster (st.log.countP Call.isGetCluster) = .ok cl →
      resourceClusterDelete_retryFunc getErrorResponse k d projectID seedDC clusterID st
        = (some (RetryableError (Errorf ("cluster '" ++ d.Id ++ "' deletion in progress"))),
            { deleteSent := true,
              log := st.log ++ [Call.GetCluster projectID seedDC clusterID] }) ∧
      RetryContext (resourceClusterDelete_retryFunc getErrorResponse k d projectID seedDC
          clusterID) (n + 1) st last
        = RetryContext (resourceClusterDelete_retryFunc getErrorResponse k d projectID seedDC
            clusterID) n
            { deleteSent := true,
              log := st.log ++ [Call.GetCluster projectID seedDC clusterID] }
            (some (Errorf ("cluster '" ++ d.Id ++ "' deletion in progress")))) ∧
    (∀ st0 : DeleteState, st0.deleteSent = false →
      k.DeleteCluster (st0.log.countP Call.isDeleteCluster) = none →
      resourceClusterDelete_retryFunc getErrorResponse k d projectID seedDC clusterID st0
        = resourceClusterDelete_retryFunc getErrorResponse k d projectID seedDC clusterID
          { deleteSent := true,
            log := st0.log ++ [Call.DeleteCluster projectID seedDC clusterID] }) := by
  cases st with
  | mk sent l =>
  simp only at hsent
  subst hsent
  refine ⟨?_, ?_, ?_, ?_⟩
  · rintro err herr (⟨t, rfl⟩ | ⟨t, rfl⟩) <;>
      simp [RetryContext, resourceClusterDelete_retryFunc, resourceClusterDelete_poll, herr]
  · intro err herr h404 hforb
    have htick : resourceClusterDelete_retryFunc getErrorResponse k d projectID seedDC
        clusterID { deleteSent := true, log := l }
        = (some (NonRetryableError (Errorf
            ("unable to get cluster '" ++ d.Id ++ "': " ++ getErrorResponse err))),
            { deleteSent := true,
              log := l ++ [Call.GetCluster projectID seedDC clusterID] }) := by
      cases err with
      | GetClusterDefault code t =>
        have hcode : ¬ code = StatusNotFound := by
          rintro rfl
          exact h404 t rfl
        simp [resourceClusterDelete_retryFunc, resourceClusterDelete_poll, herr, hcode]
      | GetClusterForbidden t => exact absurd rfl (hforb t)
      | _ => simp [resourceClusterDelete_retryFunc, resourceClusterDelete_poll, herr]
    exact ⟨htick, by simp [RetryContext, htick, NonRetryableError]⟩
  · intro cl hcl
    have htick : resourceClusterDelete_retryFunc getErrorResponse k d projectID seedDC
        clusterID { deleteSent := true, log := l }
        = (some (RetryableError (Errorf ("cluster '" ++ d.Id ++ "' deletion in progress"))),
            { deleteSent := true,
              log := l ++ [Call.GetCluster projectID seedDC clusterID] }) := by
      simp [resourceClusterDelete_retryFunc, resourceClusterDelete_poll, hcl]
    exact ⟨htick, by simp [RetryContext, htick, RetryableError]⟩
  · intro st0 hs hd
    cases st0 with
    | mk sent0 l0 =>
      simp only at hs hd
      subst hs
      simp [resourceClusterDelete_retryFunc, hd]

/-- C10, witness: after the delete call was sent, a 404 on the existence poll ends the
loop with success. -/
theorem resourceClusterDelete_poll_classification_witness :
    (DeleteState.mk true [Call.DeleteCluster "p" "dc" "c", Call.GetCluster "p" "dc" "c"]).deleteSent
      = true ∧
    RetryContext (resourceClusterDelete_retryFunc GoError.Error conflictThenDeletedRemote
        { Id := "p:dc:c" } "p" "dc" "c") (2 + 1)
        ⟨true, [Call.DeleteCluster "p" "dc" "c", Call.GetCluster "p" "dc" "c"]⟩ none
      = (none, { deleteSent := true,
                 log := [Call.DeleteCluster "p" "dc" "c", Call.GetCluster "p" "dc" "c"]
                   ++ [Call.GetCluster "p" "dc" "c"] }) :=
  ⟨rfl, (resourceClusterDelete_poll_classification GoError.Error conflictThenDeletedRemote
    { Id := "p:dc:c" } "p" "dc" "c"
    ⟨true, [Call.DeleteCluster "p" "dc" "c", Call.GetCluster "p" "dc" "c"]⟩ 2 none rfl).1
    (GoError.GetClusterDefault 404 "not found") rfl (Or.inl ⟨"not found", rfl⟩)⟩

/-! ## Malformed identity and not-found on read -/

/-- A failed decode returns the error and three empty strings. -/
theorem parseID_of_error (id : String) (h : (metakubeClusterParseID id).2.2.2 ≠ none) :
    metakubeClusterParseID id = ("", "", "", some (parseIDError id)) := by
  rcases parseID_cases id with h1 | ⟨a, b, c, _, _, _, _, _, _, he⟩
  · exact h1
  · rw [he] at h; simp at h

/-- C11. Malformed identity on read and delete: when the resource ID does not decode,
`resourceClusterRead` and `resourceClusterDelete` return one error diagnostic, the decode
error, issue no remote call (the call log is unchanged) and leave the resource data as it
was. -/
theorem malformed_id_read_delete_no_call (hp : Helpers) (k : metakubeProviderMeta)
    (d : ResourceData) (ticks : Nat) (log : List Call)
    (hbad : (metakubeClusterParseID d.Id).2.2.2 ≠ none) :
    resourceClusterRead hp k d log
      = ([{ severity := Severity.Error, Summary := (parseIDError d.Id).Error }], d, log) ∧
    resourceClusterDelete hp.getErrorResponse k d ticks log
      = ([{ severity := Severity.Error, Summary := (parseIDError d.Id).Error }], log) := by
  have h := parseID_of_error d.Id hbad
  constructor
  · simp only [resourceClusterRead, h, diagFromErr]
  · simp only [resourceClusterDelete, h, diagFromErr]

/-- C11, witness: the ID `a:b`. -/
theorem malformed_id_read_delete_no_call_witness :
    (metakubeClusterParseID (openstackData "a:b" "dc-c").Id).2.2.2 ≠ none ∧
    resourceClusterRead plainHelpers datacentersRemote (openstackData "a:b" "dc-c") []
      = ([{ severity := Severity.Error, Summary := (parseIDError "a:b").Error }],
          openstackData "a:b" "dc-c", []) :=
  ⟨by decide, (malformed_id_read_delete_no_call plainHelpers datacentersRemote
    (openstackData "a:b" "dc-c") 3 [] (by decide)).1⟩

theorem isDeleted_iff (err : Option GoError) :
    getClusterErrResourceIsDeleted err = true ↔
      ∃ t, err = some (GoError.GetClusterDefault StatusNotFound t) := by
  cases err with
  | none => simp [getClusterErrResourceIsDeleted]
  | some e =>
    cases e <;> simp [getClusterErrResourceIsDeleted]

/-- C13. Not-found on read: when `GetCluster` fails with a `GetClusterDefault` of code 404,
`resourceClusterRead` sets the ID to the empty string, returns no diagnostics and writes
no other attribute; for any other `GetCluster` error it returns an error diagnostic and
leaves the resource data unchanged. `getClusterErrResourceIsDeleted` is true exactly for a
`GetClusterDefault` of code 404, and false for nil. -/
theorem resourceClusterRead_not_found (hp : Helpers) (k : metakubeProviderMeta)
    (d : ResourceData) (log : List Call) (projectID seedDC clusterID : String)
    (hid : metakubeClusterParseID d.Id = (projectID, seedDC, clusterID, none)) :
    (∀ t, k.GetCluster (log.countP Call.isGetCluster)
        = .error (GoError.GetClusterDefault StatusNotFound t) →
      resourceClusterRead hp k d log
        = ([], { d with Id := "" }, log ++ [Call.GetCluster projectID seedDC clusterID])) ∧
    (∀ err, k.GetCluster (log.countP Call.isGetCluster) = .error err →
      (∀ t, err ≠ GoError.GetClusterDefault StatusNotFound t) →
      resourceClusterRead hp k d log
        = ([{ severity := Severity.Error,
              Summary := "unable to get cluster '" ++ d.Id ++ "': " ++ hp.getErrorResponse err }],
            d, log ++ [Call.GetCluster projectID seedDC clusterID])) ∧
    (∀ err : Option GoError, getClusterErrResourceIsDeleted err = true ↔
      ∃ t, err = some (GoError.GetClusterDefault StatusNotFound t)) ∧
    getClusterErrResourceIsDeleted none = false := by
  refine ⟨?_, ?_, isDeleted_iff, rfl⟩
  · intro t ht
    simp [resourceClusterRead, hid, ht, getClusterErrResourceIsDeleted, ResourceData.SetId]
  · intro err herr hne
    have hdel : getClusterErrResourceIsDeleted (some err) = false := by
      cases hx : getClusterErrResourceIsDeleted (some err) with
      | false => rfl
      | true =>
        obtain ⟨t, ht⟩ := (isDeleted_iff (some err)).mp hx
        exact absurd (Option.some.inj ht) (hne t)
    simp only [resourceClusterRead, hid, herr, hdel, diagErrorf]
    cases err with
    | GetClusterDefault code t =>
      have hcode : ¬ code = StatusNotFound := by
        rintro rfl
        exact hne t rfl
      simp [hcode]
    | _ => simp

/-- C13, witness: `GetCluster` answers 404. -/
theorem resourceClusterRead_not_found_witness :
    metakubeClusterParseID (openstackData "p:seed-c:c" "dc-c").Id = ("p", "seed-c", "c", none) ∧
    resourceClusterRead plainHelpers datacentersRemote (openstackData "p:seed-c:c" "dc-c") []
      = ([], { openstackData "p:seed-c:c" "dc-c" with Id := "" },
          [] ++ [Call.GetCluster "p" "seed-c" "c"]) :=
  ⟨by decide, (resourceClusterRead_not_found plainHelpers datacentersRemote
    (openstackData "p:seed-c:c" "dc-c") [] "p" "seed-c" "c" (by decide)).1 "not found" rfl⟩

/-! ## Validation gate of create and update -/

/-- The datacenter lookup issues exactly one call, `ListDatacenters`. -/
theorem getDatacenterByName_log (hp : Helpers) (k : metakubeProviderMeta) (d : ResourceData)
    (log : List Call) :
    (getDatacenterByName hp k d log).2.2 = log ++ [Call.ListDatacenters] := by
  unfold getDatacenterByName
  cases k.ListDatacenters (log.countP Call.isListDatacenters) with
  | error err =>
    cases err with
    | ListDatacentersDefault code t => simp only []; split <;> rfl
    | _ => rfl
  | ok payload =>
    simp only []
    split <;> rfl

/-- With a malformed ID, what follows the validation gate of the update issues no call and
returns the decode error. -/
theorem update_apply_of_bad_id (hp : Helpers) (k : metakubeProviderMeta) (d : ResourceData)
    (patchTicks readyTicks : Nat) (log : List Call)
    (hbad : (metakubeClusterParseID d.Id).2.2.2 ≠ none) :
    resourceClusterUpdate_apply hp k d patchTicks readyTicks log
      = (diagFromErr (parseIDError d.Id), d, log) := by
  have h := parseID_of_error d.Id hbad
  unfold resourceClusterUpdate_apply
  by_cases hc : (d.HasChange "name" || d.HasChange "labels" || d.HasChange "spec") = true
  · simp only [hc, if_true, patchClusterFields, h]
  · simp only [hc, Bool.false_eq_true, if_false]
    by_cases hk : d.HasChange "sshkeys" = true
    · simp [hk, updateClusterSSHKeys, h, diagFromErr]
    · simp [hk, h]

/-- C12, counterexample: with an ID that does not decode, `resourceClusterUpdate` has
issued `ListDatacenters` before it aborts. -/
theorem resourceClusterUpdate_lists_datacenters_first :
    (metakubeClusterParseID (openstackData "a:b" "dc-c").Id).2.2.2 ≠ none ∧
    (resourceClusterUpdate plainHelpers datacentersRemote (openstackData "a:b" "dc-c") 3 3 []).2.2
      = [Call.ListDatacenters] := by decide

/-- C12, amended: when the resource ID does not decode, `resourceClusterUpdate` aborts with
non-empty diagnostics (the validation batch if it is not empty, else the decode error),
leaves the resource data unchanged, and the only remote call it has issued is the
`ListDatacenters` of the datacenter check: no `PatchCluster`, `DetachSSHKeyFromCluster`,
`AssignSSHKeyToCluster`, `GetClusterHealth` or `GetCluster`. -/
theorem resourceClusterUpdate_malformed_id (hp : Helpers) (k : metakubeProviderMeta)
    (d : ResourceData) (patchTicks readyTicks : Nat) (log : List Call)
    (hbad : (metakubeClusterParseID d.Id).2.2.2 ≠ none) :
    (resourceClusterUpdate hp k d patchTicks readyTicks log).1 ≠ [] ∧
    ((resourceClusterUpdate hp k d patchTicks readyTicks log).1
        = hp.validateClusterFields k d ++ (getDatacenterByName hp k d log).2.1 ∨
      (resourceClusterUpdate hp k d patchTicks readyTicks log).1
        = [{ severity := Severity.Error, Summary := (parseIDError d.Id).Error }]) ∧
    (resourceClusterUpdate hp k d patchTicks readyTicks log).2.1 = d ∧
    (resourceClusterUpdate hp k d patchTicks readyTicks log).2.2
      = log ++ [Call.ListDatacenters] := by
  have hlog := getDatacenterByName_log hp k d log
  rcases hg : getDatacenterByName hp k d log with ⟨dc, diagnostics, log1⟩
  rw [hg] at hlog
  replace hlog : log1 = log ++ [Call.ListDatacenters] := hlog
  subst hlog
  unfold resourceClusterUpdate
  simp only [hg]
  by_cases hne : (hp.validateClusterFields k d ++ diagnostics).length ≠ 0
  · rw [if_pos hne]
    refine ⟨?_, Or.inl rfl, rfl, rfl⟩
    intro h0
    have h1 : hp.validateClusterFields k d ++ diagnostics = [] := h0
    exact hne (by rw [h1]; rfl)
  · rw [if_neg hne, update_apply_of_bad_id hp k d patchTicks readyTicks _ hbad]
    exact ⟨by simp [diagFromErr], Or.inr rfl, rfl, rfl⟩

/-- C12, witness: the ID `a:b`. -/
theorem resourceClusterUpdate_malformed_id_witness :
    (metakubeClusterParseID (openstackData "a:b" "dc-c").Id).2.2.2 ≠ none ∧
    (resourceClusterUpdate plainHelpers datacentersRemote (openstackData "a:b" "dc-c") 3 3 []).2.2
      = [] ++ [Call.ListDatacenters] :=
  ⟨by decide, (resourceClusterUpdate_malformed_id plainHelpers datacentersRemote
    (openstackData "a:b" "dc-c") 3 3 [] (by decide)).2.2.2⟩

/-- C16. Validation precedes mutation: the datacenter check is run whatever field
validation returned (its `ListDatacenters` call is in the log), and when the concatenation
of the two batches is not empty, `resourceClusterCreate` and `resourceClusterUpdate`
return exactly that concatenation, issue no other remote call and leave the resource data,
the ID included, unchanged. -/
theorem validation_batch_precedes_mutation (hp : Helpers) (k : metakubeProviderMeta)
    (d : ResourceData) (patchTicks readyTicks : Nat) (log : List Call)
    (hne : hp.validateClusterFields k d ++ (getDatacenterByName hp k d log).2.1 ≠ []) :
    resourceClusterCreate hp k d readyTicks log
      = (hp.validateClusterFields k d ++ (getDatacenterByName hp k d log).2.1, d,
          log ++ [Call.ListDatacenters]) ∧
    resourceClusterUpdate hp k d patchTicks readyTicks log
      = (hp.validateClusterFields k d ++ (getDatacenterByName hp k d log).2.1, d,
          log ++ [Call.ListDatacenters]) ∧
    (getDatacenterByName hp k d log).2.2 = log ++ [Call.ListDatacenters] := by
  have hlog := getDatacenterByName_log hp k d log
  rcases hg : getDatacenterByName hp k d log with ⟨dc, diagnostics, log1⟩
  rw [hg] at hlog hne
  replace hlog : log1 = log ++ [Call.ListDatacenters] := hlog
  replace hne : hp.validateClusterFields k d ++ diagnostics ≠ [] := hne
  subst hlog
  have hlen : (hp.validateClusterFields k d ++ diagnostics).length ≠ 0 := by
    intro h0
    exact hne (List.length_eq_zero.mp h0)
  refine ⟨?_, ?_, rfl⟩
  · unfold resourceClusterCreate
    simp only [hg]
    rw [if_pos hlen]
  · unfold resourceClusterUpdate
    simp only [hg]
    rw [if_pos hlen]

/-- C16, witness: field validation fails and the datacenter is unknown; both diagnostics
are returned. -/
theorem validation_batch_precedes_mutation_witness :
    strictHelpers.validateClusterFields datacentersRemote (openstackData "" "nowhere")
      ++ (getDatacenterByName strictHelpers datacentersRemote (openstackData "" "nowhere") []).2.1
      ≠ [] ∧
    resourceClusterCreate strictHelpers datacentersRemote (openstackData "" "nowhere") 3 []
      = ([{ severity := Severity.Error, Summary := "bad field" },
          { severity := Severity.Error, Summary := "Unknown datacenter",
            AttributePath := ["dc_name"],
            Detail := "Please select one of available datacenters for the provider - [dc-a dc-c]" }],
          openstackData "" "nowhere", [Call.ListDatacenters]) :=
  ⟨by decide, (validation_batch_precedes_mutation strictHelpers datacentersRemote
    (openstackData "" "nowhere") 3 3 [] (by decide)).1⟩

/-! ## Datacenter lookup -/

theorem loop_none (d : ResourceData) (name : String) :
    ∀ (l : List Datacenter) (available : List String),
      (∀ v ∈ l, ¬ namedWithSeed name v) →
      getDatacenterByName_loop d name l available
        = (none, available ++ (l.filter (supportsVariant d)).map (fun v => v.Metadata.Name)) := by
  intro l
  induction l with
  | nil => intro available _; simp [getDatacenterByName_loop]
  | cons v rest ih =>
    intro available h
    have hv : ¬ (v.Spec.Seed ≠ "" ∧ v.Metadata.Name = name) := h v (List.mem_cons_self _ _)
    have hrest : ∀ w ∈ rest, ¬ namedWithSeed name w :=
      fun w hw => h w (List.mem_cons_of_mem _ hw)
    unfold getDatacenterByName_loop
    simp only []
    rw [if_neg hv, ih _ hrest]
    by_cases hs : supportsVariant d v = true
    · simp [hs, List.filter_cons]
    · simp [hs, List.filter_cons]

theorem loop_first (d : ResourceData) (name : String) :
    ∀ (pre : List Datacenter) (dc : Datacenter) (post : List Datacenter)
      (available : List String),
      (∀ v ∈ pre, ¬ namedWithSeed name v) → namedWithSeed name dc →
      (getDatacenterByName_loop d name (pre ++ dc :: post) available).1 = some dc := by
  intro pre
  induction pre with
  | nil =>
    intro dc post available _ hdc
    have hdc2 : dc.Spec.Seed ≠ "" ∧ dc.Metadata.Name = name := hdc
    simp only [List.nil_append, getDatacenterByName_loop]
    rw [if_pos hdc2]
  | cons v rest ih =>
    intro dc post available h hdc
    have hv : ¬ (v.Spec.Seed ≠ "" ∧ v.Metadata.Name = name) := h v (List.mem_cons_self _ _)
    have hrest : ∀ w ∈ rest, ¬ namedWithSeed name w :=
      fun w hw => h w (List.mem_cons_of_mem _ hw)
    simp only [List.cons_append, getDatacenterByName_loop]
    rw [if_neg hv]
    exact ih dc post _ hrest hdc

theorem loop_some (d : ResourceData) (name : String) :
    ∀ (l : List Datacenter) (available : List String) (dc : Datacenter),
      (getDatacenterByName_loop d name l available).1 = some dc →
      namedWithSeed name dc ∧
      ∃ pre post, l = pre ++ dc :: post ∧ ∀ v ∈ pre, ¬ namedWithSeed name v := by
  intro l
  induction l with
  | nil => intro available dc h; simp [getDatacenterByName_loop] at h
  | cons v rest ih =>
    intro available dc h
    by_cases hv : v.Spec.Seed ≠ "" ∧ v.Metadata.Name = name
    · simp only [getDatacenterByName_loop] at h
      rw [if_pos hv] at h
      have hvd : v = dc := Option.some.inj h
      subst hvd
      exact ⟨hv, [], rest, rfl, by simp⟩
    · simp only [getDatacenterByName_loop] at h
      rw [if_neg hv] at h
      obtain ⟨hdc, pre, post, hl, hpre⟩ := ih _ dc h
      refine ⟨hdc, v :: pre, post, by rw [hl]; rfl, ?_⟩
      intro w hw
      rcases List.mem_cons.mp hw with rfl | hw2
      · exact hv
      · exact hpre w hw2

/-- The datacenter lookup on a successful listing. -/
theorem getDatacenterByName_ok (hp : Helpers) (k : metakubeProviderMeta) (d : ResourceData)
    (log : List Call) (payload : List Datacenter)
    (h : k.ListDatacenters (log.countP Call.isListDatacenters) = .ok payload) :
    getDatacenterByName hp k d log =
      match getDatacenterByName_loop d (d.GetString "dc_name") payload [] with
      | (some v, _) => (some v, [], log ++ [Call.ListDatacenters])
      | (none, available) => (none, unknownDatacenter available, log ++ [Call.ListDatacenters]) := by
  simp only [getDatacenterByName, h]

/-- Without a successful listing no datacenter is returned. -/
theorem getDatacenterByName_error (hp : Helpers) (k : metakubeProviderMeta) (d : ResourceData)
    (log : List Call) (err : GoError)
    (h : k.ListDatacenters (log.countP Call.isListDatacenters) = .error err) :
    (getDatacenterByName hp k d log).1 = none := by
  simp only [getDatacenterByName, h]
  cases err with
  | ListDatacentersDefault code t => simp only []; split <;> rfl
  | _ => rfl

/-- C14, counterexample: for an openstack configuration the lookup returns, without
diagnostics, the datacenter `dc-b`, which supports aws only. -/
theorem getDatacenterByName_accepts_other_variant :
    isOpenstack (openstackData "" "dc-b") = true ∧
    getDatacenterByName plainHelpers datacentersRemote (openstackData "" "dc-b") []
      = (some { Metadata := { Name := "dc-b" },
                Spec := { Seed := "seed-b", Openstack := false, Aws := true, Azure := false } },
          [], [Call.ListDatacenters]) := by decide

/-- C14, amended: whenever `getDatacenterByName` returns a datacenter, it returns no
diagnostics and the datacenter is the first listed one that is named `dc_name` and has a
non-empty seed. Support for the declared cloud variant is not checked: the same datacenter
is returned for every tree with the same `dc_name`, whatever variant it declares. -/
theorem getDatacenterByName_first_named_with_seed (hp : Helpers) (k : metakubeProviderMeta)
    (d : ResourceData) (log : List Call) (dc : Datacenter)
    (hdc : (getDatacenterByName hp k d log).1 = some dc) :
    (getDatacenterByName hp k d log).2.1 = [] ∧
    dc.Metadata.Name = d.GetString "dc_name" ∧ dc.Spec.Seed ≠ "" ∧
    (∃ payload pre post,
      k.ListDatacenters (log.countP Call.isListDatacenters) = .ok payload ∧
      payload = pre ++ dc :: post ∧
      ∀ v ∈ pre, ¬ (v.Spec.Seed ≠ "" ∧ v.Metadata.Name = d.GetString "dc_name")) ∧
    (∀ d2 : ResourceData, d2.GetString "dc_name" = d.GetString "dc_name" →
      getDatacenterByName hp k d2 log = (some dc, [], log ++ [Call.ListDatacenters])) := by
  cases hl : k.ListDatacenters (log.countP Call.isListDatacenters) with
  | error err =>
    rw [getDatacenterByName_error hp k d log err hl] at hdc
    cases hdc
  | ok payload =>
    have hloop : (getDatacenterByName_loop d (d.GetString "dc_name") payload []).1 = some dc := by
      rw [getDatacenterByName_ok hp k d log payload hl] at hdc
      rcases hr : getDatacenterByName_loop d (d.GetString "dc_name") payload [] with ⟨r, av⟩
      rw [hr] at hdc
      cases r with
      | none => cases hdc
      | some v => exact hdc
    obtain ⟨hnamed, pre, post, hpay, hpre⟩ := loop_some d _ payload [] dc hloop
    refine ⟨?_, hnamed.2, hnamed.1, ⟨payload, pre, post, rfl, hpay, hpre⟩, ?_⟩
    · rw [getDatacenterByName_ok hp k d log payload hl]
      rcases hr : getDatacenterByName_loop d (d.GetString "dc_name") payload [] with ⟨r, av⟩
      rw [hr] at hloop
      cases r with
      | none => cases hloop
      | some v => rfl
    · intro d2 hd2
      have h2 := loop_first d2 (d.GetString "dc_name") pre dc post [] hpre hnamed
      rw [getDatacenterByName_ok hp k d2 log payload hl, hd2, hpay]
      rcases hr : getDatacenterByName_loop d2 (d.GetString "dc_name") (pre ++ dc :: post) []
        with ⟨r, av⟩
      rw [hr] at h2
      cases r with
      | none => cases h2
      | some v =>
        have hv : v = dc := Option.some.inj h2
        subst hv
        rfl

/-- C14, witness: the datacenter `dc-c`. -/
theorem getDatacenterByName_first_named_with_seed_witness :
    (getDatacenterByName plainHelpers datacentersRemote (openstackData "" "dc-c") []).1
      = some { Metadata := { Name := "dc-c" }, Spec := { Seed := "seed-c", Openstack := true } } ∧
    (getDatacenterByName plainHelpers datacentersRemote (openstackData "" "dc-c") []).2.1 = [] :=
  ⟨by decide, (getDatacenterByName_first_named_with_seed plainHelpers datacentersRemote
    (openstackData "" "dc-c") []
    { Metadata := { Name := "dc-c" }, Spec := { Seed := "seed-c", Openstack := true } }
    (by decide)).1⟩

set_option maxRecDepth 100000 in
/-- C15, counterexample: the diagnostic for the requested name `nowhere` contains that name
neither in its summary nor in its detail. -/
theorem unknown_datacenter_omits_requested_name :
    getDatacenterByName plainHelpers datacentersRemote (openstackData "" "nowhere") []
      = (none,
          [{ severity := Severity.Error, Summary := "Unknown datacenter",
             AttributePath := ["dc_name"],
             Detail :=
               "Please select one of available datacenters for the provider - [dc-a dc-c]" }],
          [Call.ListDatacenters]) ∧
    ¬ ("nowhere".data <:+: "Unknown datacenter".data) ∧
    ¬ ("nowhere".data <:+:
      "Please select one of available datacenters for the provider - [dc-a dc-c]".data) := by
  decide

/-- C15, amended: when `ListDatacenters` succeeds and no listed datacenter has both the
requested name and a non-empty seed, `getDatacenterByName` returns exactly one error
diagnostic with summary `Unknown datacenter` and attribute path `dc_name`, whose detail is
the fixed text `Please select one of available datacenters for the provider - ` followed by
the list, in API order, of exactly the names of the listed datacenters that support the
declared cloud variant. -/
theorem getDatacenterByName_unknown_datacenter (hp : Helpers) (k : metakubeProviderMeta)
    (d : ResourceData) (log : List Call) (payload : List Datacenter)
    (hlist : k.ListDatacenters (log.countP Call.isListDatacenters) = .ok payload)
    (hnone : ∀ v ∈ payload, ¬ (v.Spec.Seed ≠ "" ∧ v.Metadata.Name = d.GetString "dc_name")) :
    getDatacenterByName hp k d log
      = (none,
          [{ severity := Severity.Error, Summary := "Unknown datacenter",
             AttributePath := ["dc_name"],
             Detail := "Please select one of available datacenters for the provider - "
               ++ ("[" ++ " ".intercalate
                 ((payload.filter (supportsVariant d)).map (fun v => v.Metadata.Name)) ++ "]") }],
          log ++ [Call.ListDatacenters]) := by
  rw [getDatacenterByName_ok hp k d log payload hlist,
    loop_none d (d.GetString "dc_name") payload [] hnone]
  simp only [List.nil_append]
  rfl

/-- C15, witness: `dc-a` is listed without a seed. -/
theorem getDatacenterByName_unknown_datacenter_witness :
    datacentersRemote.ListDatacenters (([] : List Call).countP Call.isListDatacenters)
      = .ok
      [ { Metadata := { Name := "dc-a" }, Spec := { Seed := "", Openstack := true } },
        { Metadata := { Name := "dc-b" }, Spec := { Seed := "seed-b", Aws := true } },
        { Metadata := { Name := "dc-c" }, Spec := { Seed := "seed-c", Openstack := true } } ] ∧
    getDatacenterByName plainHelpers datacentersRemote (openstackData "" "dc-a") []
      = (none,
          [{ severity := Severity.Error, Summary := "Unknown datacenter",
             AttributePath := ["dc_name"],
             Detail :=
               "Please select one of available datacenters for the provider - [dc-a dc-c]" }],
          [Call.ListDatacenters]) :=
  ⟨rfl, getDatacenterByName_unknown_datacenter plainHelpers datacentersRemote
    (openstackData "" "dc-a") [] _ rfl (by decide)⟩

/-! ## Preserved values -/

/-- C17. Preserve-value capture: for each of openstack, azure and aws independently, the
entry is absent when `d.GetOk` does not report the block `spec.0.cloud.0.<variant>.0`, and
otherwise holds the values of the tree at the paths of that variant, verbatim. A tree with
only the openstack block gives an openstack entry and no azure or aws entry. -/
theorem readClusterPreserveValues_per_variant (d : ResourceData) :
    (readClusterPreserveValues d).openstack =
      (if d.GetOk "spec.0.cloud.0.openstack.0" then
        some { openstackUsername := d.GetString "spec.0.cloud.0.openstack.0.username"
               openstackPassword := d.GetString "spec.0.cloud.0.openstack.0.password"
               openstackTenant := d.GetString "spec.0.cloud.0.openstack.0.tenant" }
      else none) ∧
    (readClusterPreserveValues d).azure =
      (if d.GetOk "spec.0.cloud.0.azure.0" then
        some { AvailabilitySet := d.GetString "spec.0.cloud.0.azure.0.availability_set"
               ClientID := d.GetString "spec.0.cloud.0.azure.0.client_id"
               ClientSecret := d.GetString "spec.0.cloud.0.azure.0.client_secret"
               SubscriptionID := d.GetString "spec.0.cloud.0.azure.0.subscription_id"
               TenantID := d.GetString "spec.0.cloud.0.azure.0.tenant_id"
               ResourceGroup := d.GetString "spec.0.cloud.0.azure.0.resource_group"
               RouteTableName := d.GetString "spec.0.cloud.0.azure.0.route_table"
               SecurityGroup := d.GetString "spec.0.cloud.0.azure.0.security_group"
               SubnetName := d.GetString "spec.0.cloud.0.azure.0.subnet"
               VNetName := d.GetString "spec.0.cloud.0.azure.0.vnet" }
      else none) ∧
    (readClusterPreserveValues d).aws =
      (if d.GetOk "spec.0.cloud.0.aws.0" then
        some { AccessKeyID := d.GetString "spec.0.cloud.0.aws.0.access_key_id"
               SecretAccessKey := d.GetString "spec.0.cloud.0.aws.0.secret_access_key"
               VPCID := d.GetString "spec.0.cloud.0.aws.0.vpc_id"
               SecurityGroupID := d.GetString "spec.0.cloud.0.aws.0.security_group_id"
               RouteTableID := d.GetString "spec.0.cloud.0.aws.0.route_table_id"
               InstanceProfileName := d.GetString "spec.0.cloud.0.aws.0.instance_profile_name"
               ControlPlaneRoleARN := d.GetString "spec.0.cloud.0.aws.0.role_arn" }
      else none) ∧
    readClusterPreserveValues openstackOnlyData
      = { openstack := some { openstackUsername := "u", openstackPassword := "pw",
                              openstackTenant := "t" },
          azure := none, aws := none } := by
  have hk : ∀ s : String, preserveKey s = "spec.0.cloud.0." ++ s := fun _ => rfl
  refine ⟨?_, ?_, ?_, by decide⟩
  · simp only [readClusterPreserveValues, hk]
    rfl
  · simp only [readClusterPreserveValues, hk]
    rfl
  · simp only [readClusterPreserveValues, hk]
    rfl

/-! ## The call log only grows -/

theorem retry_log_grows (f : List Call → Option RetryError × List Call)
    (hf : ∀ log, log <+: (f log).2) :
    ∀ (n : Nat) (log : List Call) (last : Option GoError),
      log <+: (RetryContext f n log last).2 := by
  intro n
  induction n with
  | zero => intro log last; simp [RetryContext]
  | succ n ih =>
    intro log last
    rcases retry_step f n log last with h | ⟨e, h⟩
    · rw [h]; exact hf log
    · rw [h]; exact (hf log).trans (ih _ _)

theorem waitClusterReady_tick_log (getErrorResponse : GoError → String)
    (k : metakubeProviderMeta) (d : ResourceData) (p s c : String) (log : List Call) :
    (waitClusterReady_retryFunc getErrorResponse k d p s c log).2
      = log ++ [Call.GetClusterHealth p s c] := by
  unfold waitClusterReady_retryFunc
  cases k.GetClusterHealth (log.countP Call.isGetClusterHealth) with
  | error err => rfl
  | ok r => simp only []; split <;> rfl

theorem waitClusterReady_log_grows (getErrorResponse : GoError → String)
    (k : metakubeProviderMeta) (d : ResourceData) (p s c : String) (ticks : Nat)
    (log : List Call) :
    log <+: (waitClusterReady getErrorResponse k d p s c ticks log).2 := by
  unfold waitClusterReady
  apply retry_log_grows
  intro l
  rw [waitClusterReady_tick_log]
  exact List.prefix_append _ _

theorem assignSSHKeysToCluster_log_grows (k : metakubeProviderMeta) (p s c : String) :
    ∀ (keys : List String) (log : List Call),
      log <+: (assignSSHKeysToCluster k p s c keys log).2 := by
  intro keys
  induction keys with
  | nil => intro log; simp [assignSSHKeysToCluster]
  | cons id rest ih =>
    intro log
    unfold assignSSHKeysToCluster
    cases k.AssignSSHKeyToCluster (log.countP Call.isAssignSSHKeyToCluster) with
    | some err => exact List.prefix_append _ _
    | none => exact (List.prefix_append _ _).trans (ih _)

theorem excludeProjectLabels_log (getErrorResponse : GoError → String)
    (k : metakubeProviderMeta) (p : String) (labels : GoMap) (log : List Call) :
    (excludeProjectLabels getErrorResponse k p labels log).2.2 = log ++ [Call.GetProject p] := by
  unfold excludeProjectLabels
  cases k.GetProject (log.countP Call.isGetProject) <;> rfl

theorem getAssignedSSHKeys_log_grows (hp : Helpers) (k : metakubeProviderMeta)
    (d : ResourceData) (log : List Call) :
    log <+: (metakubeClusterGetAssignedSSHKeys hp k d log).2.2 := by
  unfold metakubeClusterGetAssignedSSHKeys
  split
  · exact List.prefix_refl _
  · simp only []
    split <;> exact List.prefix_append _ _

theorem read_flatten_log_grows (hp : Helpers) (k : metakubeProviderMeta) (d : ResourceData)
    (p : String) (payload : Cluster) (log : List Call) :
    log <+: (resourceClusterRead_flatten hp k d p payload log).2.2 := by
  have h1 := excludeProjectLabels_log hp.getErrorResponse k p payload.Labels log
  unfold resourceClusterRead_flatten
  rcases he : excludeProjectLabels hp.getErrorResponse k p payload.Labels log
    with ⟨labels, diags, log1⟩
  rw [he] at h1
  replace h1 : log1 = log ++ [Call.GetProject p] := h1
  have hp1 : log <+: log1 := by rw [h1]; exact List.prefix_append _ _
  simp only []
  split
  · exact hp1
  · split
    · exact hp1
    · split
      · exact hp1
      · rename_i d6 _
        generalize hd8 : ((ResourceData.Set hp
          (ResourceData.Set hp d6 "creation_timestamp"
            (ResourceData.writeString "creation_timestamp" payload.CreationTimestamp)).2
          "deletion_timestamp"
            (ResourceData.writeString "deletion_timestamp" payload.DeletionTimestamp)).2) = d8
        have h2 := getAssignedSSHKeys_log_grows hp k d8 log1
        rcases hg : metakubeClusterGetAssignedSSHKeys hp k d8 log1 with ⟨keys, diags2, log2⟩
        rw [hg] at h2
        replace h2 : log1 <+: log2 := h2
        simp only []
        split
        · exact hp1.trans h2
        · split
          · exact hp1.trans h2
          · exact hp1.trans h2

theorem resourceClusterRead_log_grows (hp : Helpers) (k : metakubeProviderMeta)
    (d : ResourceData) (log : List Call) :
    log <+: (resourceClusterRead hp k d log).2.2 := by
  unfold resourceClusterRead
  split
  · exact List.prefix_refl _
  · rename_i p s c _
    simp only []
    split
    · split
      · exact List.prefix_append _ _
      · split
        · split <;> exact List.prefix_append _ _
        · exact List.prefix_append _ _
    · exact (List.prefix_append _ _).trans (read_flatten_log_grows hp k d p _ _)

theorem create_apply_log (hp : Helpers) (k : metakubeProviderMeta) (d : ResourceData)
    (dc : Datacenter) (readyTicks : Nat) (log : List Call) :
    (log ++ [Call.CreateCluster (d.GetString "project_id") dc.Spec.Seed
        (createClusterSpecOf d (hp.expandClusterSpec d.spec (d.GetString "dc_name"))).1])
      <+: (resourceClusterCreate_apply hp k d dc readyTicks log).2.2 := by
  unfold resourceClusterCreate_apply
  simp only []
  split
  · exact List.prefix_refl _
  · rename_i payload _
    have ha := assignSSHKeysToCluster_log_grows k (d.GetString "project_id") dc.Spec.Seed
      payload.ID
      (d.SetId (metakubeClusterMakeID (d.GetString "project_id") dc.Spec.Seed payload.ID)).sshkeys
      (log ++ [Call.CreateCluster (d.GetString "project_id") dc.Spec.Seed
        (createClusterSpecOf d (hp.expandClusterSpec d.spec (d.GetString "dc_name"))).1])
    rcases hr : assignSSHKeysToCluster k (d.GetString "project_id") dc.Spec.Seed payload.ID
      (d.SetId (metakubeClusterMakeID (d.GetString "project_id") dc.Spec.Seed payload.ID)).sshkeys
      (log ++ [Call.CreateCluster (d.GetString "project_id") dc.Spec.Seed
        (createClusterSpecOf d (hp.expandClusterSpec d.spec (d.GetString "dc_name"))).1])
      with ⟨diags, log2⟩
    rw [hr] at ha
    replace ha : _ <+: log2 := ha
    simp only []
    split
    · exact ha
    · split
      · exact ha
      · rename_i p s c _
        have hw := waitClusterReady_log_grows hp.getErrorResponse k
          (d.SetId (metakubeClusterMakeID (d.GetString "project_id") dc.Spec.Seed payload.ID))
          p s c readyTicks log2
        split
        · rename_i err log3 heq
          rw [heq] at hw
          exact ha.trans hw
        · rename_i log3 heq
          rw [heq] at hw
          have hr3 := resourceClusterRead_log_grows hp k
            (d.SetId (metakubeClusterMakeID (d.GetString "project_id") dc.Spec.Seed payload.ID))
            log3
          exact (ha.trans hw).trans hr3

/-! ## CIDR blocks on create -/

/-- C18, counterexample: lines 159-185 on a cluster spec whose pods list holds two blocks
leave `PodsCIDR` of the request body empty; the first block is not taken. -/
theorem createClusterSpecOf_drops_extra_cidr_blocks :
    (createClusterSpecOf (openstackData "" "dc-c")
      { ClusterNetwork := some
          { Pods := some { CIDRBlocks := ["10.0.0.0/16", "10.1.0.0/16"] } } }).1.PodsCIDR = "" ∧
    (createClusterSpecOf (openstackData "" "dc-c")
      { ClusterNetwork := some
          { Pods := some { CIDRBlocks := ["10.0.0.0/16", "10.1.0.0/16"] } } }).1.PodsCIDR
      ≠ "10.0.0.0/16" := by
  decide

theorem cidrScalar_one (what b : String) :
    (cidrScalar what (some { CIDRBlocks := [b] })).1 = b := by
  simp [cidrScalar]

theorem cidrScalar_many (what : String) (blocks : List String) (h : 1 < blocks.length) :
    (cidrScalar what (some { CIDRBlocks := blocks })).1 = "" := by
  have h1 : ¬ blocks.length = 1 := by omega
  simp [cidrScalar, h1]

/-- C18, amended: in the body of the `CreateCluster` request that `resourceClusterCreate`
issues, `PodsCIDR` (`ServicesCIDR`) is the block of a pods (services) list with exactly one
block, and is left empty for a list with more than one block. -/
theorem resourceClusterCreate_cidr_scalar (hp : Helpers) (k : metakubeProviderMeta)
    (d : ResourceData) (readyTicks : Nat) (log : List Call) (dc : Datacenter)
    (n : ClusterNetworkingConfig) (pods services : NetworkRanges)
    (hvalid : hp.validateClusterFields k d = [])
    (hdc : getDatacenterByName hp k d log = (some dc, [], log ++ [Call.ListDatacenters]))
    (hnet : (hp.expandClusterSpec d.spec (d.GetString "dc_name")).ClusterNetwork = some n)
    (hpods : n.Pods = some pods) (hservices : n.Services = some services) :
    ∃ body rest,
      (resourceClusterCreate hp k d readyTicks log).2.2
        = log ++ [Call.ListDatacenters]
          ++ Call.CreateCluster (d.GetString "project_id") dc.Spec.Seed body :: rest ∧
      (∀ b, pods.CIDRBlocks = [b] → body.PodsCIDR = b) ∧
      (1 < pods.CIDRBlocks.length → body.PodsCIDR = "") ∧
      (∀ b, services.CIDRBlocks = [b] → body.ServicesCIDR = b) ∧
      (1 < services.CIDRBlocks.length → body.ServicesCIDR = "") := by
  obtain ⟨rest, hrest⟩ := create_apply_log hp k d dc readyTicks (log ++ [Call.ListDatacenters])
  refine ⟨(createClusterSpecOf d (hp.expandClusterSpec d.spec (d.GetString "dc_name"))).1,
    rest, ?_, ?_, ?_, ?_, ?_⟩
  · simp only [resourceClusterCreate, hdc, hvalid]
    rw [if_neg (by simp), ← hrest]
    simp
  · intro b hb
    obtain ⟨blocks⟩ := pods
    replace hb : blocks = [b] := hb
    subst hb
    simp only [createClusterSpecOf, hnet, hpods]
    exact cidrScalar_one "pods" b
  · intro h
    obtain ⟨blocks⟩ := pods
    simp only [createClusterSpecOf, hnet, hpods]
    exact cidrScalar_many "pods" blocks h
  · intro b hb
    obtain ⟨blocks⟩ := services
    replace hb : blocks = [b] := hb
    subst hb
    simp only [createClusterSpecOf, hnet, hservices]
    exact cidrScalar_one "services" b
  · intro h
    obtain ⟨blocks⟩ := services
    simp only [createClusterSpecOf, hnet, hservices]
    exact cidrScalar_many "services" blocks h

/-- C18, witness: one pods block and one services block; each is the scalar of the request
body. -/
theorem resourceClusterCreate_cidr_scalar_witness :
    (oneBlockHelpers.validateClusterFields datacentersRemote (openstackData "" "dc-c") = [] ∧
      (oneBlockHelpers.expandClusterSpec (openstackData "" "dc-c").spec
        ((openstackData "" "dc-c").GetString "dc_name")).ClusterNetwork
        = some { Pods := some { CIDRBlocks := ["10.0.0.0/16"] }
                 Services := some { CIDRBlocks := ["10.2.0.0/16"] } }) ∧
    ∃ body rest,
      (resourceClusterCreate oneBlockHelpers datacentersRemote
          (openstackData "" "dc-c") 3 []).2.2
        = [] ++ [Call.ListDatacenters]
          ++ Call.CreateCluster ((openstackData "" "dc-c").GetString "project_id")
            (Datacenter.mk { Name := "dc-c" } { Seed := "seed-c", Openstack := true }).Spec.Seed
            body :: rest ∧
      body.PodsCIDR = "10.0.0.0/16" ∧ body.ServicesCIDR = "10.2.0.0/16" := by
  obtain ⟨body, rest, hlog, hp1, _, hs1, _⟩ :=
    resourceClusterCreate_cidr_scalar oneBlockHelpers datacentersRemote
      (openstackData "" "dc-c") 3 []
      { Metadata := { Name := "dc-c" }, Spec := { Seed := "seed-c", Openstack := true } }
      { Pods := some { CIDRBlocks := ["10.0.0.0/16"] }
        Services := some { CIDRBlocks := ["10.2.0.0/16"] } }
      { CIDRBlocks := ["10.0.0.0/16"] } { CIDRBlocks := ["10.2.0.0/16"] }
      rfl (by decide) rfl rfl rfl
  exact ⟨⟨rfl, rfl⟩, body, rest, hlog, hp1 _ rfl, hs1 _ rfl⟩

/-- C20, counterexample: the first health query is forbidden, yet the waiter polls again
and returns success after the second poll. -/
theorem waitClusterReady_retries_forbidden :
    forbiddenThenUpRemote.GetClusterHealth 0
      = .error (GoError.Other "getClusterHealthForbidden") ∧
    waitClusterReady GoError.Error forbiddenThenUpRemote { Id := "p:dc:c" } "p" "dc" "c" 5 []
      = (none, [Call.GetClusterHealth "p" "dc" "c", Call.GetClusterHealth "p" "dc" "c"]) :=
  ⟨rfl, by decide⟩

theorem retry_health_all_errors (getErrorResponse : GoError → String)
    (k : metakubeProviderMeta) (d : ResourceData) (p s c : String) :
    ∀ (ticks : Nat) (log : List Call) (last : Option GoError),
      (∀ i, ∃ e, k.GetClusterHealth (log.countP Call.isGetClusterHealth + i) = .error e) →
      (RetryContext (waitClusterReady_retryFunc getErrorResponse k d p s c) ticks log last).2
        = log ++ List.replicate ticks (Call.GetClusterHealth p s c) ∧
      (RetryContext (waitClusterReady_retryFunc getErrorResponse k d p s c) ticks log last).1
        ≠ none := by
  intro ticks
  induction ticks with
  | zero => intro log last _; simp [RetryContext]
  | succ n ih =>
    intro log last h
    obtain ⟨e, he⟩ := h 0
    rw [Nat.add_zero] at he
    have hstep : RetryContext (waitClusterReady_retryFunc getErrorResponse k d p s c)
        (n + 1) log last
        = RetryContext (waitClusterReady_retryFunc getErrorResponse k d p s c) n
          (log ++ [Call.GetClusterHealth p s c])
          (some (Errorf ("unable to get cluster '" ++ d.Id ++ "' health: "
            ++ getErrorResponse e))) := by
      simp [RetryContext, waitClusterReady_retryFunc, he, RetryableError]
    have h2 : ∀ i, ∃ e, k.GetClusterHealth
        ((log ++ [Call.GetClusterHealth p s c]).countP Call.isGetClusterHealth + i)
        = .error e := by
      intro i
      rw [count_health_append]
      obtain ⟨e2, he2⟩ := h (i + 1)
      exact ⟨e2, by rw [← he2]; congr 1; omega⟩
    obtain ⟨hl, hn⟩ := ih _ (some (Errorf ("unable to get cluster '" ++ d.Id ++ "' health: "
      ++ getErrorResponse e))) h2
    rw [hstep]
    refine ⟨?_, hn⟩
    rw [hl]
    simp [List.replicate_succ]

/-- C20, amended: when the health query fails, with whatever error, the tick of
`waitClusterReady` returns a retryable error and the loop goes on to the next poll; if
every health query fails the waiter polls once per tick until the timeout and then
returns an error. -/
theorem waitClusterReady_error_is_retryable (getErrorResponse : GoError → String)
    (k : metakubeProviderMeta) (d : ResourceData) (projectID seedDC clusterID : String)
    (log : List Call) (err : GoError)
    (herr : k.GetClusterHealth (log.countP Call.isGetClusterHealth) = .error err) :
    waitClusterReady_retryFunc getErrorResponse k d projectID seedDC clusterID log
      = (some { Err := Errorf ("unable to get cluster '" ++ d.Id ++ "' health: "
                  ++ getErrorResponse err),
                Retryable := true },
          log ++ [Call.GetClusterHealth projectID seedDC clusterID]) ∧
    (∀ n last, RetryContext
        (waitClusterReady_retryFunc getErrorResponse k d projectID seedDC clusterID)
        (n + 1) log last
      = RetryContext
        (waitClusterReady_retryFunc getErrorResponse k d projectID seedDC clusterID)
        n (log ++ [Call.GetClusterHealth projectID seedDC clusterID])
        (some (Errorf ("unable to get cluster '" ++ d.Id ++ "' health: "
          ++ getErrorResponse err)))) ∧
    ((∀ i, ∃ e, k.GetClusterHealth (log.countP Call.isGetClusterHealth + i) = .error e) →
      ∀ ticks,
        (waitClusterReady getErrorResponse k d projectID seedDC clusterID ticks log).2
          = log ++ List.replicate ticks (Call.GetClusterHealth projectID seedDC clusterID) ∧
        (waitClusterReady getErrorResponse k d projectID seedDC clusterID ticks log).1
          ≠ none) := by
  have htick : waitClusterReady_retryFunc getErrorResponse k d projectID seedDC clusterID log
      = (some { Err := Errorf ("unable to get cluster '" ++ d.Id ++ "' health: "
                  ++ getErrorResponse err),
                Retryable := true },
          log ++ [Call.GetClusterHealth projectID seedDC clusterID]) := by
    simp [waitClusterReady_retryFunc, herr, RetryableError]
  refine ⟨htick, ?_, ?_⟩
  · intro n last
    simp [RetryContext, htick]
  · intro hall ticks
    exact retry_health_all_errors getErrorResponse k d projectID seedDC clusterID ticks log
      none hall

/-- C20, witness: a forbidden health query. -/
theorem waitClusterReady_error_is_retryable_witness :
    forbiddenThenUpRemote.GetClusterHealth (([] : List Call).countP Call.isGetClusterHealth)
      = .error (GoError.Other "getClusterHealthForbidden") ∧
    waitClusterReady_retryFunc GoError.Error forbiddenThenUpRemote { Id := "p:dc:c" }
        "p" "dc" "c" []
      = (some { Err := Errorf ("unable to get cluster '" ++ "p:dc:c" ++ "' health: "
                  ++ "getClusterHealthForbidden"),
                Retryable := true },
          [] ++ [Call.GetClusterHealth "p" "dc" "c"]) :=
  ⟨rfl, (waitClusterReady_error_is_retryable GoError.Error forbiddenThenUpRemote
    { Id := "p:dc:c" } "p" "dc" "c" [] (GoError.Other "getClusterHealthForbidden") rfl).1⟩

/-! ## SSH keys -/

theorem count_detach_append (log : List Call) (p s c id : String) :
    (log ++ [Call.DetachSSHKeyFromCluster p s c id]).countP Call.isDetachSSHKeyFromCluster
      = log.countP Call.isDetachSSHKeyFromCluster + 1 := by
  simp [List.countP_append, Call.isDetachSSHKeyFromCluster]

theorem count_assign_append (log : List Call) (p s c id : String) :
    (log ++ [Call.AssignSSHKeyToCluster p s c id]).countP Call.isAssignSSHKeyToCluster
      = log.countP Call.isAssignSSHKeyToCluster + 1 := by
  simp [List.countP_append, Call.isAssignSSHKeyToCluster]

theorem count_assign_detach_calls (log : List Call) (p s c : String) (keys : List String) :
    (log ++ keys.map (Call.DetachSSHKeyFromCluster p s c)).countP Call.isAssignSSHKeyToCluster
      = log.countP Call.isAssignSSHKeyToCluster := by
  rw [List.countP_append]
  have : (keys.map (Call.DetachSSHKeyFromCluster p s c)).countP Call.isAssignSSHKeyToCluster
      = 0 := by
    rw [List.countP_eq_zero]
    intro a ha
    obtain ⟨id, _, rfl⟩ := List.mem_map.mp ha
    simp [Call.isAssignSSHKeyToCluster]
  rw [this, Nat.add_zero]

/-- One passed detach call: the loop goes on with the next key. -/
theorem detach_step (k : metakubeProviderMeta) (p s c id : String) (rest : List String)
    (log : List Call)
    (h : detachPassed (k.DetachSSHKeyFromCluster (log.countP Call.isDetachSSHKeyFromCluster))) :
    updateClusterSSHKeys_detach k p s c (id :: rest) log
      = updateClusterSSHKeys_detach k p s c rest
          (log ++ [Call.DetachSSHKeyFromCluster p s c id]) := by
  rcases h with h | ⟨t, h⟩
  · simp [updateClusterSSHKeys_detach, h]
  · simp [updateClusterSSHKeys_detach, h]

/-- A failed detach call, other than a 404: the loop stops. -/
theorem detach_stop (k : metakubeProviderMeta) (p s c id : String) (rest : List String)
    (log : List Call) (err : GoError)
    (h : k.DetachSSHKeyFromCluster (log.countP Call.isDetachSSHKeyFromCluster) = some err)
    (hne : ∀ t, err ≠ GoError.DetachSSHKeyFromClusterDefault StatusNotFound t) :
    updateClusterSSHKeys_detach k p s c (id :: rest) log
      = (diagFromErr err, log ++ [Call.DetachSSHKeyFromCluster p s c id]) := by
  cases err with
  | DetachSSHKeyFromClusterDefault code t =>
    have hcode : ¬ code = StatusNotFound := by
      rintro rfl
      exact hne t rfl
    simp [updateClusterSSHKeys_detach, h, hcode]
  | _ => simp [updateClusterSSHKeys_detach, h]

theorem detach_fail_fast (k : metakubeProviderMeta) (p s c : String) :
    ∀ (pre : List String) (key : String) (post : List String) (log : List Call)
      (err : GoError),
      (∀ i, i < pre.length → detachPassed
        (k.DetachSSHKeyFromCluster (log.countP Call.isDetachSSHKeyFromCluster + i))) →
      k.DetachSSHKeyFromCluster (log.countP Call.isDetachSSHKeyFromCluster + pre.length)
        = some err →
      (∀ t, err ≠ GoError.DetachSSHKeyFromClusterDefault StatusNotFound t) →
      updateClusterSSHKeys_detach k p s c (pre ++ key :: post) log
        = (diagFromErr err,
            log ++ (pre ++ [key]).map (Call.DetachSSHKeyFromCluster p s c)) := by
  intro pre
  induction pre with
  | nil =>
    intro key post log err _ herr hne
    rw [List.length_nil, Nat.add_zero] at herr
    rw [List.nil_append, detach_stop k p s c key post log err herr hne]
    rfl
  | cons id rest ih =>
    intro key post log err hpre herr hne
    have h0 := hpre 0 (by simp)
    rw [Nat.add_zero] at h0
    rw [List.cons_append, detach_step k p s c id _ log h0,
      ih key post _ err ?_ ?_ hne]
    · simp
    · intro i hi
      rw [count_detach_append]
      have := hpre (i + 1) (by simp; omega)
      rwa [show log.countP Call.isDetachSSHKeyFromCluster + 1 + i
        = log.countP Call.isDetachSSHKeyFromCluster + (i + 1) by omega]
    · rw [count_detach_append]
      rw [← herr]
      congr 1
      simp
      omega

theorem detach_all_passed (k : metakubeProviderMeta) (p s c : String) :
    ∀ (keys : List String) (log : List Call),
      (∀ i, i < keys.length → detachPassed
        (k.DetachSSHKeyFromCluster (log.countP Call.isDetachSSHKeyFromCluster + i))) →
      updateClusterSSHKeys_detach k p s c keys log
        = ([], log ++ keys.map (Call.DetachSSHKeyFromCluster p s c)) := by
  intro keys
  induction keys with
  | nil => intro log _; simp [updateClusterSSHKeys_detach]
  | cons id rest ih =>
    intro log h
    have h0 := h 0 (by simp)
    rw [Nat.add_zero] at h0
    rw [detach_step k p s c id _ log h0, ih _ ?_]
    · simp
    · intro i hi
      rw [count_detach_append]
      have := h (i + 1) (by simp; omega)
      rwa [show log.countP Call.isDetachSSHKeyFromCluster + 1 + i
        = log.countP Call.isDetachSSHKeyFromCluster + (i + 1) by omega]

theorem assign_fail_fast (k : metakubeProviderMeta) (p s c : String) :
    ∀ (pre : List String) (key : String) (post : List String) (log : List Call)
      (err : GoError),
      (∀ i, i < pre.length →
        k.AssignSSHKeyToCluster (log.countP Call.isAssignSSHKeyToCluster + i) = none) →
      k.AssignSSHKeyToCluster (log.countP Call.isAssignSSHKeyToCluster + pre.length)
        = some err →
      assignSSHKeysToCluster k p s c (pre ++ key :: post) log
        = ([{ severity := Severity.Error,
              Summary := "Can't assign sshkeys to cluster '" ++ c ++ "': " ++ err.Error,
              AttributePath := ["sshkeys"] }],
            log ++ (pre ++ [key]).map (Call.AssignSSHKeyToCluster p s c)) := by
  intro pre
  induction pre with
  | nil =>
    intro key post log err _ herr
    rw [List.length_nil, Nat.add_zero] at herr
    simp [assignSSHKeysToCluster, herr]
  | cons id rest ih =>
    intro key post log err hpre herr
    have h0 := hpre 0 (by simp)
    rw [Nat.add_zero] at h0
    have hstep : assignSSHKeysToCluster k p s c ((id :: rest) ++ key :: post) log
        = assignSSHKeysToCluster k p s c (rest ++ key :: post)
          (log ++ [Call.AssignSSHKeyToCluster p s c id]) := by
      simp [assignSSHKeysToCluster, h0]
    rw [hstep, ih key post _ err ?_ ?_]
    · simp
    · intro i hi
      rw [count_assign_append]
      have := hpre (i + 1) (by simp; omega)
      rwa [show log.countP Call.isAssignSSHKeyToCluster + 1 + i
        = log.countP Call.isAssignSSHKeyToCluster + (i + 1) by omega]
    · rw [count_assign_append]
      rw [← herr]
      congr 1
      simp
      omega

/-- C19, counterexample: the detach call for `k1` fails with a 404; the failure is not
returned and the calls for `k2`, `k3` and `k4` are issued. -/
theorem updateClusterSSHKeys_skips_detach_not_found :
    detachNotFoundRemote.DetachSSHKeyFromCluster 0
      = some (GoError.DetachSSHKeyFromClusterDefault 404 "not found") ∧
    updateClusterSSHKeys detachNotFoundRemote keysData []
      = ([], [Call.DetachSSHKeyFromCluster "p" "dc" "c" "k1",
              Call.DetachSSHKeyFromCluster "p" "dc" "c" "k2",
              Call.DetachSSHKeyFromCluster "p" "dc" "c" "k3",
              Call.AssignSSHKeyToCluster "p" "dc" "c" "k4"]) := by
  decide

/-- C19, amended: in `updateClusterSSHKeys` the first detach call that fails with anything but
a 404 (a 404 is skipped as already detached) is returned at once, and the first assign
call that fails is returned at once, also in `assignSSHKeysToCluster` on its own; the call
log ends with the failed call: no call for a later key, no compensating call for the keys
already processed. -/
theorem sshkeys_fail_fast (k : metakubeProviderMeta) (d : ResourceData) (log : List Call)
    (projectID seedDC clusterID : String)
    (hid : metakubeClusterParseID d.Id = (projectID, seedDC, clusterID, none)) :
    (∀ pre key post err,
      d.sshkeysOld.filter (fun id => !d.sshkeys.contains id) = pre ++ key :: post →
      (∀ i, i < pre.length → detachPassed
        (k.DetachSSHKeyFromCluster (log.countP Call.isDetachSSHKeyFromCluster + i))) →
      k.DetachSSHKeyFromCluster (log.countP Call.isDetachSSHKeyFromCluster + pre.length)
        = some err →
      (∀ t, err ≠ GoError.DetachSSHKeyFromClusterDefault StatusNotFound t) →
      updateClusterSSHKeys k d log
        = ([{ severity := Severity.Error, Summary := err.Error }],
            log ++ (pre ++ [key]).map
              (Call.DetachSSHKeyFromCluster projectID seedDC clusterID))) ∧
    (∀ pre key post err,
      d.sshkeys.filter (fun id => !d.sshkeysOld.contains id) = pre ++ key :: post →
      (∀ i, i < (d.sshkeysOld.filter (fun id => !d.sshkeys.contains id)).length →
        detachPassed
          (k.DetachSSHKeyFromCluster (log.countP Call.isDetachSSHKeyFromCluster + i))) →
      (∀ i, i < pre.length →
        k.AssignSSHKeyToCluster (log.countP Call.isAssignSSHKeyToCluster + i) = none) →
      k.AssignSSHKeyToCluster (log.countP Call.isAssignSSHKeyToCluster + pre.length)
        = some err →
      updateClusterSSHKeys k d log
        = ([{ severity := Severity.Error,
              Summary := "Can't assign sshkeys to cluster '" ++ clusterID ++ "': "
                ++ err.Error,
              AttributePath := ["sshkeys"] }],
            log ++ (d.sshkeysOld.filter (fun id => !d.sshkeys.contains id)).map
                (Call.DetachSSHKeyFromCluster projectID seedDC clusterID)
              ++ (pre ++ [key]).map
                (Call.AssignSSHKeyToCluster projectID seedDC clusterID))) ∧
    (∀ pre key post err (log2 : List Call),
      (∀ i, i < pre.length →
        k.AssignSSHKeyToCluster (log2.countP Call.isAssignSSHKeyToCluster + i) = none) →
      k.AssignSSHKeyToCluster (log2.countP Call.isAssignSSHKeyToCluster + pre.length)
        = some err →
      assignSSHKeysToCluster k projectID seedDC clusterID (pre ++ key :: post) log2
        = ([{ severity := Severity.Error,
              Summary := "Can't assign sshkeys to cluster '" ++ clusterID ++ "': "
                ++ err.Error,
              AttributePath := ["sshkeys"] }],
            log2 ++ (pre ++ [key]).map
              (Call.AssignSSHKeyToCluster projectID seedDC clusterID))) := by
  refine ⟨?_, ?_, ?_⟩
  · intro pre key post err hun hpre herr hne
    simp only [updateClusterSSHKeys, hid, hun]
    rw [detach_fail_fast k projectID seedDC clusterID pre key post log err hpre herr hne]
    simp [diagFromErr]
  · intro pre key post err has hdet hpre herr
    simp only [updateClusterSSHKeys, hid, has]
    rw [detach_all_passed k projectID seedDC clusterID _ log hdet]
    simp only [ne_eq, not_true_eq_false, if_false]
    rw [assign_fail_fast k projectID seedDC clusterID pre key post _ err ?_ ?_]
    · intro i hi
      rw [count_assign_detach_calls]
      exact hpre i hi
    · rw [count_assign_detach_calls]
      exact herr
  · intro pre key post err log2 hpre herr
    exact assign_fail_fast k projectID seedDC clusterID pre key post log2 err hpre herr

/-- C19, witness: the detach call for `k2` fails with a 500; no call for `k3` or `k4`. -/
theorem sshkeys_fail_fast_witness :
    metakubeClusterParseID keysData.Id = ("p", "dc", "c", none) ∧
    updateClusterSSHKeys detachFailsRemote keysData []
      = ([{ severity := Severity.Error,
            Summary := (GoError.DetachSSHKeyFromClusterDefault 500 "boom").Error }],
          [] ++ (["k1"] ++ ["k2"]).map (Call.DetachSSHKeyFromCluster "p" "dc" "c")) :=
  ⟨by decide, (sshkeys_fail_fast detachFailsRemote keysData [] "p" "dc" "c" (by decide)).1
    ["k1"] "k2" ["k3"] (GoError.DetachSSHKeyFromClusterDefault 500 "boom") (by decide)
    (by
      intro i hi
      have hi0 : i = 0 := by simpa using hi
      subst hi0
      exact Or.inl rfl)
    rfl
    (by
      intro t h
      have hc : (500 : Int) = StatusNotFound := (GoError.DetachSSHKeyFromClusterDefault.inj h).1
      revert hc
      decide)⟩

/-! ## Retryable and non-retryable failures of mutating calls -/

/-- C21, counterexample: a `PatchCluster` answered with 500 and a `DeleteCluster` answered
with 503 each end the operation with an error after that one call. -/
theorem server_error_ends_patch_and_delete :
    patchClusterFields plainHelpers patchServerErrorRemote { Id := "p:dc:c" } 5 []
      = (some (Errorf ("patch cluster '" ++ "p:dc:c" ++ "': " ++ "internal error")),
          [Call.PatchCluster "p" "dc" "c"]) ∧
    resourceClusterDelete GoError.Error deleteServerErrorRemote { Id := "p:dc:c" } 5 []
      = ([{ severity := Severity.Error,
            Summary := "unable to delete cluster '" ++ "p:dc:c" ++ "': " ++ "unavailable" }],
          [Call.DeleteCluster "p" "dc" "c"]) := by
  decide

/-- C21, amended: of the failures of a mutating call only HTTP 409 is retried. In
`patchClusterFields` a `PatchClusterDefault` with code 409 is retryable and the loop issues
`PatchCluster` again; every other error, a 5xx included, is non-retryable and ends the
loop at once. In `resourceClusterDelete` a `DeleteClusterDefault` with a 5xx code ends the
loop at once with a non-retryable error, while code 409 is retryable. -/
theorem only_conflict_is_retried (hp : Helpers) (k : metakubeProviderMeta) (d : ResourceData)
    (projectID seedDC clusterID : String) (n : Nat) (last : Option GoError) :
    (∀ (log : List Call) (t : String),
      k.PatchCluster (log.countP Call.isPatchCluster)
        = some (GoError.PatchClusterDefault StatusConflict t) →
      patchClusterFields_retryFunc hp k d projectID seedDC clusterID log
        = (some { Err := Errorf ("cluster patch conflict: " ++ t), Retryable := true },
            log ++ [Call.PatchCluster projectID seedDC clusterID]) ∧
      RetryContext (patchClusterFields_retryFunc hp k d projectID seedDC clusterID)
          (n + 1) log last
        = RetryContext (patchClusterFields_retryFunc hp k d projectID seedDC clusterID) n
            (log ++ [Call.PatchCluster projectID seedDC clusterID])
            (some (Errorf ("cluster patch conflict: " ++ t)))) ∧
    (∀ (log : List Call) (err : GoError),
      k.PatchCluster (log.countP Call.isPatchCluster) = some err →
      (∀ t, err ≠ GoError.PatchClusterDefault StatusConflict t) →
      ∃ e, patchClusterFields_retryFunc hp k d projectID seedDC clusterID log
          = (some { Err := e, Retryable := false },
              log ++ [Call.PatchCluster projectID seedDC clusterID]) ∧
        RetryContext (patchClusterFields_retryFunc hp k d projectID seedDC clusterID)
            (n + 1) log last
          = (some e, log ++ [Call.PatchCluster projectID seedDC clusterID])) ∧
    (∀ (st : DeleteState) (code : Int) (t : String), st.deleteSent = false →
      500 ≤ code → code ≤ 599 →
      k.DeleteCluster (st.log.countP Call.isDeleteCluster)
        = some (GoError.DeleteClusterDefault code t) →
      RetryContext (resourceClusterDelete_retryFunc hp.getErrorResponse k d projectID seedDC
          clusterID) (n + 1) st last
        = (some (Errorf ("unable to delete cluster '" ++ d.Id ++ "': "
            ++ hp.getErrorResponse (GoError.DeleteClusterDefault code t))),
            { deleteSent := false,
              log := st.log ++ [Call.DeleteCluster projectID seedDC clusterID] })) ∧
    (∀ (st : DeleteState) (t : String), st.deleteSent = false →
      k.DeleteCluster (st.log.countP Call.isDeleteCluster)
        = some (GoError.DeleteClusterDefault StatusConflict t) →
      RetryContext (resourceClusterDelete_retryFunc hp.getErrorResponse k d projectID seedDC
          clusterID) (n + 1) st last
        = RetryContext (resourceClusterDelete_retryFunc hp.getErrorResponse k d projectID
            seedDC clusterID) n
            { deleteSent := false,
              log := st.log ++ [Call.DeleteCluster projectID seedDC clusterID] }
            (some (GoError.DeleteClusterDefault StatusConflict t))) := by
  refine ⟨?_, ?_, ?_, ?_⟩
  · intro log t h
    have htick : patchClusterFields_retryFunc hp k d projectID seedDC clusterID log
        = (some { Err := Errorf ("cluster patch conflict: " ++ t), Retryable := true },
            log ++ [Call.PatchCluster projectID seedDC clusterID]) := by
      simp [patchClusterFields_retryFunc, h, RetryableError, GoError.Error]
    exact ⟨htick, by simp [RetryContext, htick]⟩
  · intro log err h hne
    have htick : ∃ e, patchClusterFields_retryFunc hp k d projectID seedDC clusterID log
          = (some { Err := e, Retryable := false },
              log ++ [Call.PatchCluster projectID seedDC clusterID]) := by
      cases err with
      | PatchClusterDefault code t =>
        have hcode : ¬ code = StatusConflict := by
          rintro rfl
          exact hne t rfl
        by_cases hm : hp.errorMessage (GoError.PatchClusterDefault code t) = ""
        · exact ⟨_, by simp [patchClusterFields_retryFunc, h, hcode, hm, NonRetryableError]; rfl⟩
        · exact ⟨_, by simp [patchClusterFields_retryFunc, h, hcode, hm, NonRetryableError]; rfl⟩
      | _ => exact ⟨_, by simp [patchClusterFields_retryFunc, h, NonRetryableError]; rfl⟩
    obtain ⟨e, he⟩ := htick
    exact ⟨e, he, by simp [RetryContext, he]⟩
  · intro st code t hs h5 h6 h
    cases st with
    | mk sent l =>
      simp only at hs h
      subst hs
      have h409 : ¬ code = StatusConflict := by
        unfold StatusConflict; omega
      have h404 : ¬ code = StatusNotFound := by
        unfold StatusNotFound; omega
      simp [RetryContext, resourceClusterDelete_retryFunc, h, h409, h404, NonRetryableError]
  · intro st t hs h
    cases st with
    | mk sent l =>
      simp only at hs h
      subst hs
      simp [RetryContext, resourceClusterDelete_retryFunc, h, RetryableError]

/-! ## Node-deployment validation -/

/-- C22. A node deployment whose cloud variant differs from its cluster's is rejected: the
batch holds an error whose message is `provider for node deployment must (<variant>) match
cluster provider (<variant>)` with the names of both variants, which differ, and no
mutating call is issued. -/
theorem node_deployment_variant_mismatch_rejected {V : Type}
    (NewVersion : String → Option V) (LessThan : V → V → Bool) (update : Bool)
    (cluster : OwningCluster) (nd : NodeDeploymentSpec) (log : List NodeDeploymentCall)
    (hdiff : nd.cloud ≠ cluster.cloud) :
    ({ severity := Severity.Error,
       Summary := "provider for node deployment must (" ++ nd.cloud.name
         ++ ") match cluster provider (" ++ cluster.cloud.name ++ ")" } : Diagnostic)
      ∈ (nodeDeploymentApply NewVersion LessThan update cluster nd log).1 ∧
    (nodeDeploymentApply NewVersion LessThan update cluster nd log).1
      = validateNodeDeployment NewVersion LessThan cluster nd ∧
    (nodeDeploymentApply NewVersion LessThan update cluster nd log).2 = log ∧
    nd.cloud.name ≠ cluster.cloud.name := by
  have hmem : (⟨Severity.Error, "provider for node deployment must (" ++ nd.cloud.name
      ++ ") match cluster provider (" ++ cluster.cloud.name ++ ")", "", []⟩ : Diagnostic)
      ∈ validateNodeDeployment NewVersion LessThan cluster nd := by
    simp [validateNodeDeployment, validateProviderMatch, hdiff, diagErrorf]
  have hne : validateNodeDeployment NewVersion LessThan cluster nd ≠ [] :=
    List.ne_nil_of_mem hmem
  have happly : nodeDeploymentApply NewVersion LessThan update cluster nd log
      = (validateNodeDeployment NewVersion LessThan cluster nd, log) := by
    simp [nodeDeploymentApply, hne]
  refine ⟨by rw [happly]; exact hmem, by rw [happly], by rw [happly], ?_⟩
  intro h
  apply hdiff
  revert h
  cases nd.cloud <;> cases cluster.cloud <;> decide

/-- C22, witness: the cluster is aws, the node deployment azure. -/
theorem node_deployment_variant_mismatch_rejected_witness :
    CloudVariant.Azure ≠ awsCluster.cloud ∧
    (({ severity := Severity.Error,
        Summary := "provider for node deployment must (" ++ CloudVariant.Azure.name
          ++ ") match cluster provider (" ++ awsCluster.cloud.name ++ ")" } : Diagnostic)
      ∈ (nodeDeploymentApply plainNewVersion plainLessThan false awsCluster
          { replicas := 1, cloud := CloudVariant.Azure, kubelet := "1.18.0" } []).1) ∧
    (nodeDeploymentApply plainNewVersion plainLessThan false awsCluster
        { replicas := 1, cloud := CloudVariant.Azure, kubelet := "1.18.0" } []).2 = [] :=
  ⟨by decide,
    (node_deployment_variant_mismatch_rejected plainNewVersion plainLessThan false awsCluster
      { replicas := 1, cloud := CloudVariant.Azure, kubelet := "1.18.0" } [] (by decide)).1,
    (node_deployment_variant_mismatch_rejected plainNewVersion plainLessThan false awsCluster
      { replicas := 1, cloud := CloudVariant.Azure, kubelet := "1.18.0" } []
      (by decide)).2.2.1⟩

/-- C23. A kubelet version greater than the cluster version is rejected with an error
containing `cannot be greater than cluster version`; a kubelet version that is not among
the advertised versions is rejected with the error `unknown version for node deployment
<version>, available versions ...`, which names the version; the two messages differ; in
both cases no mutating call is issued. Against cluster version 1.18.0: 3.0.0 is rejected
as greater, 1.12.1 as unknown. -/
theorem kubelet_version_bound {V : Type}
    (NewVersion : String → Option V) (LessThan : V → V → Bool) (update : Bool)
    (cluster : OwningCluster) (nd : NodeDeploymentSpec) (log : List NodeDeploymentCall) :
    (kubeletExceeds NewVersion LessThan nd.kubelet cluster.version = true →
      ({ severity := Severity.Error,
         Summary := "node deployment version (" ++ nd.kubelet
           ++ ") cannot be greater than cluster version (" ++ cluster.version ++ ")" }
        : Diagnostic)
        ∈ (nodeDeploymentApply NewVersion LessThan update cluster nd log).1 ∧
      (nodeDeploymentApply NewVersion LessThan update cluster nd log).2 = log) ∧
    (nd.kubelet ∉ cluster.availableVersions →
      ({ severity := Severity.Error,
         Summary := "unknown version for node deployment " ++ nd.kubelet
           ++ ", available versions " ++ formatStrings cluster.availableVersions }
        : Diagnostic)
        ∈ (nodeDeploymentApply NewVersion LessThan update cluster nd log).1 ∧
      (nodeDeploymentApply NewVersion LessThan update cluster nd log).2 = log) ∧
    "cannot be greater than cluster version".data <:+:
      ("node deployment version (" ++ nd.kubelet
        ++ ") cannot be greater than cluster version (" ++ cluster.version ++ ")").data ∧
    nd.kubelet.data <:+:
      ("unknown version for node deployment " ++ nd.kubelet
        ++ ", available versions " ++ formatStrings cluster.availableVersions).data ∧
    ("node deployment version (" ++ nd.kubelet
        ++ ") cannot be greater than cluster version (" ++ cluster.version ++ ")")
      ≠ ("unknown version for node deployment " ++ nd.kubelet
        ++ ", available versions " ++ formatStrings cluster.availableVersions) ∧
    (nodeDeploymentApply plainNewVersion plainLessThan false awsCluster
        { replicas := 1, cloud := CloudVariant.AWS, kubelet := "3.0.0" } []).1.map (·.Summary)
      = ["node deployment version (3.0.0) cannot be greater than cluster version (1.18.0)",
         "unknown version for node deployment 3.0.0, available versions [1.17.9 1.18.0]"] ∧
    (nodeDeploymentApply plainNewVersion plainLessThan false awsCluster
        { replicas := 1, cloud := CloudVariant.AWS, kubelet := "1.12.1" } []).1.map (·.Summary)
      = ["unknown version for node deployment 1.12.1, available versions [1.17.9 1.18.0]"] := by
  have key : ∀ x : Diagnostic, x ∈ validateNodeDeployment NewVersion LessThan cluster nd →
      x ∈ (nodeDeploymentApply NewVersion LessThan update cluster nd log).1 ∧
      (nodeDeploymentApply NewVersion LessThan update cluster nd log).2 = log := by
    intro x hx
    have hne : validateNodeDeployment NewVersion LessThan cluster nd ≠ [] :=
      List.ne_nil_of_mem hx
    have happly : nodeDeploymentApply NewVersion LessThan update cluster nd log
        = (validateNodeDeployment NewVersion LessThan cluster nd, log) := by
      simp [nodeDeploymentApply, hne]
    rw [happly]
    exact ⟨hx, rfl⟩
  refine ⟨?_, ?_, ?_, ?_, ?_, by decide, by decide⟩
  · intro h
    apply key
    simp [validateNodeDeployment, validateKubeletNotGreater, h, diagErrorf]
  · intro h
    apply key
    simp [validateNodeDeployment, validateKubeletAvailable, h, diagErrorf]
  · refine ⟨("node deployment version (" ++ nd.kubelet ++ ") ").data,
      (" (" ++ cluster.version ++ ")").data, ?_⟩
    simp [String.data_append]
  · refine ⟨"unknown version for node deployment ".data,
      (", available versions " ++ formatStrings cluster.availableVersions).data, ?_⟩
    simp [String.data_append]
  · intro h
    have h2 := congrArg String.data h
    simp [String.data_append] at h2

/-! ## Decode after encode, and the SSH-key differences -/

/-- C24. Decode is a right inverse of encode: when `metakubeClusterParseID id` succeeds with
`(p, s, c)`, `metakubeClusterMakeID p s c = id`, `p` and `s` are non-empty and contain no
`:`, and `c` is non-empty. -/
theorem makeID_parseID_right_inverse (id p s c : String)
    (hok : metakubeClusterParseID id = (p, s, c, none)) :
    metakubeClusterMakeID p s c = id ∧
    p ≠ "" ∧ ':' ∉ p.data ∧ s ≠ "" ∧ ':' ∉ s.data ∧ c ≠ "" := by
  rcases parseID_cases id with h1 | ⟨a, b, e, ha, hb, he, hac, hbc, hid, hparse⟩
  · rw [h1] at hok
    simp at hok
  · rw [hparse] at hok
    simp only [Prod.mk.injEq, and_true] at hok
    obtain ⟨rfl, rfl, rfl⟩ := hok
    exact ⟨hid.symm, ha, hac, hb, hbc, he⟩

/-- C24, witness: the ID `a:b:c:d`. -/
theorem makeID_parseID_right_inverse_witness :
    metakubeClusterParseID "a:b:c:d" = ("a", "b", "c:d", none) ∧
    (metakubeClusterMakeID "a" "b" "c:d" = "a:b:c:d" ∧
      "a" ≠ "" ∧ ':' ∉ "a".data ∧ "b" ≠ "" ∧ ':' ∉ "b".data ∧ "c:d" ≠ "") :=
  ⟨by decide, makeID_parseID_right_inverse "a:b:c:d" "a" "b" "c:d" (by decide)⟩

/-- Every run of the detach loop: it goes through all the keys without a diagnostic, or it
stops with a diagnostic at a failed call. -/
theorem detach_outcome (k : metakubeProviderMeta) (p s c : String) :
    ∀ (keys : List String) (log : List Call),
      updateClusterSSHKeys_detach k p s c keys log
        = ([], log ++ keys.map (Call.DetachSSHKeyFromCluster p s c)) ∨
      ∃ pre key post, keys = pre ++ key :: post ∧
        (updateClusterSSHKeys_detach k p s c keys log).1 ≠ [] ∧
        (updateClusterSSHKeys_detach k p s c keys log).2
          = log ++ (pre ++ [key]).map (Call.DetachSSHKeyFromCluster p s c) := by
  intro keys
  induction keys with
  | nil => intro log; left; simp [updateClusterSSHKeys_detach]
  | cons id rest ih =>
    intro log
    have hnext : updateClusterSSHKeys_detach k p s c (id :: rest) log
        = updateClusterSSHKeys_detach k p s c rest
          (log ++ [Call.DetachSSHKeyFromCluster p s c id]) →
        (updateClusterSSHKeys_detach k p s c (id :: rest) log
          = ([], log ++ (id :: rest).map (Call.DetachSSHKeyFromCluster p s c)) ∨
        ∃ pre key post, id :: rest = pre ++ key :: post ∧
          (updateClusterSSHKeys_detach k p s c (id :: rest) log).1 ≠ [] ∧
          (updateClusterSSHKeys_detach k p s c (id :: rest) log).2
            = log ++ (pre ++ [key]).map (Call.DetachSSHKeyFromCluster p s c)) := by
      intro hstep
      rw [hstep]
      rcases ih (log ++ [Call.DetachSSHKeyFromCluster p s c id]) with h | ⟨pre, key, post, hk, hd, hl⟩
      · left; rw [h]; simp
      · right
        refine ⟨id :: pre, key, post, by rw [hk]; rfl, hd, ?_⟩
        rw [hl]; simp
    have hstop : ∀ err, updateClusterSSHKeys_detach k p s c (id :: rest) log
        = (diagFromErr err, log ++ [Call.DetachSSHKeyFromCluster p s c id]) →
        ∃ pre key post, id :: rest = pre ++ key :: post ∧
          (updateClusterSSHKeys_detach k p s c (id :: rest) log).1 ≠ [] ∧
          (updateClusterSSHKeys_detach k p s c (id :: rest) log).2
            = log ++ (pre ++ [key]).map (Call.DetachSSHKeyFromCluster p s c) := by
      intro err hs
      refine ⟨[], id, rest, rfl, ?_, ?_⟩
      · rw [hs]; simp [diagFromErr]
      · rw [hs]; rfl
    cases hd : k.DetachSSHKeyFromCluster (log.countP Call.isDetachSSHKeyFromCluster) with
    | none => exact hnext (detach_step k p s c id rest log (Or.inl hd))
    | some err =>
      by_cases h404 : ∃ t, err = GoError.DetachSSHKeyFromClusterDefault StatusNotFound t
      · obtain ⟨t, rfl⟩ := h404
        exact hnext (detach_step k p s c id rest log (Or.inr ⟨t, hd⟩))
      · right
        exact hstop err (detach_stop k p s c id rest log err hd
          (fun t ht => h404 ⟨t, ht⟩))

/-- Every run of the assign loop: all the keys without a diagnostic, or a stop with a
diagnostic at a failed call. -/
theorem assign_outcome (k : metakubeProviderMeta) (p s c : String) :
    ∀ (keys : List String) (log : List Call),
      assignSSHKeysToCluster k p s c keys log
        = ([], log ++ keys.map (Call.AssignSSHKeyToCluster p s c)) ∨
      ∃ pre key post, keys = pre ++ key :: post ∧
        (assignSSHKeysToCluster k p s c keys log).1 ≠ [] ∧
        (assignSSHKeysToCluster k p s c keys log).2
          = log ++ (pre ++ [key]).map (Call.AssignSSHKeyToCluster p s c) := by
  intro keys
  induction keys with
  | nil => intro log; left; simp [assignSSHKeysToCluster]
  | cons id rest ih =>
    intro log
    cases hd : k.AssignSSHKeyToCluster (log.countP Call.isAssignSSHKeyToCluster) with
    | none =>
      have hstep : assignSSHKeysToCluster k p s c (id :: rest) log
          = assignSSHKeysToCluster k p s c rest
            (log ++ [Call.AssignSSHKeyToCluster p s c id]) := by
        simp [assignSSHKeysToCluster, hd]
      rw [hstep]
      rcases ih (log ++ [Call.AssignSSHKeyToCluster p s c id]) with h | ⟨pre, key, post, hk, hne, hl⟩
      · left; rw [h]; simp
      · right
        refine ⟨id :: pre, key, post, by rw [hk]; rfl, hne, ?_⟩
        rw [hl]; simp
    | some err =>
      right
      refine ⟨[], id, rest, rfl, ?_, ?_⟩
      · simp [assignSSHKeysToCluster, hd]
      · simp [assignSSHKeysToCluster, hd]

theorem assign_all_ok (k : metakubeProviderMeta) (p s c : String) :
    ∀ (keys : List String) (log : List Call),
      (∀ i, i < keys.length →
        k.AssignSSHKeyToCluster (log.countP Call.isAssignSSHKeyToCluster + i) = none) →
      assignSSHKeysToCluster k p s c keys log
        = ([], log ++ keys.map (Call.AssignSSHKeyToCluster p s c)) := by
  intro keys
  induction keys with
  | nil => intro log _; simp [assignSSHKeysToCluster]
  | cons id rest ih =>
    intro log h
    have h0 := h 0 (by simp)
    rw [Nat.add_zero] at h0
    have hstep : assignSSHKeysToCluster k p s c (id :: rest) log
        = assignSSHKeysToCluster k p s c rest
          (log ++ [Call.AssignSSHKeyToCluster p s c id]) := by
      simp [assignSSHKeysToCluster, h0]
    rw [hstep, ih _ ?_]
    · simp
    · intro i hi
      rw [count_assign_append]
      have := h (i + 1) (by simp; omega)
      rwa [show log.countP Call.isAssignSSHKeyToCluster + 1 + i
        = log.countP Call.isAssignSSHKeyToCluster + (i + 1) by omega]

/-- C25, counterexample: the keys to detach are `k1`, `k2`, `k3` and the key to assign is
`k4`; the detach call for `k2` fails with a 500 and no call is issued for `k3` or `k4`. -/
theorem updateClusterSSHKeys_aborted_midway :
    keysData.sshkeysOld.filter (fun id => !keysData.sshkeys.contains id) = ["k1", "k2", "k3"] ∧
    keysData.sshkeys.filter (fun id => !keysData.sshkeysOld.contains id) = ["k4"] ∧
    (updateClusterSSHKeys detachFailsRemote keysData []).2
      = [Call.DetachSSHKeyFromCluster "p" "dc" "c" "k1",
         Call.DetachSSHKeyFromCluster "p" "dc" "c" "k2"] := by
  decide

/-- C25, amended: the keys to detach are those of the previous set that are not in the
current one, the keys to assign those of the current set that are not in the previous
one, and the two are disjoint. The calls issued are always an initial segment of: the
detach calls for the keys to detach, then the assign calls for the keys to assign; an
assign call is issued only after all the detach calls. When the update returns no
diagnostics, and so whenever every detach call passes (no error, or a 404) and every
assign call succeeds, the calls are exactly that sequence. -/
theorem updateClusterSSHKeys_set_differences (k : metakubeProviderMeta) (d : ResourceData)
    (log : List Call) (projectID seedDC clusterID : String)
    (hid : metakubeClusterParseID d.Id = (projectID, seedDC, clusterID, none)) :
    (∀ x, x ∈ d.sshkeysOld.filter (fun id => !d.sshkeys.contains id) ↔
      x ∈ d.sshkeysOld ∧ x ∉ d.sshkeys) ∧
    (∀ x, x ∈ d.sshkeys.filter (fun id => !d.sshkeysOld.contains id) ↔
      x ∈ d.sshkeys ∧ x ∉ d.sshkeysOld) ∧
    (∀ x, ¬ (x ∈ d.sshkeysOld.filter (fun id => !d.sshkeys.contains id) ∧
      x ∈ d.sshkeys.filter (fun id => !d.sshkeysOld.contains id))) ∧
    ((updateClusterSSHKeys k d log).1 = [] →
      (updateClusterSSHKeys k d log).2
        = log ++ (d.sshkeysOld.filter (fun id => !d.sshkeys.contains id)).map
              (Call.DetachSSHKeyFromCluster projectID seedDC clusterID)
            ++ (d.sshkeys.filter (fun id => !d.sshkeysOld.contains id)).map
              (Call.AssignSSHKeyToCluster projectID seedDC clusterID)) ∧
    (∃ u a, u <+: d.sshkeysOld.filter (fun id => !d.sshkeys.contains id) ∧
      a <+: d.sshkeys.filter (fun id => !d.sshkeysOld.contains id) ∧
      (a ≠ [] → u = d.sshkeysOld.filter (fun id => !d.sshkeys.contains id)) ∧
      (updateClusterSSHKeys k d log).2
        = log ++ u.map (Call.DetachSSHKeyFromCluster projectID seedDC clusterID)
            ++ a.map (Call.AssignSSHKeyToCluster projectID seedDC clusterID)) ∧
    ((∀ i, i < (d.sshkeysOld.filter (fun id => !d.sshkeys.contains id)).length →
        detachPassed
          (k.DetachSSHKeyFromCluster (log.countP Call.isDetachSSHKeyFromCluster + i))) →
      (∀ i, i < (d.sshkeys.filter (fun id => !d.sshkeysOld.contains id)).length →
        k.AssignSSHKeyToCluster (log.countP Call.isAssignSSHKeyToCluster + i) = none) →
      updateClusterSSHKeys k d log
        = ([], log ++ (d.sshkeysOld.filter (fun id => !d.sshkeys.contains id)).map
              (Call.DetachSSHKeyFromCluster projectID seedDC clusterID)
            ++ (d.sshkeys.filter (fun id => !d.sshkeysOld.contains id)).map
              (Call.AssignSSHKeyToCluster projectID seedDC clusterID))) := by
  have hupd : updateClusterSSHKeys k d log
      = if (updateClusterSSHKeys_detach k projectID seedDC clusterID
            (d.sshkeysOld.filter (fun id => !d.sshkeys.contains id)) log).1 ≠ [] then
          updateClusterSSHKeys_detach k projectID seedDC clusterID
            (d.sshkeysOld.filter (fun id => !d.sshkeys.contains id)) log
        else assignSSHKeysToCluster k projectID seedDC clusterID
          (d.sshkeys.filter (fun id => !d.sshkeysOld.contains id))
          (updateClusterSSHKeys_detach k projectID seedDC clusterID
            (d.sshkeysOld.filter (fun id => !d.sshkeys.contains id)) log).2 := by
    simp only [updateClusterSSHKeys, hid]
  refine ⟨?_, ?_, ?_, ?_, ?_, ?_⟩
  · intro x; simp
  · intro x; simp
  · intro x; simp; tauto
  · intro hnil
    rcases detach_outcome k projectID seedDC clusterID
        (d.sshkeysOld.filter (fun id => !d.sshkeys.contains id)) log
      with hd | ⟨pre, key, post, _, hne, _⟩
    · rw [hupd, hd] at hnil ⊢
      simp only [ne_eq, not_true_eq_false, if_false] at hnil ⊢
      rcases assign_outcome k projectID seedDC clusterID
          (d.sshkeys.filter (fun id => !d.sshkeysOld.contains id))
          (log ++ (d.sshkeysOld.filter (fun id => !d.sshkeys.contains id)).map
            (Call.DetachSSHKeyFromCluster projectID seedDC clusterID))
        with ha | ⟨pre, key, post, _, hne, _⟩
      · rw [ha]
      · exact absurd hnil hne
    · rw [hupd, if_pos hne] at hnil
      exact absurd hnil hne
  · rcases detach_outcome k projectID seedDC clusterID
        (d.sshkeysOld.filter (fun id => !d.sshkeys.contains id)) log
      with hd | ⟨pre, key, post, hk, hne, hl⟩
    · rcases assign_outcome k projectID seedDC clusterID
          (d.sshkeys.filter (fun id => !d.sshkeysOld.contains id))
          (log ++ (d.sshkeysOld.filter (fun id => !d.sshkeys.contains id)).map
            (Call.DetachSSHKeyFromCluster projectID seedDC clusterID))
        with ha | ⟨pre, key, post, hk, _, hl⟩
      · refine ⟨_, _, List.prefix_refl _, List.prefix_refl _, fun _ => rfl, ?_⟩
        rw [hupd, hd]
        simp only [ne_eq, not_true_eq_false, if_false]
        rw [ha]
      · refine ⟨_, pre ++ [key], List.prefix_refl _, ?_, fun _ => rfl, ?_⟩
        · rw [hk]
          exact ⟨post, by simp⟩
        · rw [hupd, hd]
          simp only [ne_eq, not_true_eq_false, if_false]
          rw [hl]
    · refine ⟨pre ++ [key], [], ?_, List.nil_prefix, fun h => absurd rfl h, ?_⟩
      · rw [hk]
        exact ⟨post, by simp⟩
      · rw [hupd, if_pos hne, hl]
        simp
  · intro hdet hasg
    rw [hupd, detach_all_passed k projectID seedDC clusterID _ log hdet]
    simp only [ne_eq, not_true_eq_false, if_false]
    rw [assign_all_ok k projectID seedDC clusterID _ _ ?_]
    intro i hi
    rw [count_assign_detach_calls]
    exact hasg i hi

/-- C25, witness: `k1` is already detached (404), `k2` and `k3` detach, `k4` is assigned. -/
theorem updateClusterSSHKeys_set_differences_witness :
    metakubeClusterParseID keysData.Id = ("p", "dc", "c", none) ∧
    updateClusterSSHKeys detachNotFoundRemote keysData []
      = ([], [] ++ (keysData.sshkeysOld.filter (fun id => !keysData.sshkeys.contains id)).map
              (Call.DetachSSHKeyFromCluster "p" "dc" "c")
            ++ (keysData.sshkeys.filter (fun id => !keysData.sshkeysOld.contains id)).map
              (Call.AssignSSHKeyToCluster "p" "dc" "c")) :=
  ⟨by decide, (updateClusterSSHKeys_set_differences detachNotFoundRemote keysData []
    "p" "dc" "c" (by decide)).2.2.2.2.2
    (by
      intro i hi
      have hlen : (keysData.sshkeysOld.filter
          (fun id => !keysData.sshkeys.contains id)).length = 3 := by decide
      rw [hlen] at hi
      have hi3 : i = 0 ∨ i = 1 ∨ i = 2 := by omega
      rcases hi3 with rfl | rfl | rfl
      · exact Or.inr ⟨"not found", rfl⟩
      · exact Or.inl rfl
      · exact Or.inl rfl)
    (by intro i _; rfl)⟩

end Metakube
